import Mathlib

/-!
# LICHEM input reader and multipole routines

A shallow embedding of `src/Input_reader.cpp` (`ReadArgs`, `InitializeVariables`,
`ReadLICHEMInput`, `LICHEMErrorChecker`) and of `src/Multipoles.cpp`
(`RotateCharges`, `Cart2SphHarm`, `SphHarm2Charges`).

Conventions of the embedding.

* C++ `int` is `Int` and `double` is `ℚ`; no routine modelled here relies on
  wrap-around or rounding.
* A routine that can stop the program returns a `Res`: `ok` for a normal return,
  `exit` for `exit(0)`, `undefined` where C++ gives the step no meaning (an index
  outside a vector, a null `argv` entry, a quotient without integer value).
* An input stream is the list of the whitespace separated tokens it still holds
  and its fail bit.  A token carries its text and what an extraction into an `int`
  and into a `double` make of it.  A failed extraction sets the fail bit and the
  routine runs on: every later extraction from that stream fails and leaves its
  variable as it was.
* A local variable declared without initialiser holds an indeterminate value,
  which the environment supplies.
* Text written to `cout`/`cerr` is not modelled, except the message of an `exit`.
-/

namespace LICHEM

/-! ## Results of a run -/

/-- Outcome of running a routine. -/
inductive Res (α : Type) where
  | ok (a : α)
  | exit (msg : String)
  | undefined
  deriving DecidableEq

/-- Sequencing: the second routine runs only when the first returned. -/
def Res.bind {α β : Type} : Res α → (α → Res β) → Res β
  | .ok a, f => f a
  | .exit m, _ => .exit m
  | .undefined, _ => .undefined

/-- The routine returned normally. -/
def Res.returns {α : Type} : Res α → Bool
  | .ok _ => true
  | _ => false

/-- The routine ended the program through `exit(0)`. -/
def Res.exits {α : Type} : Res α → Bool
  | .exit _ => true
  | _ => false

/-! ## Data model -/

/-- A position (`Coord`): three doubles. -/
structure Coord where
  x : ℚ
  y : ℚ
  z : ℚ
  deriving DecidableEq

/-- Modelled from the spec: the declaration of `Mpole` is not in src (the source
only uses its field `q`).  Spec section 3: a scalar charge, a dipole, a symmetric
quadrupole, a symmetric rank-3 octupole, and references to up to three atoms that
define the local frame (z-axis atom, x-axis atom, optional chirality atom). -/
structure Mpole where
  q : ℚ
  Dx : ℚ
  Dy : ℚ
  Dz : ℚ
  Qxx : ℚ
  Qxy : ℚ
  Qxz : ℚ
  Qyy : ℚ
  Qyz : ℚ
  Qzz : ℚ
  Oxxx : ℚ
  Oxxy : ℚ
  Oxxz : ℚ
  Oxyy : ℚ
  Oxyz : ℚ
  Oxzz : ℚ
  Oyyy : ℚ
  Oyyz : ℚ
  Oyzz : ℚ
  Ozzz : ℚ
  Atom1 : Option Int
  Atom2 : Option Int
  Atom3 : Option Int
  deriving DecidableEq

/-- Modelled from the spec: the declaration of `RedMpole` is not in src.  Spec
section 3: real spherical-harmonic coefficients grouped by order, one for l = 0,
three for l = 1, five for l = 2 and seven for l = 3. -/
structure RedMpole where
  Q00 : ℚ
  Q10 : ℚ
  Q11c : ℚ
  Q11s : ℚ
  Q20 : ℚ
  Q21c : ℚ
  Q21s : ℚ
  Q22c : ℚ
  Q22s : ℚ
  Q30 : ℚ
  Q31c : ℚ
  Q31s : ℚ
  Q32c : ℚ
  Q32s : ℚ
  Q33c : ℚ
  Q33s : ℚ
  deriving DecidableEq

/-- Modelled from the spec: the declaration of `OctCharges` is not in src.  Spec
section 3: an ordered sequence of (offset from the atom centre, charge) pairs. -/
structure OctCharges where
  sites : List (Coord × ℚ)
  deriving DecidableEq

/-- Sum of the charges of a point-charge set. -/
def OctCharges.totalCharge (pc : OctCharges) : ℚ :=
  (pc.sites.map Prod.snd).sum

/-- The fields of `QMMMAtom` that the input reader touches.  `P`, `MP` and `PC`
hold one entry per replica. -/
structure QMMMAtom where
  m : ℚ
  QMregion : Bool
  MMregion : Bool
  PBregion : Bool
  BAregion : Bool
  Frozen : Bool
  QMTyp : String
  MMTyp : String
  NumTyp : Int
  id : Int
  Bonds : List Int
  P : List Coord
  MP : List Mpole
  PC : List OctCharges
  deriving DecidableEq

/-- The fields of `QMMMSettings` assigned by `InitializeVariables`. -/
structure QMMMSettings where
  Func : String
  Basis : String
  RAM : String
  MemMB : Bool
  Charge : String
  Spin : String
  BackDir : String
  Ensemble : String
  Temp : ℚ
  Beta : ℚ
  Press : ℚ
  Neq : Int
  Nsteps : Int
  Nbeads : Int
  accratio : ℚ
  Nprint : Int
  dt : ℚ
  tautemp : ℚ
  MaxOptSteps : Int
  MMOptTol : ℚ
  QMOptTol : ℚ
  StepScale : ℚ
  MaxStep : ℚ
  Kspring : ℚ
  TSBead : Int
  Climb : Bool
  FrznEnds : Bool
  Eold : ℚ
  Ereact : ℚ
  Eprod : ℚ
  Ets : ℚ
  deriving DecidableEq

/-- `InitializeVariables`: every setting gets its start value. -/
def InitializeVariables (_QMMMOpts : QMMMSettings) : QMMMSettings :=
  { Func := "N/A", Basis := "N/A", RAM := "N/A", MemMB := false,
    Charge := "N/A", Spin := "N/A", BackDir := "N/A",
    Ensemble := "N/A", Temp := 0, Beta := 0, Press := 0, Neq := 0, Nsteps := 0,
    Nbeads := 1, accratio := 0, Nprint := 0, dt := 0, tautemp := 0,
    MaxOptSteps := 0, MMOptTol := 0, QMOptTol := 0, StepScale := 0, MaxStep := 0,
    Kspring := 0, TSBead := 0, Climb := false, FrznEnds := false,
    Eold := 0, Ereact := 0, Eprod := 0, Ets := 0 }

/-! ## Multipoles.cpp -/

/-- `RotateCharges(Struct,Bead)`: the body is a bare `return`, so the routine
returns normally and the structure it was given is the structure it leaves. -/
def RotateCharges (Struct : List QMMMAtom) (_Bead : Int) : Res (List QMMMAtom) :=
  .ok Struct

/-- `Cart2SphHarm(poles)`: declares `RedMpole SHpoles;` and returns it.  The
value of a default-initialised `RedMpole` comes with the missing declaration, so
it is the parameter `SHpoles`. -/
def Cart2SphHarm (SHpoles : RedMpole) (_poles : Mpole) : RedMpole :=
  SHpoles

/-- `SphHarm2Charges(poles)`: declares `OctCharges PCgrid;` and returns it.  The
value of a default-initialised `OctCharges` is the parameter `PCgrid`. -/
def SphHarm2Charges (PCgrid : OctCharges) (_poles : RedMpole) : OctCharges :=
  PCgrid

/-! ## Input files, program state and environment -/

/-- What a numeric extraction `>>` makes of the characters at the head of a
stream.  `ok v rest`: it yields `v`; `rest` is what it leaves of the token (as
`3.5` leaves `.5` to an extraction into an `int`), if anything.  `bad stored`: it
fails and sets the fail bit; the variable gets `stored` (0 since C++11, the
largest or smallest value on overflow) or stays as it was. -/
inductive Extract (α : Type) (τ : Type) where
  | ok (v : α) (rest : Option τ)
  | bad (stored : Option α)

/-- One whitespace separated token of an input file: its text, which is what an
extraction into a string yields, and what the extractions into an `int` and into a
`double` make of it. -/
inductive Tok where
  | mk (text : String) (asInt : Extract Int Tok) (asReal : Extract ℚ Tok)

/-- The text of a token. -/
def Tok.text : Tok → String
  | .mk t _ _ => t

/-- What an extraction into an `int` makes of a token. -/
def Tok.asInt : Tok → Extract Int Tok
  | .mk _ i _ => i

/-- What an extraction into a `double` makes of a token. -/
def Tok.asReal : Tok → Extract ℚ Tok
  | .mk _ _ r => r

/-- A token that is a plain word: a numeric extraction fails on it and stores 0. -/
def Tok.w (text : String) : Tok :=
  .mk text (.bad (some 0)) (.bad (some 0))

/-- A token that is the integer `n`, written `text`. -/
def Tok.i (text : String) (n : Int) : Tok :=
  .mk text (.ok n none) (.ok n none)

/-- A token that is a decimal number, written `text`: an extraction into a `double`
yields `q`; one into an `int` yields the integer part `n` and leaves the fraction,
the token `rest`, in the stream. -/
def Tok.r (text : String) (q : ℚ) (n : Int) (rest : Tok) : Tok :=
  .mk text (.ok n (some rest)) (.ok q none)

/-- An input stream: the tokens it still holds, and its fail bit. -/
structure IStream where
  toks : List Tok
  failbit : Bool

/-- A stream just opened on a file with the tokens `toks`. -/
def IStream.opened (toks : List Tok) : IStream :=
  ⟨toks, false⟩

/-- The extraction `>>` into a string: the value extracted, if any, and the stream
afterwards.  It fails on a stream whose fail bit is set and at the end of the file. -/
def IStream.word (st : IStream) : Option String × IStream :=
  if st.failbit then (none, st)
  else
    match st.toks with
    | [] => (none, { st with failbit := true })
    | t :: ts => (some t.text, { st with toks := ts })

/-- The outcome of a numeric extraction at the token `t` followed by `ts`. -/
def IStream.numeric {α : Type} (st : IStream) (ts : List Tok) : Extract α Tok → Option α × IStream
  | .ok v none => (some v, { st with toks := ts })
  | .ok v (some r) => (some v, { st with toks := r :: ts })
  | .bad stored => (stored, { st with failbit := true })

/-- The extraction `>>` into an `int`: the value stored, if any, and the stream
afterwards. -/
def IStream.int (st : IStream) : Option Int × IStream :=
  if st.failbit then (none, st)
  else
    match st.toks with
    | [] => (none, { st with failbit := true })
    | t :: ts => st.numeric ts t.asInt

/-- The extraction `>>` into a `double`: the value stored, if any, and the stream
afterwards. -/
def IStream.real (st : IStream) : Option ℚ × IStream :=
  if st.failbit then (none, st)
  else
    match st.toks with
    | [] => (none, { st with failbit := true })
    | t :: ts => st.numeric ts t.asReal

/-- The assignment that an extraction makes: `upd v` when it stored `v`, nothing
when it left its variable as it was. -/
def stored {α β : Type} (r : Option α) (upd : α → β → β) (b : β) : β :=
  match r with
  | some v => upd v b
  | none => b

/-- What lies outside `Input_reader.cpp` and outside the three input files:
constants, library calls, routines of other files, and files looked up by name. -/
structure Env where
  /-- The constant `k` used for `Beta`. -/
  k : ℚ
  /-- The constant `StepMin`. -/
  StepMin : ℚ
  /-- The constant `CentRatio`. -/
  CentRatio : ℚ
  /-- The library function `sqrt`. -/
  sqrt : ℚ → ℚ
  /-- The value of `((double)rand())/((double)RAND_MAX)` at the n-th call. -/
  rand : Nat → ℚ
  /-- The value of a default-initialised `Mpole`. -/
  Mpole0 : Mpole
  /-- The value of a default-initialised `OctCharges`. -/
  OctCharges0 : OctCharges
  /-- The multipole that the TINKER parameter file gives the atom with this id. -/
  TINKpoles : Int → Mpole → Mpole
  /-- Whether `FindTINKERClasses` finds every class (it stops the run if not). -/
  TINKclassesFound : Bool
  /-- The stream that opening `BeadStartStruct.xyz` gives, when `CheckFile` finds
  the file. -/
  BeadStartStruct : Option IStream
  /-- When `CheckFile` finds `BACKUPQM`: the name read from it, provided the file
  opened, a name was extracted and the end of the file was not reached. -/
  BACKUPQM : Option (Option String)
  /-- The value of `FindMaxThreads()`. -/
  FindMaxThreads : Int
  /-- The indeterminate value of the n-th `int` declared without initialiser. -/
  indetInt : Nat → Int
  /-- The indeterminate value of the n-th `double` declared without initialiser. -/
  indetReal : Nat → ℚ

/-- The global variables of the program, the arguments `Struct` and `QMMMOpts`,
the three input streams, and the locals of `ReadLICHEMInput` that outlive a
statement (`dummy`, `tmp`, `AtomID`, `AtTest`, the restart stream), with the counts
of `rand()` calls and of indeterminate values used so far. -/
structure St where
  GauExternal : Bool
  Natoms : Int
  Nqm : Int
  Npseudo : Int
  Nbound : Int
  Nmm : Int
  Nfreeze : Int
  Ncpus : Int
  Nthreads : Int
  QMonly : Bool
  MMonly : Bool
  QMMM : Bool
  PSI4 : Bool
  NWChem : Bool
  Gaussian : Bool
  TINKER : Bool
  AMBER : Bool
  LAMMPS : Bool
  AMOEBA : Bool
  CHRG : Bool
  GEM : Bool
  PIMCSim : Bool
  OptSim : Bool
  SteepSim : Bool
  QuickSim : Bool
  DFPSim : Bool
  NEBSim : Bool
  ESDSim : Bool
  ENEBSim : Bool
  SinglePoint : Bool
  PBCon : Bool
  Jokes : Bool
  Lx : ℚ
  Ly : ℚ
  Lz : ℚ
  Struct : List QMMMAtom
  QMMMOpts : QMMMSettings
  xyzfile : IStream
  connectfile : IStream
  regionfile : IStream
  beadfile : IStream
  dummy : String
  tmp : Int
  AtomID : Int
  AtTest : Int
  nrand : Nat
  ndecl : Nat

/-- A statement: it returns a new state or stops the run. -/
abbrev Step := St → Res St

/-- Statements in sequence. -/
def seqS : List Step → Step
  | [] => fun s => .ok s
  | f :: fs => fun s => (f s).bind (seqS fs)

/-- The statement `if (c) body`. -/
def whenS (c : St → Bool) (body : Step) : Step :=
  fun s => if c s then body s else .ok s

/-- An assignment, which cannot stop the run. -/
def assign (f : St → St) : Step :=
  fun s => .ok (f s)

/-- The statement `exit(0)` after printing `msg`. -/
def exitS (msg : String) : Step :=
  fun _ => .exit msg

/-- A statement that C++ gives no meaning. -/
def undefS : Step :=
  fun _ => .undefined

/-- The statement `if (c) t else e`. -/
def ifS (c : St → Bool) (t e : Step) : Step :=
  fun s => if c s then t s else e s

/-- Runs `body i`, `body (i+1)`, ... for `cnt` iterations. -/
def forUpTo : Nat → Nat → (Nat → Step) → Step
  | 0, _, _ => fun s => .ok s
  | cnt + 1, i, body => fun s => (body i s).bind (forUpTo cnt (i + 1) body)

/-- The loop `for (int i=0;i<bound;i++) body(i)`, whose body leaves `bound` alone:
`bound` iterations when it is positive, none otherwise. -/
def forLoop (bound : St → Int) (body : Nat → Step) : Step :=
  fun s => forUpTo (bound s).toNat 0 body s

/-- An update of `QMMMOpts`. -/
def setOpt (f : QMMMSettings → QMMMSettings) (s : St) : St :=
  { s with QMMMOpts := f s.QMMMOpts }

/-- The input streams. -/
inductive File where
  | xyz
  | connect
  | region
  | bead
  deriving DecidableEq

/-- The state of a stream. -/
def File.get : File → St → IStream
  | .xyz, s => s.xyzfile
  | .connect, s => s.connectfile
  | .region, s => s.regionfile
  | .bead, s => s.beadfile

/-- Replaces the state of a stream. -/
def File.put : File → IStream → St → St
  | .xyz, ts, s => { s with xyzfile := ts }
  | .connect, ts, s => { s with connectfile := ts }
  | .region, ts, s => { s with regionfile := ts }
  | .bead, ts, s => { s with beadfile := ts }

/-- The extraction `file >> v` for a string `v`; `next r` is what follows, where `r`
is the value stored in `v`, if any.  The run goes on after a failure. -/
def rdWordThen (f : File) (next : Option String → Step) : Step :=
  fun s => next (f.get s).word.1 (f.put (f.get s).word.2 s)

/-- The extraction `file >> v` for a `double` `v`; `next r` is what follows. -/
def rdRealThen (f : File) (next : Option ℚ → Step) : Step :=
  fun s => next (f.get s).real.1 (f.put (f.get s).real.2 s)

/-- The extraction `file >> v` for an `int` `v`; `next r` is what follows. -/
def rdIntThen (f : File) (next : Option Int → Step) : Step :=
  fun s => next (f.get s).int.1 (f.put (f.get s).int.2 s)

/-- The extraction `file >> v` into a string variable of the state. -/
def rdWord (f : File) (set : String → St → St) : Step :=
  rdWordThen f (fun r => assign (stored r set))

/-- The extraction `file >> v` into a `double` variable of the state. -/
def rdReal (f : File) (set : ℚ → St → St) : Step :=
  rdRealThen f (fun r => assign (stored r set))

/-- The extraction `file >> v` into an `int` variable of the state. -/
def rdInt (f : File) (set : Int → St → St) : Step :=
  rdIntThen f (fun r => assign (stored r set))

/-- A statement that uses the current value of variables of the state. -/
def readingS (k : St → Step) : Step :=
  fun s => k s s

/-- The declaration `string dummy;` at the head of `ReadLICHEMInput`: an empty
string. -/
def declDummy : Step :=
  assign fun s => { s with dummy := "" }

/-- The declaration `int tmp;`: an indeterminate value. -/
def declTmp (env : Env) : Step :=
  assign fun s => { s with tmp := env.indetInt s.ndecl, ndecl := s.ndecl + 1 }

/-- The declaration `int AtomID;`: an indeterminate value. -/
def declAtomID (env : Env) : Step :=
  assign fun s => { s with AtomID := env.indetInt s.ndecl, ndecl := s.ndecl + 1 }

/-- The extraction `regionfile >> dummy`. -/
def rdDummy : Step :=
  rdWord .region (fun w s => { s with dummy := w })

/-- Whether `dummy` equals one of the listed keywords. -/
def dummyIs (kws : List String) (s : St) : Bool :=
  kws.contains s.dummy

/-- An access `Struct[i]` that rewrites the atom: undefined when `i` is not an
index of `Struct`, or when the rewriting itself reaches outside a vector. -/
def modAtom (i : Int) (f : QMMMAtom → Option QMMMAtom) : Step :=
  fun s =>
    if i < 0 then .undefined
    else
      match s.Struct[i.toNat]? with
      | none => .undefined
      | some a =>
        match f a with
        | none => .undefined
        | some a' => .ok { s with Struct := s.Struct.set i.toNat a' }

/-- An access `Struct[i]` that reads a value from the atom and stores it in the
state outside `Struct`. -/
def readAtom (i : Int) (f : QMMMAtom → Step) : Step :=
  fun s =>
    if i < 0 then .undefined
    else
      match s.Struct[i.toNat]? with
      | none => .undefined
      | some a => f a s

/-! ## ReadLICHEMInput -/

/-- The atom that lines 281-301 build for index `i`: position `tmp2` as zeroth
replica, a default-initialised `Mpole` and `OctCharges`, in the MM region.  The
members `m` and `NumTyp`, assigned only in the connectivity section, start with
indeterminate values. -/
def newAtom (env : Env) (i n : Nat) (QMTyp : String) (tmp2 : Coord) : QMMMAtom :=
  { m := env.indetReal n, QMregion := false, MMregion := true, PBregion := false,
    BAregion := false, Frozen := false, QMTyp := QMTyp, MMTyp := "",
    NumTyp := env.indetInt n, id := i, Bonds := [], P := [tmp2], MP := [env.Mpole0],
    PC := [env.OctCharges0] }

/-- Lines 281-301: one atom of the xyz file.  `tmp.QMTyp` starts empty and the
coordinates of `tmp2` indeterminate; each extraction that stores a value replaces
one of them. -/
def xyzAtom (env : Env) (i : Nat) : Step :=
  rdWordThen .xyz fun rT =>
  rdRealThen .xyz fun rx =>
  rdRealThen .xyz fun ry =>
  rdRealThen .xyz fun rz =>
  assign fun s =>
    { s with
      Struct := s.Struct ++ [newAtom env i s.ndecl (rT.getD "")
        ⟨rx.getD (env.indetReal (s.ndecl + 1)), ry.getD (env.indetReal (s.ndecl + 2)),
         rz.getD (env.indetReal (s.ndecl + 3))⟩],
      ndecl := s.ndecl + 4 }

/-- Lines 275-303: the xyz file. -/
def readXYZ (env : Env) : Step :=
  whenS (fun s => !s.GauExternal) (seqS [
    rdInt .xyz (fun v s => { s with Natoms := v }),
    forLoop (fun s => s.Natoms) (xyzAtom env)])

/-- Lines 320-337: the bonds of atom `i`; `tmp` holds the number of bonds. -/
def conBonds (env : Env) (i : Nat) : Step :=
  forLoop (fun s => s.tmp) fun _ => seqS [
    declAtomID env,
    rdInt .connect (fun v s => { s with AtomID := v }),
    whenS (fun s => decide (s.AtomID ≥ s.Natoms))
      (exitS "Error: Atom index out of range in connectivity."),
    readingS fun s => modAtom i (fun a => some { a with Bonds := a.Bonds ++ [s.AtomID] })]

/-- Lines 306-337: the connectivity record of atom `i`.  An extraction into a
member of `Struct[i]` stores the value extracted or leaves the member as it was. -/
def conAtom (env : Env) (i : Nat) : Step :=
  seqS [
    declTmp env,
    rdInt .connect (fun v s => { s with tmp := v }),
    readAtom i (fun a =>
      whenS (fun s => decide (s.tmp ≠ a.id))
        (exitS "Error: Atoms in the connectivity file are out of order.")),
    rdWordThen .connect (fun r => modAtom i fun a =>
      some { a with MMTyp := r.getD a.MMTyp }),
    rdIntThen .connect (fun r => modAtom i fun a =>
      some { a with NumTyp := r.getD a.NumTyp }),
    rdRealThen .connect (fun r => modAtom i fun a =>
      some { a with m := r.getD a.m }),
    rdRealThen .connect (fun r => modAtom i fun a =>
      match a.MP with
      | [] => none
      | mp :: rest => some { a with MP := { mp with q := r.getD mp.q } :: rest }),
    rdInt .connect (fun v s => { s with tmp := v }),
    conBonds env i]

/-- Lines 304-338: the connectivity file. -/
def readConnectivity (env : Env) : Step :=
  forLoop (fun s => s.Natoms) (conAtom env)

/-- Modelled from the spec: `ExtractTINKpoles(Struct,Bead)` with two arguments is
not in src (Multipoles.cpp holds an older one-argument stub).  Spec sections 2 and
3: the force-field extraction step populates, once per atom, the Cartesian
multipole of the replica; it creates no replica. -/
def ExtractTINKpoles (env : Env) (Bead : Nat) : Step :=
  assign fun s => { s with Struct := s.Struct.map fun a =>
    { a with MP := a.MP.set Bead (env.TINKpoles a.id (a.MP.getD Bead env.Mpole0)) } }

/-- The names that select a semi-empirical Hamiltonian. -/
def semiEmpNames : List String :=
  ["SemiEmpirical", "SE-SCF", "Semi-Empirical", "se-scf", "semi-empirical",
   "SESCF", "semiempirical", "sescf", "SemiEmp", "semiemp"]

/-- Lines 348-386 and 402-440: the QM wrapper and its settings.  `gauss` lists the
names accepted for Gaussian, which differ between the two places. -/
def readQMOptions (gauss : List String) : Step :=
  seqS [
    rdDummy, rdDummy,
    whenS (dummyIs ["psi4", "Psi4", "PSI4"]) (assign fun s => { s with PSI4 := true }),
    whenS (dummyIs ["NWChem", "nwchem", "NWCHEM", "NWchem"])
      (assign fun s => { s with NWChem := true }),
    whenS (dummyIs gauss) (assign fun s => { s with Gaussian := true }),
    rdDummy, rdWord .region (fun v => setOpt fun o => { o with Func := v }),
    whenS (fun s => semiEmpNames.contains s.QMMMOpts.Func)
      (assign (setOpt fun o => { o with Func := "SemiEmp" })),
    rdDummy, rdWord .region (fun v => setOpt fun o => { o with Basis := v }),
    rdDummy, rdWord .region (fun v => setOpt fun o => { o with RAM := v }),
    rdDummy,
    assign (fun s => setOpt (fun o => { o with MemMB := dummyIs ["mb", "MB", "Mb", "mB"] s }) s),
    rdDummy, rdWord .region (fun v => setOpt fun o => { o with Charge := v }),
    rdDummy, rdWord .region (fun v => setOpt fun o => { o with Spin := v })]

/-- Lines 441-483 and 491-533: the MM wrapper and the potential type. -/
def readMMOptions (env : Env) : Step :=
  seqS [
    rdDummy, rdDummy,
    whenS (dummyIs ["Tinker", "TINKER", "tinker"]) (assign fun s => { s with TINKER := true }),
    whenS (dummyIs ["AMBER", "Amber", "amber"]) (assign fun s => { s with AMBER := true }),
    whenS (dummyIs ["LAMMPS", "lammps", "Lammps"]) (assign fun s => { s with LAMMPS := true }),
    rdDummy, rdDummy,
    whenS (dummyIs ["AMOEBA", "amoeba"]) (seqS [
      assign fun s => { s with AMOEBA := true },
      whenS (fun s => s.TINKER) (ExtractTINKpoles env 0)]),
    whenS (dummyIs ["Charges", "charges", "Charge", "charge", "point-charge"])
      (assign fun s => { s with CHRG := true }),
    whenS (dummyIs ["GEM", "gem", "Gem"]) (seqS [
      assign fun s => { s with GEM := true },
      whenS (fun s => s.TINKER) (ExtractTINKpoles env 0)])]

/-- The assignments that place an atom in the QM region only. -/
def allQM (a : QMMMAtom) : Option QMMMAtom :=
  some { a with QMregion := true, MMregion := false, PBregion := false, BAregion := false }

/-- The assignments that place an atom in the MM region only. -/
def allMM (a : QMMMAtom) : Option QMMMAtom :=
  some { a with QMregion := false, MMregion := true, PBregion := false, BAregion := false }

/-- Lines 340-534: the potential type and the wrappers. -/
def readPotential (env : Env) : Step :=
  seqS [
    rdDummy, rdDummy,
    whenS (dummyIs ["QM", "qm"]) (seqS [
      assign fun s => { s with QMonly := true, MMonly := false, QMMM := false, Nqm := s.Natoms },
      readQMOptions ["gaussian", "Gaussian", "g09"],
      forLoop (fun s => s.Natoms) fun i => modAtom i allQM]),
    whenS (dummyIs ["QMMM", "qmmm"]) (seqS [
      assign fun s => { s with QMMM := true, QMonly := false, MMonly := false },
      readQMOptions ["gaussian", "Gaussian"],
      readMMOptions env]),
    whenS (dummyIs ["MM", "mm"]) (seqS [
      assign fun s => { s with MMonly := true, QMonly := false, QMMM := false },
      readMMOptions env])]

/-- Lines 563-588: bead `j` of atom `i` in a path-integral run.  Three calls of
`rand()` are made; for `j = 0` their values are replaced by 0.5.  Undefined when
`Struct[i]` or one of its zeroth replicas does not exist. -/
def pimcBead (env : Env) (i j : Nat) : Step :=
  fun s =>
    let randx := if j = 0 then 1 / 2 else env.rand s.nrand
    let randy := if j = 0 then 1 / 2 else env.rand (s.nrand + 1)
    let randz := if j = 0 then 1 / 2 else env.rand (s.nrand + 2)
    modAtom i (fun a =>
      match a.P, a.MP, a.PC with
      | p0 :: _, mp0 :: _, pc0 :: _ =>
        let MassScale := env.sqrt (12 / a.m) * (2 * env.StepMin * env.CentRatio)
        let temp : Coord :=
          ⟨p0.x + 2 * (randx - 1 / 2) * MassScale,
           p0.y + 2 * (randy - 1 / 2) * MassScale,
           p0.z + 2 * (randz - 1 / 2) * MassScale⟩
        some { a with P := a.P ++ [temp], MP := a.MP ++ [mp0], PC := a.PC ++ [pc0] }
      | _, _, _ => none)
      { s with nrand := s.nrand + 3 }

/-- Lines 677-683 and 734-740: one more replica of atom `i`, a copy of the
zeroth one. -/
def copyBead (i : Nat) : Step :=
  modAtom i fun a =>
    match a.P, a.MP, a.PC with
    | p0 :: _, mp0 :: _, pc0 :: _ =>
      some { a with P := a.P ++ [p0], MP := a.MP ++ [mp0], PC := a.PC ++ [pc0] }
    | _, _, _ => none

/-- Lines 671-685 and 728-742: `Nbeads-1` copies of the zeroth replica for every
atom. -/
def duplicateData : Step :=
  forLoop (fun s => s.Natoms) fun i =>
    forLoop (fun s => s.QMMMOpts.Nbeads - 1) fun _ => copyBead i

/-- Lines 536-591: the PIMC options and the path-integral beads. -/
def pimcBlock (env : Env) : Step :=
  whenS (dummyIs ["PIMC", "pimc"]) (seqS [
    assign fun s => { s with PIMCSim := true },
    rdDummy, rdDummy,
    whenS (dummyIs ["NVT", "nvt"]) (assign (setOpt fun o => { o with Ensemble := "NVT" })),
    whenS (dummyIs ["NPT", "npt"]) (assign (setOpt fun o => { o with Ensemble := "NPT" })),
    rdDummy, rdReal .region (fun v => setOpt fun o => { o with Temp := v }),
    assign (setOpt fun o => { o with Beta := 1 / (env.k * o.Temp) }),
    rdDummy, rdReal .region (fun v => setOpt fun o => { o with Press := v }),
    rdDummy, rdInt .region (fun v => setOpt fun o => { o with Neq := v }),
    rdDummy, rdInt .region (fun v => setOpt fun o => { o with Nsteps := v }),
    rdDummy, rdInt .region (fun v => setOpt fun o => { o with Nbeads := v }),
    rdDummy, rdReal .region (fun v => setOpt fun o => { o with accratio := v }),
    rdDummy, rdInt .region (fun v => setOpt fun o => { o with Nprint := v }),
    forLoop (fun s => s.Natoms) fun i =>
      forLoop (fun s => s.QMMMOpts.Nbeads - 1) fun j => pimcBead env i j])

/-- Lines 592-599: the options of the native optimiser. -/
def optBlock : Step :=
  whenS (dummyIs ["OPT", "Opt", "opt"]) (seqS [
    assign fun s => { s with OptSim := true },
    rdDummy, rdReal .region (fun v => setOpt fun o => { o with MaxStep := v }),
    rdDummy, rdReal .region (fun v => setOpt fun o => { o with MMOptTol := v }),
    rdDummy, rdInt .region (fun v => setOpt fun o => { o with MaxOptSteps := v })])

/-- The five reads shared by the steepest-descent, damped-Verlet and DFP
options (lines 605-609, 617-621, 637-641). -/
def readMinimiser : Step :=
  seqS [
    rdDummy, rdReal .region (fun v => setOpt fun o => { o with StepScale := v }),
    rdDummy, rdReal .region (fun v => setOpt fun o => { o with MaxStep := v }),
    rdDummy, rdReal .region (fun v => setOpt fun o => { o with QMOptTol := v }),
    rdDummy, rdReal .region (fun v => setOpt fun o => { o with MMOptTol := v }),
    rdDummy, rdInt .region (fun v => setOpt fun o => { o with MaxOptSteps := v })]

/-- Lines 600-610: steepest descent. -/
def steepBlock : Step :=
  whenS (dummyIs ["Steep", "steep", "SD", "sd"]) (seqS [
    assign fun s => { s with SteepSim := true }, readMinimiser])

/-- Lines 611-622: damped Verlet. -/
def quickBlock : Step :=
  whenS (dummyIs ["QuickMin", "Quick", "quick", "quickmin", "DV", "dv"]) (seqS [
    assign fun s => { s with QuickSim := true }, readMinimiser])

/-- Lines 623-642: DFP (the BFGS warning only prints). -/
def dfpBlock : Step :=
  whenS (dummyIs ["bfgs", "BFGS", "dfp", "DFP"]) (seqS [
    assign fun s => { s with DFPSim := true }, readMinimiser])

/-- Lines 643-686: the NEB options and the reaction-path replicas. -/
def nebBlock : Step :=
  whenS (dummyIs ["NEB", "neb"]) (seqS [
    assign fun s => { s with NEBSim := true },
    rdDummy, rdInt .region (fun v => setOpt fun o => { o with Nbeads := v }),
    rdDummy, rdReal .region (fun v => setOpt fun o => { o with StepScale := v }),
    rdDummy, rdReal .region (fun v => setOpt fun o => { o with MaxStep := v }),
    rdDummy, rdReal .region (fun v => setOpt fun o => { o with Kspring := v }),
    rdDummy, rdDummy,
    whenS (dummyIs ["Yes", "yes", "YES", "True", "true", "TRUE"])
      (assign (setOpt fun o => { o with FrznEnds := true })),
    rdDummy, rdReal .region (fun v => setOpt fun o => { o with QMOptTol := v }),
    rdDummy, rdReal .region (fun v => setOpt fun o => { o with MMOptTol := v }),
    rdDummy, rdInt .region (fun v => setOpt fun o => { o with MaxOptSteps := v }),
    assign (setOpt fun o =>
      if Int.tmod o.Nbeads 2 = 0 then { o with TSBead := Int.tdiv o.Nbeads 2 }
      else { o with TSBead := Int.tdiv (o.Nbeads - 1) 2 }),
    duplicateData])

/-- Lines 687-699: ensemble steepest descent. -/
def esdBlock : Step :=
  whenS (dummyIs ["ESD", "esd", "EnsembleSD", "ensembesd"]) (seqS [
    assign fun s => { s with ESDSim := true },
    rdDummy, rdReal .region (fun v => setOpt fun o => { o with StepScale := v }),
    rdDummy, rdReal .region (fun v => setOpt fun o => { o with MaxStep := v }),
    rdDummy, rdInt .region (fun v => setOpt fun o => { o with MaxOptSteps := v }),
    rdDummy, rdReal .region (fun v => setOpt fun o => { o with dt := v }),
    rdDummy, rdReal .region (fun v => setOpt fun o => { o with Temp := v }),
    rdDummy, rdReal .region (fun v => setOpt fun o => { o with tautemp := v }),
    rdDummy, rdInt .region (fun v => setOpt fun o => { o with Nsteps := v })])

/-- Lines 714-725: the bead count of an ensemble NEB run is increased by one
unless its remainder modulo 2 (C++ `%`, truncating) is 1. -/
def enebOddCheck : Step :=
  whenS (fun s => decide (Int.tmod s.QMMMOpts.Nbeads 2 ≠ 1))
    (assign (setOpt fun o => { o with Nbeads := o.Nbeads + 1 }))

/-- Lines 700-743: the ensemble NEB options and the reaction-path replicas. -/
def enebBlock : Step :=
  whenS (dummyIs ["ENEB", "eneb", "EnsembleNEB", "ensembeneb"]) (seqS [
    assign fun s => { s with ENEBSim := true },
    rdDummy, rdInt .region (fun v => setOpt fun o => { o with Nbeads := v }),
    rdDummy, rdReal .region (fun v => setOpt fun o => { o with StepScale := v }),
    rdDummy, rdReal .region (fun v => setOpt fun o => { o with MaxStep := v }),
    rdDummy, rdReal .region (fun v => setOpt fun o => { o with Kspring := v }),
    rdDummy, rdInt .region (fun v => setOpt fun o => { o with MaxOptSteps := v }),
    rdDummy, rdReal .region (fun v => setOpt fun o => { o with dt := v }),
    rdDummy, rdReal .region (fun v => setOpt fun o => { o with Temp := v }),
    rdDummy, rdReal .region (fun v => setOpt fun o => { o with tautemp := v }),
    rdDummy, rdInt .region (fun v => setOpt fun o => { o with Nsteps := v }),
    enebOddCheck,
    assign (setOpt fun o => { o with TSBead := Int.tdiv (o.Nbeads - 1) 2 }),
    duplicateData])

/-- Lines 744-749: single-point energy. -/
def spBlock : Step :=
  whenS (dummyIs ["SP", "sp", "energy", "Energy"])
    (assign fun s => { s with SinglePoint := true })

/-- Lines 535-749: the calculation type.  Every test reads the current value of
`dummy`, which the reads of an earlier block have replaced by then. -/
def readCalcType (env : Env) : Step :=
  seqS [
    rdDummy, rdDummy,
    pimcBlock env, optBlock, steepBlock, quickBlock, dfpBlock,
    nebBlock, esdBlock, enebBlock, spBlock]

/-- Lines 750-759: the periodic boundary options. -/
def readPBC : Step :=
  seqS [
    rdDummy, rdDummy,
    whenS (dummyIs ["Yes", "yes", "YES", "true", "True", "TRUE"]) (seqS [
      assign fun s => { s with PBCon := true },
      rdDummy,
      rdReal .region (fun v s => { s with Lx := v }),
      rdReal .region (fun v s => { s with Ly := v }),
      rdReal .region (fun v s => { s with Lz := v })])]

/-- Lines 760-783: the lists of QM atoms, pseudo-bonds and boundary atoms. -/
def readRegions (env : Env) : Step :=
  seqS [
    rdDummy, rdInt .region (fun v s => { s with Nqm := v }),
    forLoop (fun s => s.Nqm) (fun _ => seqS [
      declAtomID env,
      rdInt .region (fun v s => { s with AtomID := v }),
      readingS fun s => modAtom s.AtomID fun a =>
        some { a with QMregion := true, MMregion := false }]),
    rdDummy, rdInt .region (fun v s => { s with Npseudo := v }),
    forLoop (fun s => s.Npseudo) (fun _ => seqS [
      declAtomID env,
      rdInt .region (fun v s => { s with AtomID := v }),
      readingS fun s => modAtom s.AtomID fun a =>
        some { a with PBregion := true, MMregion := false }]),
    rdDummy, rdInt .region (fun v s => { s with Nbound := v }),
    forLoop (fun s => s.Nbound) (fun _ => seqS [
      declAtomID env,
      rdInt .region (fun v s => { s with AtomID := v }),
      readingS fun s => modAtom s.AtomID fun a =>
        some { a with BAregion := true, MMregion := false }])]

/-- Lines 784-814: the region counts of a pure QM or pure MM run, and `Nmm`. -/
def resetRegions : Step :=
  seqS [
    whenS (fun s => s.QMonly) (seqS [
      assign fun s => { s with Nqm := s.Natoms, Npseudo := 0, Nbound := 0 },
      forLoop (fun s => s.Natoms) fun i => modAtom i allQM]),
    whenS (fun s => s.MMonly) (seqS [
      assign fun s => { s with Nqm := 0, Npseudo := 0, Nbound := 0 },
      forLoop (fun s => s.Natoms) fun i => modAtom i allMM]),
    assign fun s => { s with Nmm := s.Natoms - s.Nqm - s.Npseudo - s.Nbound }]

/-- Lines 827-829: replica `j` of a frozen atom gets the coordinates of replica
0.  Undefined when the atom has no replica `j`. -/
def freezeBead (j : Nat) (a : QMMMAtom) : Option QMMMAtom :=
  match a.P[0]?, a.P[j]? with
  | some p0, some _ => some { a with P := a.P.set j ⟨p0.x, p0.y, p0.z⟩ }
  | _, _ => none

/-- Lines 818-832: one entry of the list of frozen atoms.  The iterations of the
OpenMP loop are run in order. -/
def freezeAtom (env : Env) : Step :=
  seqS [
    declAtomID env,
    rdInt .region (fun v s => { s with AtomID := v }),
    readingS fun s => seqS [
      modAtom s.AtomID (fun a => some { a with Frozen := true }),
      whenS (fun s => s.PIMCSim || s.ENEBSim || s.NEBSim)
        (forLoop (fun s => s.QMMMOpts.Nbeads) fun j => modAtom s.AtomID (freezeBead j))]]

/-- Lines 815-833: the frozen atoms. -/
def readFrozen (env : Env) : Step :=
  seqS [
    rdDummy, rdInt .region (fun v s => { s with Nfreeze := v }),
    forLoop (fun s => s.Nfreeze) fun _ => freezeAtom env]

/-- The assignment `Struct[i].P[j].x = v` (or `.y`, `.z`, chosen by `upd`). -/
def setCoord (j : Nat) (upd : Coord → Coord) (a : QMMMAtom) : Option QMMMAtom :=
  match a.P[j]? with
  | some p => some { a with P := a.P.set j (upd p) }
  | none => none

/-- Lines 860-865: the restart record of replica `j` of atom `i`. -/
def restartBead (i j : Nat) : Step :=
  seqS [
    rdWord .bead (fun w s => { s with dummy := w }),
    rdRealThen .bead (fun r => modAtom i (setCoord j fun p => { p with x := r.getD p.x })),
    rdRealThen .bead (fun r => modAtom i (setCoord j fun p => { p with y := r.getD p.y })),
    rdRealThen .bead (fun r => modAtom i (setCoord j fun p => { p with z := r.getD p.z }))]

/-- Lines 837-867: reading `BeadStartStruct.xyz`, which opens as the stream `file`. -/
def readRestartFile (file : IStream) : Step :=
  seqS [
    assign fun s => { s with beadfile := file, AtTest := 0 },
    rdInt .bead (fun v s => { s with AtTest := v }),
    whenS (fun s => decide (s.AtTest ≠ s.Natoms * s.QMMMOpts.Nbeads))
      (exitS "Error: Restart file does not have the correct format!"),
    forLoop (fun s => s.Natoms) fun i =>
      forLoop (fun s => s.QMMMOpts.Nbeads) fun j => restartBead i j]

/-- Lines 869-877: a reaction-path run without restart file stops. -/
def noRestartFile : Step :=
  whenS (fun s => s.ENEBSim || s.NEBSim)
    (exitS "Error: No initial reaction path found in the restart file!!!")

/-- Lines 834-877: the initial structures of the replicas. -/
def readRestart (env : Env) : Step :=
  match env.BeadStartStruct with
  | some file => ifS (fun s => !s.GauExternal) (readRestartFile file) noRestartFile
  | none => noRestartFile

/-- Lines 878-883.  `FindTINKERClasses` is not in src; by the comment at its call
it only looks the classes up to spot errors, so the model lets it stop the run
and change nothing. -/
def findClasses (env : Env) : Step :=
  whenS (fun s => s.TINKER && !s.GauExternal)
    (whenS (fun _ => !env.TINKclassesFound) (exitS "FindTINKERClasses"))

/-- Lines 884-902: the directory for QM log files. -/
def readBackup (env : Env) : Step :=
  assign fun s =>
    match env.BACKUPQM with
    | none => s
    | some none => setOpt (fun o => { o with BackDir := "Old_files" }) s
    | some (some newname) => setOpt (fun o => { o with BackDir := newname }) s

/-- Lines 903-931: the thread counts.  `floor(Procs/Ncpus)` has no integer value
when `Ncpus` is 0. -/
def setThreads (env : Env) : Step :=
  whenS (fun s => !s.GauExternal) (seqS [
    assign fun s => { s with Nthreads := env.FindMaxThreads },
    whenS (fun s => decide (s.Ncpus > s.Nthreads)) (assign fun s => { s with Ncpus := s.Nthreads }),
    whenS (fun s => decide (s.QMMMOpts.Nbeads > 1) && !s.ENEBSim && !s.NEBSim)
      (ifS (fun s => decide (s.Ncpus = 0)) undefS
        (assign fun s =>
          { s with Nthreads := Int.floor ((env.FindMaxThreads : ℚ) / (s.Ncpus : ℚ)) }))])

/-- Lines 273-902 of `ReadLICHEMInput`: everything that is read. -/
def readInputs (env : Env) : Step :=
  seqS [
    declDummy, readXYZ env, readConnectivity env, readPotential env, readCalcType env,
    readPBC, readRegions env, resetRegions, readFrozen env, readRestart env,
    findClasses env, readBackup env]

/-- `ReadLICHEMInput`, lines 269-933: the input is read, then the thread counts
are set. -/
def ReadLICHEMInput (env : Env) : Step :=
  seqS [readInputs env, setThreads env]

/-! ## LICHEMErrorChecker -/

/-- `LICHEMErrorChecker`, lines 935-1082.  `DoQuit` collects the errors; the two
warnings repair `Ncpus` and `StepScale`; the run stops at line 1065 when `DoQuit`
is set.  What is printed after line 1067 changes nothing. -/
def LICHEMErrorChecker : Step :=
  fun s =>
    let DoQuit := false
    let DoQuit :=
      if s.QMMM then
        let DoQuit := if s.Nqm + s.Npseudo < 1 then true else DoQuit
        if s.Nmm + s.Nbound < 1 then true else DoQuit
      else DoQuit
    let s := if s.Ncpus < 1 then { s with Ncpus := 1 } else s
    let DoQuit :=
      if !s.TINKER && !s.AMBER && !s.LAMMPS && !s.QMonly then true else DoQuit
    let DoQuit :=
      if !s.Gaussian && !s.PSI4 && !s.NWChem && !s.MMonly then true else DoQuit
    let DoQuit :=
      if s.PSI4 && s.QMMM then
        let DoQuit := if s.OptSim then true else DoQuit
        if s.Npseudo ≠ 0 ∨ s.Nbound ≠ 0 then true else DoQuit
      else DoQuit
    let DoQuit :=
      if s.NWChem && s.QMMM then
        if s.OptSim then true else DoQuit
      else DoQuit
    let DoQuit := if s.LAMMPS && s.AMOEBA then true else DoQuit
    let DoQuit :=
      if s.QMMMOpts.Ensemble = "NPT" ∧ s.PBCon = false then true else DoQuit
    let s :=
      if s.QMMMOpts.StepScale > 1 then setOpt (fun o => { o with StepScale := 1 }) s
      else s
    if DoQuit then .exit "" else .ok s

/-- The errors that `LICHEMErrorChecker` reports, read off the state on entry. -/
def fatalOnEntry (s : St) : Prop :=
  (s.QMMM = true ∧ s.Nqm + s.Npseudo < 1) ∨
  (s.QMMM = true ∧ s.Nmm + s.Nbound < 1) ∨
  (s.TINKER = false ∧ s.AMBER = false ∧ s.LAMMPS = false ∧ s.QMonly = false) ∨
  (s.Gaussian = false ∧ s.PSI4 = false ∧ s.NWChem = false ∧ s.MMonly = false) ∨
  (s.PSI4 = true ∧ s.QMMM = true ∧ (s.OptSim = true ∨ s.Npseudo ≠ 0 ∨ s.Nbound ≠ 0)) ∨
  (s.NWChem = true ∧ s.QMMM = true ∧ s.OptSim = true) ∨
  (s.LAMMPS = true ∧ s.AMOEBA = true) ∨
  (s.QMMMOpts.Ensemble = "NPT" ∧ s.PBCon = false)

/-! ## ReadArgs -/

/-- An `fstream`: whether a file is open on it, and its fail bit. -/
structure FStream where
  isOpen : Bool
  failbit : Bool
  deriving DecidableEq

/-- The call `open(name,mode)`: it fails on a stream that is already open and
when the file cannot be opened (`canOpen`). -/
def FStream.openFile (f : FStream) (canOpen : Bool) : FStream :=
  if f.isOpen then { f with failbit := true }
  else if canOpen then { f with isOpen := true }
  else { f with failbit := true }

/-- The call `good()`. -/
def FStream.good (f : FStream) : Bool := !f.failbit

/-- What `ReadArgs` assigns: the global `Ncpus`, the file names and the four
streams of its caller. -/
structure ArgSt where
  Ncpus : Int
  xyzfilename : String
  confilename : String
  regfilename : String
  xyzfile : FStream
  connectfile : FStream
  regionfile : FStream
  outfile : FStream
  deriving DecidableEq

/-- What `ReadArgs` takes from outside this file: which files can be opened, and
whether a routine of another file (`ExternalGaussian`, `TINK2LICHEM`,
`LICHEM2BASIS`, `LICHEM2TINK`, `ExtractGlobalPoles`) returns to its caller. -/
structure ArgEnv where
  canRead : String → Bool
  canWrite : String → Bool
  extReturns : String → Bool

/-- The digits of `atoi`. -/
def atoiDigits : List Char → Int → Int
  | [], acc => acc
  | c :: cs, acc =>
    if c.isDigit then atoiDigits cs (acc * 10 + ((c.toNat : Int) - 48)) else acc

/-- The library function `atoi`: blanks, an optional sign, digits; 0 when no
digit follows. -/
def atoi (s : String) : Int :=
  match s.data.dropWhile Char.isWhitespace with
  | '-' :: r => - atoiDigits r 0
  | '+' :: r => atoiDigits r 0
  | cs => atoiDigits cs 0

/-- The conversion `string(argv[i])`: `argv[argc]` is a null pointer and the
entries after it do not exist. -/
def argAt (argv : List String) (i : Nat) : Res String :=
  match argv[i]? with
  | some a => .ok a
  | none => .undefined

/-- A call of a routine of another file, which may end the run itself. -/
def callExt (env : ArgEnv) (name : String) : Res Unit :=
  if env.extReturns name then .ok () else .exit name

/-- Lines 37-76: the special first arguments. -/
def specialModes (env : ArgEnv) (argv : List String) : Res Unit :=
  (argAt argv 1).bind fun dummy =>
  (if dummy = "-GauExtern" then callExt env "ExternalGaussian" else .ok ()).bind fun _ =>
  (if dummy = "-convert" then
    (argAt argv 2).bind fun dummy =>
    (if dummy = "-t" then callExt env "TINK2LICHEM" else .ok ()).bind fun _ =>
    (if dummy = "-b" then callExt env "LICHEM2BASIS" else .ok ()).bind fun _ =>
    .ok dummy
   else .ok dummy).bind fun dummy =>
  (if dummy = "-tinker" then callExt env "LICHEM2TINK" else .ok ()).bind fun _ =>
  if dummy = "-GlobalPoles" then callExt env "ExtractGlobalPoles" else .ok ()

/-- Lines 77-94: an even `argc` is accepted only when the first argument asks for
help. -/
def oddCheck (argv : List String) : Res Unit :=
  if argv.length % 2 ≠ 1 then
    (argAt argv 1).bind fun dummy =>
      if dummy ≠ "-h" ∧ dummy ≠ "--help" then .exit "Odd number of arguments..."
      else .ok ()
  else .ok ()

/-- Lines 97-146: the body of the first loop for index `i`. -/
def flagStep (env : ArgEnv) (argv : List String) (i : Nat) (a : ArgSt) : Res ArgSt :=
  (argAt argv i).bind fun dummy =>
  if dummy = "-h" ∨ dummy = "--help" then .exit "Usage"
  else
    (if dummy = "-n" then
      (argAt argv (i + 1)).bind fun v => .ok { a with Ncpus := atoi v }
     else .ok a).bind fun a =>
    (if dummy = "-x" then
      (argAt argv (i + 1)).bind fun v =>
        .ok { a with xyzfilename := v, xyzfile := a.xyzfile.openFile (env.canRead v) }
     else .ok a).bind fun a =>
    (if dummy = "-c" then
      (argAt argv (i + 1)).bind fun v =>
        .ok { a with confilename := v, connectfile := a.connectfile.openFile (env.canRead v) }
     else .ok a).bind fun a =>
    (if dummy = "-r" then
      (argAt argv (i + 1)).bind fun v =>
        .ok { a with regfilename := v, regionfile := a.regionfile.openFile (env.canRead v) }
     else .ok a).bind fun a =>
    if dummy = "-o" then
      (argAt argv (i + 1)).bind fun v =>
        .ok { a with outfile := a.outfile.openFile (env.canWrite v) }
    else .ok a

/-- A loop `for (int i=0;i<argc;i++)` over the arguments: `cnt` iterations
starting at index `i`. -/
def argLoop (body : Nat → ArgSt → Res ArgSt) : Nat → Nat → ArgSt → Res ArgSt
  | 0, _, a => .ok a
  | cnt + 1, i, a => (body i a).bind (argLoop body cnt (i + 1))

/-- Lines 150-173: the body of the second loop: an argument that starts with a
dash has to be one of the five flags. -/
def badFlagStep (argv : List String) (i : Nat) (a : ArgSt) : Res ArgSt :=
  (argAt argv i).bind fun dummy =>
    if dummy.data.head? = some '-' then
      if dummy ≠ "-n" ∧ dummy ≠ "-x" ∧ dummy ≠ "-c" ∧ dummy ≠ "-r" ∧ dummy ≠ "-o" then
        .exit "Unrecognized flag..."
      else .ok a
    else .ok a

/-- Lines 24-187 of `ReadArgs`: the validation of the argument vector.  A normal
return means that line 188, the first file check, is reached. -/
def ReadArgsValidate (env : ArgEnv) (argv : List String) (a : ArgSt) : Res ArgSt :=
  if argv.length = 1 then .exit "Missing arguments..."
  else
    (specialModes env argv).bind fun _ =>
    (oddCheck argv).bind fun _ =>
    (argLoop (flagStep env argv) argv.length 0 a).bind fun a =>
    (argLoop (badFlagStep argv) argv.length 0 a).bind fun a =>
    if argv.length ≠ 11 then .exit "Missing arguments..." else .ok a

/-- Lines 188-224 of `ReadArgs`: the four streams have to be good. -/
def checkStreams (a : ArgSt) : Res ArgSt :=
  let DoQuit := false
  let DoQuit := if !a.xyzfile.good then true else DoQuit
  let DoQuit := if !a.connectfile.good then true else DoQuit
  let DoQuit := if !a.regionfile.good then true else DoQuit
  let DoQuit := if !a.outfile.good then true else DoQuit
  if DoQuit then .exit "" else .ok a

/-- `ReadArgs`, lines 17-225. -/
def ReadArgs (env : ArgEnv) (argv : List String) (a : ArgSt) : Res ArgSt :=
  (ReadArgsValidate env argv a).bind checkStreams

/-- The usage line: the vector supplies the option `flag` followed by a value. -/
def suppliesOption (argv : List String) (flag : String) : Prop :=
  ∃ i, argv[i]? = some flag ∧ (argv[i + 1]?).isSome = true

/-- The usage line `lichem -n Ncpus -x Input.xyz -c Connectivity.inp -r Regions.inp
-o Output.xyz`: each of the five options is supplied with a value. -/
def suppliesAllFive (argv : List String) : Prop :=
  suppliesOption argv "-n" ∧ suppliesOption argv "-x" ∧ suppliesOption argv "-c" ∧
  suppliesOption argv "-r" ∧ suppliesOption argv "-o"

/-! ## Assertions about runs -/

/-- The assertion `I` survives the statement `f` whenever `f` returns. -/
def Keeps (I : St → Prop) (f : Step) : Prop :=
  ∀ s s', f s = .ok s' → I s → I s'

/-- The replica arrays of an atom. -/
def reps (a : QMMMAtom) : List Coord × List Mpole × List OctCharges :=
  (a.P, a.MP, a.PC)

/-- The part of the state that the replica bookkeeping depends on. -/
def core (s : St) :
    List (List Coord × List Mpole × List OctCharges) × Int × Int × Bool × Bool × Bool × Bool × Int :=
  (s.Struct.map reps, s.Natoms, s.QMMMOpts.Nbeads, s.PIMCSim, s.NEBSim, s.ENEBSim,
   s.GauExternal, s.Ncpus)

/-- The statement `f` leaves the core of the state as it was. -/
def Same (f : Step) : Prop :=
  ∀ c, Keeps (fun s => core s = c) f

/-- The assertion `I` looks at the core of the state only. -/
def CoreOnly (I : St → Prop) : Prop :=
  ∀ s t, core t = core s → I s → I t

/-- The numbers of replicas that the three arrays of an atom hold. -/
def lens (a : QMMMAtom) : Nat × Nat × Nat :=
  (a.P.length, a.MP.length, a.PC.length)

/-- The core of the state with every replica array replaced by its length. -/
def shape (s : St) :
    List (Nat × Nat × Nat) × Int × Int × Bool × Bool × Bool × Bool × Int :=
  (s.Struct.map lens, s.Natoms, s.QMMMOpts.Nbeads, s.PIMCSim, s.NEBSim, s.ENEBSim,
   s.GauExternal, s.Ncpus)

/-- The statement `f` leaves the shape of the state as it was. -/
def SameShape (f : Step) : Prop :=
  ∀ c, Keeps (fun s => shape s = c) f

/-- The assertion `I` looks at the shape of the state only. -/
def ShapeOnly (I : St → Prop) : Prop :=
  ∀ s t, shape t = shape s → I s → I t

/-- Whenever `f` returns from a state with `P`, it leaves a state with `Q`. -/
def Triple (P : St → Prop) (f : Step) (Q : St → Prop) : Prop :=
  ∀ s s', f s = .ok s' → P s → Q s'

/-- The lengths of the replica arrays of the atom with index `k`, if it exists. -/
def lensAt (s : St) (k : Nat) : Option (Nat × Nat × Nat) :=
  (shape s).1[k]?

/-- Three lengths, each increased by `c`. -/
def add3 (c : Nat) (x : Nat × Nat × Nat) : Nat × Nat × Nat :=
  (x.1 + c, x.2.1 + c, x.2.2 + c)

/-- Between `s` and `s'` the atoms with index in `[lo, hi)` got `c` more replicas
in each array, and nothing else of the shape changed. -/
def Grows (lo hi c : Nat) (s s' : St) : Prop :=
  (shape s').2 = (shape s).2 ∧
  ∀ k, lensAt s' k = if lo ≤ k ∧ k < hi then (lensAt s k).map (add3 c) else lensAt s k

/-- Invariant (a) of the data model, on the shape: for every atom the position,
multipole and point-charge arrays have the same length. -/
def EqualLengths (s : St) : Prop :=
  ∀ x ∈ (shape s).1, x.1 = x.2.1 ∧ x.2.1 = x.2.2

/-! ## Concrete inputs -/

/-- The state of a program that has read nothing yet: flags clear, counters zero,
`QMMMOpts` as `InitializeVariables` leaves it, `Struct` empty, two CPUs asked for. -/
def startState (xyz con reg : List Tok) : St :=
  { GauExternal := false, Natoms := 0, Nqm := 0, Npseudo := 0, Nbound := 0, Nmm := 0,
    Nfreeze := 0, Ncpus := 2, Nthreads := 1, QMonly := false, MMonly := false,
    QMMM := false, PSI4 := false, NWChem := false, Gaussian := false, TINKER := false,
    AMBER := false, LAMMPS := false, AMOEBA := false, CHRG := false, GEM := false,
    PIMCSim := false, OptSim := false, SteepSim := false, QuickSim := false,
    DFPSim := false, NEBSim := false, ESDSim := false, ENEBSim := false,
    SinglePoint := false, PBCon := false, Jokes := false, Lx := 0, Ly := 0, Lz := 0,
    Struct := [],
    QMMMOpts := InitializeVariables
      { Func := "", Basis := "", RAM := "", MemMB := false, Charge := "", Spin := "",
        BackDir := "", Ensemble := "", Temp := 0, Beta := 0, Press := 0, Neq := 0,
        Nsteps := 0, Nbeads := 0, accratio := 0, Nprint := 0, dt := 0, tautemp := 0,
        MaxOptSteps := 0, MMOptTol := 0, QMOptTol := 0, StepScale := 0, MaxStep := 0,
        Kspring := 0, TSBead := 0, Climb := false, FrznEnds := false, Eold := 0,
        Ereact := 0, Eprod := 0, Ets := 0 },
    xyzfile := IStream.opened xyz, connectfile := IStream.opened con,
    regionfile := IStream.opened reg, beadfile := IStream.opened [],
    dummy := "", tmp := 0, AtomID := 0, AtTest := 0, nrand := 0, ndecl := 0 }

/-- A multipole that is a bare charge `q`, without frame-defining atoms. -/
def bareCharge (q : ℚ) : Mpole :=
  { q := q, Dx := 0, Dy := 0, Dz := 0, Qxx := 0, Qxy := 0, Qxz := 0, Qyy := 0,
    Qyz := 0, Qzz := 0, Oxxx := 0, Oxxy := 0, Oxxz := 0, Oxyy := 0, Oxyz := 0,
    Oxzz := 0, Oyyy := 0, Oyyz := 0, Oyzz := 0, Ozzz := 0,
    Atom1 := none, Atom2 := none, Atom3 := none }

/-- An environment: eight processors, every default value and every indeterminate
value zero or empty, and the restart file `bead` when there is one. -/
def sampleEnv (bead : Option (List Tok)) : Env :=
  { k := 1, StepMin := 1, CentRatio := 1, sqrt := fun x => x, rand := fun _ => 0,
    Mpole0 := bareCharge 0, OctCharges0 := ⟨[]⟩, TINKpoles := fun _ mp => mp,
    TINKclassesFound := true, BeadStartStruct := bead.map IStream.opened,
    BACKUPQM := none, FindMaxThreads := 8, indetInt := fun _ => 0,
    indetReal := fun _ => 0 }

/-- An xyz file with two atoms, at (0,0,0) and (0,0,1). -/
def xyzTwo : List Tok :=
  [Tok.i "2" 2,
   Tok.w "O", Tok.i "0" 0, Tok.i "0" 0, Tok.i "0" 0,
   Tok.w "H", Tok.i "0" 0, Tok.i "0" 0, Tok.i "1" 1]

/-- A connectivity file for two atoms bonded to each other. -/
def conTwo : List Tok :=
  [Tok.i "0" 0, Tok.w "OW", Tok.i "1" 1, Tok.i "16" 16, Tok.i "0" 0, Tok.i "1" 1, Tok.i "1" 1,
   Tok.i "1" 1, Tok.w "HW", Tok.i "2" 2, Tok.i "1" 1, Tok.i "0" 0, Tok.i "1" 1, Tok.i "0" 0]

/-- The head of a region file: a QMMM run with Gaussian and TINKER point charges. -/
def regHead : List Tok :=
  [Tok.w "Potential_type:", Tok.w "QMMM",
   Tok.w "QM_type:", Tok.w "Gaussian",
   Tok.w "QM_method:", Tok.w "B3LYP",
   Tok.w "QM_basis:", Tok.w "STO-3G",
   Tok.w "QM_memory:", Tok.i "2" 2, Tok.w "GB",
   Tok.w "QM_charge:", Tok.i "0" 0,
   Tok.w "QM_spin:", Tok.i "1" 1,
   Tok.w "MM_type:", Tok.w "TINKER",
   Tok.w "Electrostatics:", Tok.w "Charges"]

/-- The tail of a region file: no periodic box, atom 0 in the QM region, no
pseudo-bond, no boundary atom, and the listed frozen atoms. -/
def regTail (frozen : List Tok) : List Tok :=
  [Tok.w "PBC:", Tok.w "No",
   Tok.w "QM_atoms:", Tok.i "1" 1, Tok.i "0" 0,
   Tok.w "Pseudobond_atoms:", Tok.i "0" 0,
   Tok.w "Boundary_atoms:", Tok.i "0" 0,
   Tok.w "Frozen_atoms:"] ++ frozen

/-- The calculation type of a path-integral run with `beads` beads. -/
def regPIMC (beads : Tok) : List Tok :=
  [Tok.w "Calculation_type:", Tok.w "PIMC",
   Tok.w "Ensemble:", Tok.w "NVT",
   Tok.w "Temperature:", Tok.i "300" 300,
   Tok.w "Pressure:", Tok.i "0" 0,
   Tok.w "Eq_steps:", Tok.i "10" 10,
   Tok.w "Steps:", Tok.i "20" 20,
   Tok.w "Beads:", beads,
   Tok.w "Acceptance_ratio:", Tok.i "1" 1,
   Tok.w "Print_rate:", Tok.i "5" 5]

/-- The calculation type of a NEB run with `beads` beads. -/
def regNEB (beads : Tok) : List Tok :=
  [Tok.w "Calculation_type:", Tok.w "NEB",
   Tok.w "Beads:", beads,
   Tok.w "Opt_stepsize:", Tok.i "1" 1,
   Tok.w "Max_stepsize:", Tok.i "1" 1,
   Tok.w "Spring_constant:", Tok.i "1" 1,
   Tok.w "End_points:", Tok.w "Frozen",
   Tok.w "QM_opt_tolerance:", Tok.i "1" 1,
   Tok.w "MM_opt_tolerance:", Tok.i "1" 1,
   Tok.w "Max_opt_steps:", Tok.i "5" 5]

/-- The calculation type of an ensemble NEB run with `beads` beads. -/
def regENEB (beads : Tok) : List Tok :=
  [Tok.w "Calculation_type:", Tok.w "ENEB",
   Tok.w "Beads:", beads,
   Tok.w "Opt_stepsize:", Tok.i "1" 1,
   Tok.w "Max_stepsize:", Tok.i "1" 1,
   Tok.w "Spring_constant:", Tok.i "1" 1,
   Tok.w "Max_opt_steps:", Tok.i "5" 5,
   Tok.w "Timestep:", Tok.i "1" 1,
   Tok.w "Temperature:", Tok.i "300" 300,
   Tok.w "Thermostat:", Tok.i "1" 1,
   Tok.w "Steps:", Tok.i "20" 20]

/-- The state a routine left, or `d` when it did not return. -/
def Res.get {α : Type} (d : α) : Res α → α
  | .ok a => a
  | _ => d

/-- The region file of a path-integral run with three beads and atom 0 frozen. -/
def regPIMC3 : List Tok :=
  regHead ++ regPIMC (Tok.i "3" 3) ++ regTail [Tok.i "1" 1, Tok.i "0" 0]

/-- The program state before that run. -/
def startPIMC3 : St :=
  startState xyzTwo conTwo regPIMC3

/-- A region file that ends right after the bead count `Beads: 3` of a
path-integral run: every later extraction fails. -/
def regCut : List Tok :=
  regHead ++
  [Tok.w "Calculation_type:", Tok.w "PIMC",
   Tok.w "Ensemble:", Tok.w "NVT",
   Tok.w "Temperature:", Tok.i "300" 300,
   Tok.w "Pressure:", Tok.i "0" 0,
   Tok.w "Eq_steps:", Tok.i "10" 10,
   Tok.w "Steps:", Tok.i "20" 20,
   Tok.w "Beads:", Tok.i "3" 3]

/-- The program state before the run on the region file that ends early. -/
def startCut : St :=
  startState xyzTwo conTwo regCut

/-- The token `3.5`: an `int` extraction reads 3 and leaves `.5`, which is no
integer. -/
def tokHalf : Tok :=
  Tok.r "3.5" (7 / 2) 3 (.mk ".5" (.bad (some 0)) (.ok (1 / 2) none))

/-- The program state before a path-integral run whose region file asks for 3.5
beads: the bead count read is 3, and the extraction of the acceptance ratio fails
on the label that follows `.5`. -/
def startHalf : St :=
  startState xyzTwo conTwo (regHead ++ regPIMC tokHalf ++ regTail [Tok.i "0" 0])

/-- Every atom has `n` entries in each of its three replica arrays. -/
def AllLen (n : Nat) (s : St) : Prop :=
  ∀ x ∈ (shape s).1, x = (n, n, n)

/-- None of the three replica modes (PIMC, NEB, ensemble NEB) is selected. -/
def noMode (s : St) : Prop :=
  s.PIMCSim = false ∧ s.NEBSim = false ∧ s.ENEBSim = false

/-- At most one of the three replica modes is selected. -/
def atMostOneMode (s : St) : Prop :=
  (s.PIMCSim = true → s.NEBSim = false ∧ s.ENEBSim = false) ∧
  (s.NEBSim = true → s.ENEBSim = false)

/-- The replica bookkeeping is consistent: `Struct` holds `Natoms` atoms, all with
the same number `n` of replicas; without replica mode `n` and `Nbeads` are 1; with
at most one replica mode and a positive `Nbeads`, `n` is `Nbeads`. -/
def Counted (s : St) : Prop :=
  (shape s).1.length = s.Natoms.toNat ∧
  ∃ n : Nat, AllLen n s ∧ (noMode s → n = 1 ∧ s.QMMMOpts.Nbeads = 1) ∧
    (atMostOneMode s → 1 ≤ s.QMMMOpts.Nbeads → (n : Int) = s.QMMMOpts.Nbeads)

/-- The state on entry of a normal run: nothing in `Struct`, no replica mode
selected, `Nbeads` as `InitializeVariables` leaves it, no Gaussian external call. -/
def FreshEntry (s : St) : Prop :=
  s.GauExternal = false ∧ s.Struct = [] ∧ noMode s ∧ s.QMMMOpts.Nbeads = 1

/-- The bookkeeping before the PIMC block. -/
def Counted0 (s : St) : Prop :=
  Counted s ∧ noMode s

/-- The bookkeeping between the PIMC block and the NEB block. -/
def Counted1 (s : St) : Prop :=
  Counted s ∧ s.NEBSim = false ∧ s.ENEBSim = false

/-- The bookkeeping between the NEB block and the ensemble NEB block. -/
def Counted2 (s : St) : Prop :=
  Counted s ∧ s.ENEBSim = false

/-- Inside a replica block, after its flag is set and before the replicas are
made: `Struct` holds `Natoms` atoms with `n` replicas each, and `n` is 1 if the
flags `p` and `q` of the earlier blocks are clear. -/
def InBlock (flagSet : St → Prop) (earlier : St → Prop) (s : St) : Prop :=
  (shape s).1.length = s.Natoms.toNat ∧ flagSet s ∧
  ∃ n : Nat, AllLen n s ∧ (earlier s → n = 1)

/-- The program state before a path-integral run whose region file asks for 0
beads. -/
def startPIMC0 : St :=
  startState xyzTwo conTwo (regHead ++ regPIMC (Tok.i "0" 0) ++ regTail [Tok.i "0" 0])

/-- An atom with one replica: position `pos`, multipole `mp`, no point charge. -/
def atomAt (id : Int) (pos : Coord) (mp : Mpole) : QMMMAtom :=
  { m := 1, QMregion := false, MMregion := true, PBregion := false, BAregion := false,
    Frozen := false, QMTyp := "X", MMTyp := "X", NumTyp := 0, id := id, Bonds := [],
    P := [pos], MP := [mp], PC := [⟨[]⟩] }

/-- The local dipole (0.5, 0, 0), with atom 1 defining the z axis and atom 2 the x
axis of the local frame. -/
def xDipole : Mpole :=
  { bareCharge 0 with Dx := 1 / 2, Atom1 := some 1, Atom2 := some 2 }

/-- Atom 0 carries `xDipole`; its z-axis atom lies on the global z axis and its
x-axis atom on the global y axis, so its local frame is the global frame rotated
by 90 degrees about the global z axis. -/
def rotatedFrame : List QMMMAtom :=
  [atomAt 0 ⟨0, 0, 0⟩ xDipole, atomAt 1 ⟨0, 0, 1⟩ (bareCharge 0),
   atomAt 2 ⟨0, 1, 0⟩ (bareCharge 0)]

/-- Atom 0 carries `xDipole`; both atoms that define its frame lie on the global z
axis, colinear with it. -/
def colinearFrame : List QMMMAtom :=
  [atomAt 0 ⟨0, 0, 0⟩ xDipole, atomAt 1 ⟨0, 0, 1⟩ (bareCharge 0),
   atomAt 2 ⟨0, 0, 2⟩ (bareCharge 0)]

/-- The vector from `a` to `b`. -/
def Coord.bond (a b : Coord) : Coord :=
  ⟨b.x - a.x, b.y - a.y, b.z - a.z⟩

/-- The scalar product of two vectors. -/
def Coord.dot (a b : Coord) : ℚ :=
  a.x * b.x + a.y * b.y + a.z * b.z

/-- The cross product of two vectors. -/
def Coord.cross (a b : Coord) : Coord :=
  ⟨a.y * b.z - a.z * b.y, a.z * b.x - a.x * b.z, a.x * b.y - a.y * b.x⟩

/-- The position of replica `Bead` of the atom with index `i`. -/
def positionAt (Struct : List QMMMAtom) (i : Int) (Bead : Nat) : Option Coord :=
  if i < 0 then none else (Struct[i.toNat]?).bind fun a => a.P[Bead]?

/-- The bond vectors from replica `Bead` of atom `i` to its z-axis atom and to its
x-axis atom. -/
def frameBonds (Struct : List QMMMAtom) (i Bead : Nat) : Option (Coord × Coord) :=
  (Struct[i]?).bind fun a =>
  (a.MP[Bead]?).bind fun mp =>
  (a.P[Bead]?).bind fun p =>
  (mp.Atom1).bind fun i1 =>
  (mp.Atom2).bind fun i2 =>
  (positionAt Struct i1 Bead).bind fun p1 =>
  (positionAt Struct i2 Bead).map fun p2 => (p.bond p1, p.bond p2)

/-- The cross product of the two bond vectors that define the local frame of
replica `Bead` of atom `i`: zero when the reference atoms are colinear with the
atom or coincide in position. -/
def frameCross (Struct : List QMMMAtom) (i Bead : Nat) : Option Coord :=
  (frameBonds Struct i Bead).map fun uv => uv.1.cross uv.2

/-- Modelled from the spec: section 4.2, the orthonormal basis (x, y, z) of the
local frame, by Gram-Schmidt from the bond vector `u` to the z-axis atom and the
bond vector `v` to the x-axis atom, with y = z × x.  Normalising takes a square
root in general; the basis is given where `u` and the part of `v` orthogonal to
`u` have length 1, so that none is needed. -/
def localBasis (u v : Coord) : Option (Coord × Coord × Coord) :=
  let w : Coord := ⟨v.x - v.dot u * u.x, v.y - v.dot u * u.y, v.z - v.dot u * u.z⟩
  if u.dot u = 1 ∧ w.dot w = 1 then some (w, u.cross w, u) else none

/-- Modelled from the spec: section 4.2, the rotation applied to the l = 1
coefficients.  The local dipole `(Dx, Dy, Dz)` is `Dx x + Dy y + Dz z` in the
global frame, for the basis (x, y, z) of the local frame. -/
def rotateDipole (b : Coord × Coord × Coord) (d : ℚ × ℚ × ℚ) : ℚ × ℚ × ℚ :=
  (d.1 * b.1.x + d.2.1 * b.2.1.x + d.2.2 * b.2.2.x,
   d.1 * b.1.y + d.2.1 * b.2.1.y + d.2.2 * b.2.2.y,
   d.1 * b.1.z + d.2.1 * b.2.1.z + d.2.2 * b.2.2.z)

/-- Modelled from the spec: the dipole of replica `Bead` of atom `i` in the global
frame, by the rotation built from its reference atoms (section 4.2). -/
def globalDipole (Struct : List QMMMAtom) (i Bead : Nat) : Option (ℚ × ℚ × ℚ) :=
  (Struct[i]?).bind fun a =>
  (a.MP[Bead]?).bind fun mp =>
  (frameBonds Struct i Bead).bind fun uv =>
  (localBasis uv.1 uv.2).map fun b => rotateDipole b (mp.Dx, mp.Dy, mp.Dz)

/-- The dipole stored for replica `Bead` of atom `i`. -/
def storedDipole (Struct : List QMMMAtom) (i Bead : Nat) : Option (ℚ × ℚ × ℚ) :=
  (Struct[i]?).bind fun a => (a.MP[Bead]?).map fun mp => (mp.Dx, mp.Dy, mp.Dz)

/-- The l = 1, l = 2 and l = 3 components of a reduced multipole are all zero. -/
def RedMpole.monopoleOnly (r : RedMpole) : Prop :=
  r.Q10 = 0 ∧ r.Q11c = 0 ∧ r.Q11s = 0 ∧
  r.Q20 = 0 ∧ r.Q21c = 0 ∧ r.Q21s = 0 ∧ r.Q22c = 0 ∧ r.Q22s = 0 ∧
  r.Q30 = 0 ∧ r.Q31c = 0 ∧ r.Q31s = 0 ∧ r.Q32c = 0 ∧ r.Q32s = 0 ∧ r.Q33c = 0 ∧
  r.Q33s = 0

/-- An argument vector that forgets `-o`: ten arguments after the program name,
none of them an unknown flag. -/
def argvNoOutputFlag : List String :=
  ["lichem", "-n", "4", "-x", "in.xyz", "-c", "con.inp", "-r", "reg.inp", "out.xyz", "log"]

/-- Every file can be opened and every routine of another file returns. -/
def argEnvAll : ArgEnv :=
  { canRead := fun _ => true, canWrite := fun _ => true, extReturns := fun _ => true }

/-- The streams and names before `ReadArgs`: nothing open, one CPU. -/
def argStart : ArgSt :=
  { Ncpus := 1, xyzfilename := "", confilename := "", regfilename := "",
    xyzfile := ⟨false, false⟩, connectfile := ⟨false, false⟩,
    regionfile := ⟨false, false⟩, outfile := ⟨false, false⟩ }

/-- A connectivity file for two atoms in which atom 0 names the atom index -1. -/
def conNegative : List Tok :=
  [Tok.i "0" 0, Tok.w "OW", Tok.i "1" 1, Tok.i "16" 16, Tok.i "0" 0, Tok.i "1" 1,
   Tok.i "-1" (-1),
   Tok.i "1" 1, Tok.w "HW", Tok.i "2" 2, Tok.i "1" 1, Tok.i "0" 0, Tok.i "1" 1, Tok.i "0" 0]

/-- A state on entry of `LICHEMErrorChecker`: a pure QM run with Gaussian, no CPU
asked for and a step scale of 2. -/
def checkerStart : St :=
  { startState [] [] [] with
    QMonly := true, Gaussian := true, Ncpus := 0,
    QMMMOpts := { (startState [] [] []).QMMMOpts with StepScale := 2 } }

/-- The program state before an ensemble NEB run whose region file asks for -1
beads. -/
def startENEBneg : St :=
  startState xyzTwo conTwo (regHead ++ regENEB (Tok.i "-1" (-1)) ++ regTail [Tok.i "0" 0])

/-- A restart file without a record, as a run with 0 beads expects it. -/
def beadEmpty : List Tok :=
  [Tok.i "0" 0]

/-- The program state before a NEB run with two beads in which atom 0 is frozen. -/
def startNEB2 : St :=
  startState xyzTwo conTwo
    (regHead ++ regNEB (Tok.i "2" 2) ++ regTail [Tok.i "1" 1, Tok.i "0" 0])

/-- A restart file for two atoms and two beads that places the second replica of
atom 0 at (5,5,5), away from its first replica at (0,0,0). -/
def beadMoved : List Tok :=
  [Tok.i "4" 4,
   Tok.w "O", Tok.i "0" 0, Tok.i "0" 0, Tok.i "0" 0,
   Tok.w "O", Tok.i "5" 5, Tok.i "5" 5, Tok.i "5" 5,
   Tok.w "H", Tok.i "0" 0, Tok.i "0" 0, Tok.i "1" 1,
   Tok.w "H", Tok.i "0" 0, Tok.i "0" 0, Tok.i "1" 1]

/-- The positions of the replicas of atom `i`. -/
def positionsOf (s : St) (i : Nat) : List Coord :=
  match s.Struct[i]? with
  | some a => a.P
  | none => []

/-- Whether atom `i` is marked as frozen. -/
def frozenAt (s : St) (i : Nat) : Bool :=
  match s.Struct[i]? with
  | some a => a.Frozen
  | none => false

/-- The Gaussian external flag and the CPUs asked for are `g` and `c`. -/
def CpusAre (g : Bool) (c : Int) (s : St) : Prop :=
  s.GauExternal = g ∧ s.Ncpus = c

/-- Every multipole and every point-charge set of the atom equals the one of the
zeroth replica. -/
def elecUniform (a : QMMMAtom) : Prop :=
  (∀ x ∈ a.MP, some x = a.MP.head?) ∧ (∀ x ∈ a.PC, some x = a.PC.head?)

/-- Every position of the atom equals the one of the zeroth replica. -/
def posUniform (a : QMMMAtom) : Prop :=
  ∀ p ∈ a.P, some p = a.P.head?

/-- The electrostatic data of every replica of every atom is that of the zeroth
replica. -/
def ElecCopied (s : St) : Prop :=
  ∀ a ∈ s.Struct, elecUniform a

/-- Unless the path-integral block ran, the position of every replica of every
atom is that of the zeroth replica. -/
def PosCopied (s : St) : Prop :=
  s.PIMCSim = false → ∀ a ∈ s.Struct, posUniform a

/-- Lines 273-749 of `ReadLICHEMInput`: the run up to the end of the calculation
type, where the replicas have just been made and no restart file is read yet. -/
def readToCalcType (env : Env) : Step :=
  seqS [declDummy, readXYZ env, readConnectivity env, readPotential env, readCalcType env]

/-! # Theorems -/

set_option linter.unusedTactic false
set_option linter.unreachableTactic false

/-! ## Sequencing and loops -/

theorem Res.bind_eq_ok {α β : Type} (r : Res α) (f : α → Res β) (b : β) :
    r.bind f = .ok b ↔ ∃ a, r = .ok a ∧ f a = .ok b := by
  cases r <;> simp [Res.bind]

theorem Keeps.skip (I : St → Prop) : Keeps I (seqS []) := by
  intro s s' h hI
  simp [seqS] at h
  exact h ▸ hI

theorem Keeps.andThen {I : St → Prop} {f : Step} {fs : List Step}
    (hf : Keeps I f) (hfs : Keeps I (seqS fs)) : Keeps I (seqS (f :: fs)) := by
  intro s s' h hI
  simp only [seqS, Res.bind_eq_ok] at h
  obtain ⟨t, h1, h2⟩ := h
  exact hfs t s' h2 (hf s t h1 hI)

theorem Keeps.guarded {I : St → Prop} {c : St → Bool} {body : Step}
    (hb : Keeps I body) : Keeps I (whenS c body) := by
  intro s s' h hI
  unfold LICHEM.whenS at h
  split at h
  · exact hb s s' h hI
  · simp at h
    exact h ▸ hI

theorem Keeps.exitS (I : St → Prop) (msg : String) : Keeps I (exitS msg) := by
  intro s s' h
  simp [LICHEM.exitS] at h

theorem Keeps.undefS (I : St → Prop) : Keeps I undefS := by
  intro s s' h
  simp [LICHEM.undefS] at h

theorem Keeps.ifS {I : St → Prop} {c : St → Bool} {t e : Step}
    (ht : Keeps I t) (he : Keeps I e) : Keeps I (ifS c t e) := by
  intro s s' h hI
  unfold LICHEM.ifS at h
  split at h
  · exact ht s s' h hI
  · exact he s s' h hI

theorem Keeps.assign {I : St → Prop} {g : St → St}
    (hg : ∀ s, I s → I (g s)) : Keeps I (assign g) := by
  intro s s' h hI
  simp [LICHEM.assign] at h
  exact h ▸ hg s hI

theorem Keeps.forUpTo {I : St → Prop} {body : Nat → Step}
    (hb : ∀ i, Keeps I (body i)) (cnt i : Nat) : Keeps I (forUpTo cnt i body) := by
  induction cnt generalizing i with
  | zero =>
    intro s s' h hI
    simp [LICHEM.forUpTo] at h
    exact h ▸ hI
  | succ n ih =>
    intro s s' h hI
    simp only [LICHEM.forUpTo, Res.bind_eq_ok] at h
    obtain ⟨t, h1, h2⟩ := h
    exact ih (i + 1) t s' h2 (hb i s t h1 hI)

theorem Keeps.forLoop {I : St → Prop} {bound : St → Int} {body : Nat → Step}
    (hb : ∀ i, Keeps I (body i)) : Keeps I (forLoop bound body) := by
  intro s s' h hI
  exact Keeps.forUpTo hb _ _ s s' h hI

/-! ## Extractions and accesses to `Struct` -/

theorem Keeps.rdWordThen {I : St → Prop} {f : File} {next : Option String → Step}
    (hput : ∀ ts s, I s → I (f.put ts s)) (hn : ∀ r, Keeps I (next r)) :
    Keeps I (rdWordThen f next) := by
  intro s s' h hI
  exact hn _ _ s' h (hput _ s hI)

theorem Keeps.rdRealThen {I : St → Prop} {f : File} {next : Option ℚ → Step}
    (hput : ∀ ts s, I s → I (f.put ts s)) (hn : ∀ r, Keeps I (next r)) :
    Keeps I (rdRealThen f next) := by
  intro s s' h hI
  exact hn _ _ s' h (hput _ s hI)

theorem Keeps.rdIntThen {I : St → Prop} {f : File} {next : Option Int → Step}
    (hput : ∀ ts s, I s → I (f.put ts s)) (hn : ∀ r, Keeps I (next r)) :
    Keeps I (rdIntThen f next) := by
  intro s s' h hI
  exact hn _ _ s' h (hput _ s hI)

attribute [irreducible] rdWordThen rdRealThen rdIntThen

theorem stored_keeps {α : Type} {I : St → Prop} {set : α → St → St}
    (hset : ∀ v s, I s → I (set v s)) (r : Option α) (s : St) (h : I s) :
    I (stored r set s) := by
  cases r with
  | none => exact h
  | some v => exact hset v s h

theorem Keeps.rdWord {I : St → Prop} {f : File} {set : String → St → St}
    (hput : ∀ ts s, I s → I (f.put ts s)) (hset : ∀ v s, I s → I (set v s)) :
    Keeps I (rdWord f set) :=
  Keeps.rdWordThen hput fun r => Keeps.assign (stored_keeps hset r)

theorem Keeps.rdReal {I : St → Prop} {f : File} {set : ℚ → St → St}
    (hput : ∀ ts s, I s → I (f.put ts s)) (hset : ∀ v s, I s → I (set v s)) :
    Keeps I (rdReal f set) :=
  Keeps.rdRealThen hput fun r => Keeps.assign (stored_keeps hset r)

theorem Keeps.rdInt {I : St → Prop} {f : File} {set : Int → St → St}
    (hput : ∀ ts s, I s → I (f.put ts s)) (hset : ∀ v s, I s → I (set v s)) :
    Keeps I (rdInt f set) :=
  Keeps.rdIntThen hput fun r => Keeps.assign (stored_keeps hset r)

theorem Keeps.readingS {I : St → Prop} {k : St → Step}
    (hk : ∀ t, Keeps I (k t)) : Keeps I (readingS k) := by
  intro s s' h hI
  exact hk s s s' h hI

attribute [irreducible] readingS

theorem Keeps.declDummy {I : St → Prop} (hI : CoreOnly I) : Keeps I declDummy :=
  Keeps.assign fun s h => hI s _ rfl h

theorem core_put (f : File) (ts : IStream) (s : St) : core (f.put ts s) = core s := by
  cases f <;> rfl

theorem CoreOnly.put {I : St → Prop} (hI : CoreOnly I) (f : File) (ts : IStream) (s : St)
    (h : I s) : I (f.put ts s) :=
  hI s _ (core_put f ts s) h

theorem Keeps.rdDummy {I : St → Prop} (hI : CoreOnly I) : Keeps I rdDummy :=
  Keeps.rdWord (hI.put .region) fun _ s h => hI s _ rfl h

theorem Same.keepsCore {I : St → Prop} {f : Step} (hf : Same f) (hI : CoreOnly I) : Keeps I f := by
  intro s s' h hs
  exact hI s s' (hf (core s) s s' h rfl) hs

theorem coreOnly_core (c) : CoreOnly (fun s => core s = c) := by
  intro s t h hs
  exact h.trans hs

theorem map_set_of_eq {α β : Type} (g : α → β) (l : List α) (i : Nat) (a a' : α)
    (hi : l[i]? = some a) (h : g a' = g a) : (l.set i a').map g = l.map g := by
  apply List.ext_getElem?
  intro j
  simp only [List.getElem?_map, List.getElem?_set]
  by_cases hij : i = j
  · subst hij
    have hlt : i < l.length := by
      rcases Nat.lt_or_ge i l.length with h1 | h1
      · exact h1
      · rw [List.getElem?_eq_none h1] at hi
        cases hi
    simp [hlt, hi, h]
  · simp [hij]

/-- A rewriting of an atom that keeps its replica arrays keeps the core. -/
theorem Keeps.modAtom_core (c) {i : Int} {f : QMMMAtom → Option QMMMAtom}
    (hf : ∀ a a', f a = some a' → reps a' = reps a) :
    Keeps (fun s => core s = c) (modAtom i f) := by
  intro s s' h hs
  unfold LICHEM.modAtom at h
  split at h
  · simp at h
  · split at h
    · simp at h
    · rename_i a ha
      split at h
      · simp at h
      · rename_i a' hfa
        simp only [Res.ok.injEq] at h
        subst h
        rw [← hs]
        simp only [core]
        rw [map_set_of_eq reps _ _ a a' ha (hf a a' hfa)]

theorem Keeps.readAtom {I : St → Prop} {i : Int} {f : QMMMAtom → Step}
    (hf : ∀ a, Keeps I (f a)) : Keeps I (readAtom i f) := by
  intro s s' h hI
  unfold LICHEM.readAtom at h
  split at h
  · simp at h
  · split at h
    · simp at h
    · exact hf _ s s' h hI

theorem readPBC_same : Same readPBC := by
  intro c
  unfold readPBC
  repeat' first
    | exact Keeps.skip _
    | exact Keeps.rdDummy (coreOnly_core c)
    | apply Keeps.andThen
    | apply Keeps.guarded
    | apply Keeps.assign
    | apply Keeps.rdReal
    | apply Keeps.rdInt
    | apply Keeps.rdWord
    | (intros; assumption)

theorem readMinimiser_same : Same readMinimiser := by
  intro c
  unfold readMinimiser
  repeat' first
    | exact Keeps.skip _
    | exact Keeps.exitS _ _
    | exact Keeps.undefS _
    | exact Keeps.rdDummy (coreOnly_core c)
    | apply Keeps.andThen
    | apply Keeps.guarded
    | apply Keeps.ifS
    | apply Keeps.assign
    | apply Keeps.forLoop
    | apply Keeps.readingS
    | apply Keeps.rdReal
    | apply Keeps.rdInt
    | apply Keeps.rdWord
    | apply Keeps.rdIntThen
    | apply Keeps.modAtom_core
    | (intros; assumption)
    | (intro a a' h; simp [allQM, allMM] at h; subst h; rfl)
    | intro _

theorem readQMOptions_same (gauss : List String) : Same (readQMOptions gauss) := by
  intro c
  unfold readQMOptions
  repeat' first
    | exact Keeps.skip _
    | exact Keeps.exitS _ _
    | exact Keeps.undefS _
    | exact Keeps.rdDummy (coreOnly_core c)
    | exact readMinimiser_same c
    | apply Keeps.andThen
    | apply Keeps.guarded
    | apply Keeps.ifS
    | apply Keeps.assign
    | apply Keeps.forLoop
    | apply Keeps.readingS
    | apply Keeps.rdReal
    | apply Keeps.rdInt
    | apply Keeps.rdWord
    | apply Keeps.rdIntThen
    | apply Keeps.modAtom_core
    | (intros; assumption)
    | (intro a a' h; simp [allQM, allMM] at h; subst h; rfl)
    | intro _

theorem optBlock_same  : Same (optBlock) := by
  intro c
  unfold optBlock
  repeat' first
    | exact Keeps.skip _
    | exact Keeps.exitS _ _
    | exact Keeps.undefS _
    | exact Keeps.rdDummy (coreOnly_core c)
    | exact readMinimiser_same c
    | apply Keeps.andThen
    | apply Keeps.guarded
    | apply Keeps.ifS
    | apply Keeps.assign
    | apply Keeps.forLoop
    | apply Keeps.readingS
    | apply Keeps.rdReal
    | apply Keeps.rdInt
    | apply Keeps.rdWord
    | apply Keeps.rdIntThen
    | apply Keeps.modAtom_core
    | (intros; assumption)
    | (intro a a' h; simp [allQM, allMM] at h; subst h; rfl)
    | intro _

theorem steepBlock_same  : Same (steepBlock) := by
  intro c
  unfold steepBlock
  repeat' first
    | exact Keeps.skip _
    | exact Keeps.exitS _ _
    | exact Keeps.undefS _
    | exact Keeps.rdDummy (coreOnly_core c)
    | exact readMinimiser_same c
    | apply Keeps.andThen
    | apply Keeps.guarded
    | apply Keeps.ifS
    | apply Keeps.assign
    | apply Keeps.forLoop
    | apply Keeps.readingS
    | apply Keeps.rdReal
    | apply Keeps.rdInt
    | apply Keeps.rdWord
    | apply Keeps.rdIntThen
    | apply Keeps.modAtom_core
    | (intros; assumption)
    | (intro a a' h; simp [allQM, allMM] at h; subst h; rfl)
    | intro _

theorem quickBlock_same  : Same (quickBlock) := by
  intro c
  unfold quickBlock
  repeat' first
    | exact Keeps.skip _
    | exact Keeps.exitS _ _
    | exact Keeps.undefS _
    | exact Keeps.rdDummy (coreOnly_core c)
    | exact readMinimiser_same c
    | apply Keeps.andThen
    | apply Keeps.guarded
    | apply Keeps.ifS
    | apply Keeps.assign
    | apply Keeps.forLoop
    | apply Keeps.readingS
    | apply Keeps.rdReal
    | apply Keeps.rdInt
    | apply Keeps.rdWord
    | apply Keeps.rdIntThen
    | apply Keeps.modAtom_core
    | (intros; assumption)
    | (intro a a' h; simp [allQM, allMM] at h; subst h; rfl)
    | intro _

theorem dfpBlock_same  : Same (dfpBlock) := by
  intro c
  unfold dfpBlock
  repeat' first
    | exact Keeps.skip _
    | exact Keeps.exitS _ _
    | exact Keeps.undefS _
    | exact Keeps.rdDummy (coreOnly_core c)
    | exact readMinimiser_same c
    | apply Keeps.andThen
    | apply Keeps.guarded
    | apply Keeps.ifS
    | apply Keeps.assign
    | apply Keeps.forLoop
    | apply Keeps.readingS
    | apply Keeps.rdReal
    | apply Keeps.rdInt
    | apply Keeps.rdWord
    | apply Keeps.rdIntThen
    | apply Keeps.modAtom_core
    | (intros; assumption)
    | (intro a a' h; simp [allQM, allMM] at h; subst h; rfl)
    | intro _

theorem esdBlock_same  : Same (esdBlock) := by
  intro c
  unfold esdBlock
  repeat' first
    | exact Keeps.skip _
    | exact Keeps.exitS _ _
    | exact Keeps.undefS _
    | exact Keeps.rdDummy (coreOnly_core c)
    | exact readMinimiser_same c
    | apply Keeps.andThen
    | apply Keeps.guarded
    | apply Keeps.ifS
    | apply Keeps.assign
    | apply Keeps.forLoop
    | apply Keeps.readingS
    | apply Keeps.rdReal
    | apply Keeps.rdInt
    | apply Keeps.rdWord
    | apply Keeps.rdIntThen
    | apply Keeps.modAtom_core
    | (intros; assumption)
    | (intro a a' h; simp [allQM, allMM] at h; subst h; rfl)
    | intro _

theorem spBlock_same  : Same (spBlock) := by
  intro c
  unfold spBlock
  repeat' first
    | exact Keeps.skip _
    | exact Keeps.exitS _ _
    | exact Keeps.undefS _
    | exact Keeps.rdDummy (coreOnly_core c)
    | exact readMinimiser_same c
    | apply Keeps.andThen
    | apply Keeps.guarded
    | apply Keeps.ifS
    | apply Keeps.assign
    | apply Keeps.forLoop
    | apply Keeps.readingS
    | apply Keeps.rdReal
    | apply Keeps.rdInt
    | apply Keeps.rdWord
    | apply Keeps.rdIntThen
    | apply Keeps.modAtom_core
    | (intros; assumption)
    | (intro a a' h; simp [allQM, allMM] at h; subst h; rfl)
    | intro _

theorem readRegions_same (env : Env) : Same (readRegions env) := by
  intro c
  unfold readRegions
  repeat' first
    | exact Keeps.skip _
    | exact Keeps.exitS _ _
    | exact Keeps.undefS _
    | exact Keeps.rdDummy (coreOnly_core c)
    | exact readMinimiser_same c
    | apply Keeps.andThen
    | apply Keeps.guarded
    | apply Keeps.ifS
    | apply Keeps.assign
    | apply Keeps.forLoop
    | apply Keeps.readingS
    | apply Keeps.rdReal
    | apply Keeps.rdInt
    | apply Keeps.rdWord
    | apply Keeps.rdIntThen
    | apply Keeps.modAtom_core
    | (intros; assumption)
    | (intro a a' h; simp [allQM, allMM] at h; subst h; rfl)
    | intro _

theorem resetRegions_same  : Same (resetRegions) := by
  intro c
  unfold resetRegions
  repeat' first
    | exact Keeps.skip _
    | exact Keeps.exitS _ _
    | exact Keeps.undefS _
    | exact Keeps.rdDummy (coreOnly_core c)
    | exact readMinimiser_same c
    | apply Keeps.andThen
    | apply Keeps.guarded
    | apply Keeps.ifS
    | apply Keeps.assign
    | apply Keeps.forLoop
    | apply Keeps.readingS
    | apply Keeps.rdReal
    | apply Keeps.rdInt
    | apply Keeps.rdWord
    | apply Keeps.rdIntThen
    | apply Keeps.modAtom_core
    | (intros; assumption)
    | (intro a a' h; simp [allQM, allMM] at h; subst h; rfl)
    | intro _

theorem findClasses_same (env : Env) : Same (findClasses env) := by
  intro c
  unfold findClasses
  repeat' first
    | exact Keeps.skip _
    | exact Keeps.exitS _ _
    | exact Keeps.undefS _
    | exact Keeps.rdDummy (coreOnly_core c)
    | exact readMinimiser_same c
    | apply Keeps.andThen
    | apply Keeps.guarded
    | apply Keeps.ifS
    | apply Keeps.assign
    | apply Keeps.forLoop
    | apply Keeps.readingS
    | apply Keeps.rdReal
    | apply Keeps.rdInt
    | apply Keeps.rdWord
    | apply Keeps.rdIntThen
    | apply Keeps.modAtom_core
    | (intros; assumption)
    | (intro a a' h; simp [allQM, allMM] at h; subst h; rfl)
    | intro _

theorem readBackup_same (env : Env) : Same (readBackup env) := by
  intro c
  unfold readBackup
  apply Keeps.assign
  intro s h
  rcases env.BACKUPQM with _ | _ | _ <;> exact h

/-! ## Statements that keep the shape -/

theorem shape_of_core {s t : St} (h : core t = core s) : shape t = shape s := by
  simp only [core, Prod.mk.injEq] at h
  obtain ⟨h1, h2, h3, h4, h5, h6, h7, h8⟩ := h
  have hl : t.Struct.map lens = s.Struct.map lens := by
    have := congrArg (List.map fun r : List Coord × List Mpole × List OctCharges =>
      (r.1.length, r.2.1.length, r.2.2.length)) h1
    simpa [List.map_map, Function.comp, reps, lens] using this
  simp [shape, hl, h2, h3, h4, h5, h6, h7, h8]

theorem Same.sameShape {f : Step} (hf : Same f) : SameShape f := by
  intro c s s' h hs
  have := hf (core s) s s' h rfl
  rw [← hs]
  exact shape_of_core this

theorem ShapeOnly.coreOnly {I : St → Prop} (hI : ShapeOnly I) : CoreOnly I := by
  intro s t h hs
  exact hI s t (shape_of_core h) hs

theorem shapeOnly_shape (c) : ShapeOnly (fun s => shape s = c) := by
  intro s t h hs
  exact h.trans hs

theorem SameShape.keeps {I : St → Prop} {f : Step} (hf : SameShape f) (hI : ShapeOnly I) :
    Keeps I f := by
  intro s s' h hs
  exact hI s s' (hf (shape s) s s' h rfl) hs

/-- A rewriting of an atom that keeps the lengths of its arrays keeps the shape. -/
theorem Keeps.modAtom_shape (c) {i : Int} {f : QMMMAtom → Option QMMMAtom}
    (hf : ∀ a a', f a = some a' → lens a' = lens a) :
    Keeps (fun s => shape s = c) (modAtom i f) := by
  intro s s' h hs
  unfold LICHEM.modAtom at h
  split at h
  · simp at h
  · split at h
    · simp at h
    · rename_i a ha
      split at h
      · simp at h
      · rename_i a' hfa
        simp only [Res.ok.injEq] at h
        subst h
        rw [← hs]
        simp only [shape]
        rw [map_set_of_eq lens _ _ a a' ha (hf a a' hfa)]

theorem lens_freezeBead (j : Nat) (a a' : QMMMAtom) (h : freezeBead j a = some a') :
    lens a' = lens a := by
  unfold freezeBead at h
  split at h
  · simp only [Option.some.injEq] at h
    subst h
    simp [lens]
  · simp at h

theorem lens_setCoord (j : Nat) (upd : Coord → Coord) (a a' : QMMMAtom)
    (h : setCoord j upd a = some a') : lens a' = lens a := by
  unfold setCoord at h
  split at h
  · simp only [Option.some.injEq] at h
    subst h
    simp [lens]
  · simp at h

theorem lens_setq (r : Option ℚ) (a a' : QMMMAtom)
    (h : (match a.MP with
      | [] => none
      | mp :: rest => some { a with MP := { mp with q := r.getD mp.q } :: rest }) = some a') :
    lens a' = lens a := by
  split at h
  · simp at h
  · rename_i mp rest hmp
    simp only [Option.some.injEq] at h
    subst h
    simp [lens, hmp]

theorem ExtractTINKpoles_sameShape (env : Env) (Bead : Nat) :
    SameShape (ExtractTINKpoles env Bead) := by
  intro c
  unfold ExtractTINKpoles
  apply Keeps.assign
  intro s hs
  rw [← hs]
  simp [shape, List.map_map, Function.comp, lens]

theorem readMMOptions_sameShape (env : Env) : SameShape (readMMOptions env) := by
  intro c
  unfold readMMOptions
  repeat' first
    | exact Keeps.skip _
    | exact Keeps.exitS _ _
    | exact Keeps.undefS _
    | exact Keeps.rdDummy (shapeOnly_shape c).coreOnly
    | exact (readQMOptions_same _).sameShape c
    | exact ExtractTINKpoles_sameShape _ _ c
    | apply Keeps.andThen
    | apply Keeps.guarded
    | apply Keeps.ifS
    | apply Keeps.assign
    | apply Keeps.forLoop
    | apply Keeps.readingS
    | apply Keeps.forUpTo
    | apply Keeps.rdReal
    | apply Keeps.rdInt
    | apply Keeps.rdWord
    | apply Keeps.rdIntThen
    | apply Keeps.rdRealThen
    | apply Keeps.rdWordThen
    | apply Keeps.modAtom_shape
    | apply Keeps.readAtom
    | exact lens_freezeBead _
    | exact lens_setCoord _ _
    | exact lens_setq _
    | (intros; assumption)
    | (intro a a' h; simp [allQM, allMM] at h; subst h; rfl)
    | intro _

theorem readPotential_sameShape (env : Env) : SameShape (readPotential env) := by
  intro c
  unfold readPotential
  repeat' first
    | exact Keeps.skip _
    | exact Keeps.exitS _ _
    | exact Keeps.undefS _
    | exact Keeps.rdDummy (shapeOnly_shape c).coreOnly
    | exact (readQMOptions_same _).sameShape c
    | exact ExtractTINKpoles_sameShape _ _ c
    | exact readMMOptions_sameShape _ c
    | apply Keeps.andThen
    | apply Keeps.guarded
    | apply Keeps.ifS
    | apply Keeps.assign
    | apply Keeps.forLoop
    | apply Keeps.readingS
    | apply Keeps.forUpTo
    | apply Keeps.rdReal
    | apply Keeps.rdInt
    | apply Keeps.rdWord
    | apply Keeps.rdIntThen
    | apply Keeps.rdRealThen
    | apply Keeps.rdWordThen
    | apply Keeps.modAtom_shape
    | apply Keeps.readAtom
    | exact lens_freezeBead _
    | exact lens_setCoord _ _
    | exact lens_setq _
    | (intros; assumption)
    | (intro a a' h; simp [allQM, allMM] at h; subst h; rfl)
    | intro _

theorem readConnectivity_sameShape (env : Env) : SameShape (readConnectivity env) := by
  intro c
  unfold readConnectivity conAtom conBonds
  repeat' first
    | exact Keeps.skip _
    | exact Keeps.exitS _ _
    | exact Keeps.undefS _
    | exact Keeps.rdDummy (shapeOnly_shape c).coreOnly
    | exact (readQMOptions_same _).sameShape c
    | exact ExtractTINKpoles_sameShape _ _ c
    | exact readMMOptions_sameShape _ c
    | apply Keeps.andThen
    | apply Keeps.guarded
    | apply Keeps.ifS
    | apply Keeps.assign
    | apply Keeps.forLoop
    | apply Keeps.readingS
    | apply Keeps.forUpTo
    | apply Keeps.rdReal
    | apply Keeps.rdInt
    | apply Keeps.rdWord
    | apply Keeps.rdIntThen
    | apply Keeps.rdRealThen
    | apply Keeps.rdWordThen
    | apply Keeps.modAtom_shape
    | apply Keeps.readAtom
    | exact lens_freezeBead _
    | exact lens_setCoord _ _
    | exact lens_setq _
    | (intros; assumption)
    | (intro a a' h; simp [allQM, allMM] at h; subst h; rfl)
    | intro _

theorem readFrozen_sameShape (env : Env) : SameShape (readFrozen env) := by
  intro c
  unfold readFrozen freezeAtom
  repeat' first
    | exact Keeps.skip _
    | exact Keeps.exitS _ _
    | exact Keeps.undefS _
    | exact Keeps.rdDummy (shapeOnly_shape c).coreOnly
    | exact (readQMOptions_same _).sameShape c
    | exact ExtractTINKpoles_sameShape _ _ c
    | exact readMMOptions_sameShape _ c
    | apply Keeps.andThen
    | apply Keeps.guarded
    | apply Keeps.ifS
    | apply Keeps.assign
    | apply Keeps.forLoop
    | apply Keeps.readingS
    | apply Keeps.forUpTo
    | apply Keeps.rdReal
    | apply Keeps.rdInt
    | apply Keeps.rdWord
    | apply Keeps.rdIntThen
    | apply Keeps.rdRealThen
    | apply Keeps.rdWordThen
    | apply Keeps.modAtom_shape
    | apply Keeps.readAtom
    | exact lens_freezeBead _
    | exact lens_setCoord _ _
    | exact lens_setq _
    | (intros; assumption)
    | (intro a a' h; simp [allQM, allMM] at h; subst h; rfl)
    | intro _

theorem readRestartFile_sameShape (file : IStream) : SameShape (readRestartFile file) := by
  intro c
  unfold readRestartFile restartBead
  repeat' first
    | exact Keeps.skip _
    | exact Keeps.exitS _ _
    | exact Keeps.undefS _
    | exact Keeps.rdDummy (shapeOnly_shape c).coreOnly
    | exact (readQMOptions_same _).sameShape c
    | exact ExtractTINKpoles_sameShape _ _ c
    | exact readMMOptions_sameShape _ c
    | apply Keeps.andThen
    | apply Keeps.guarded
    | apply Keeps.ifS
    | apply Keeps.assign
    | apply Keeps.forLoop
    | apply Keeps.readingS
    | apply Keeps.forUpTo
    | apply Keeps.rdReal
    | apply Keeps.rdInt
    | apply Keeps.rdWord
    | apply Keeps.rdIntThen
    | apply Keeps.rdRealThen
    | apply Keeps.rdWordThen
    | apply Keeps.modAtom_shape
    | apply Keeps.readAtom
    | exact lens_freezeBead _
    | exact lens_setCoord _ _
    | exact lens_setq _
    | (intros; assumption)
    | (intro a a' h; simp [allQM, allMM] at h; subst h; rfl)
    | intro _

theorem readRestart_sameShape (env : Env) : SameShape (readRestart env) := by
  intro c
  unfold readRestart noRestartFile
  split
  · exact Keeps.ifS (readRestartFile_sameShape _ c) (Keeps.guarded (Keeps.exitS _ _))
  · exact Keeps.guarded (Keeps.exitS _ _)

/-! ## The loops that create replicas -/

theorem modAtom_spec {i : Int} {f : QMMMAtom → Option QMMMAtom} {s s' : St}
    (h : modAtom i f s = .ok s') :
    ∃ a a', 0 ≤ i ∧ s.Struct[i.toNat]? = some a ∧ f a = some a' ∧
      s' = { s with Struct := s.Struct.set i.toNat a' } := by
  unfold modAtom at h
  split at h
  · simp at h
  · rename_i hi
    split at h
    · simp at h
    · rename_i a ha
      split at h
      · simp at h
      · rename_i a' hfa
        simp only [Res.ok.injEq] at h
        exact ⟨a, a', by omega, ha, hfa, h.symm⟩

theorem Grows.refl (lo c : Nat) (s : St) : Grows lo lo c s s := by
  refine ⟨rfl, fun k => ?_⟩
  have : ¬ (lo ≤ k ∧ k < lo) := by omega
  simp [this]

theorem Grows.zero (lo hi : Nat) (s : St) : Grows lo hi 0 s s := by
  refine ⟨rfl, fun k => ?_⟩
  have : add3 0 = id := by
    funext x
    simp [add3]
  split <;> simp [this]

/-- Growth of one atom, step after step. -/
theorem Grows.add {i c d : Nat} {s t u : St} (h1 : Grows i (i + 1) c s t)
    (h2 : Grows i (i + 1) d t u) : Grows i (i + 1) (c + d) s u := by
  refine ⟨h2.1.trans h1.1, fun k => ?_⟩
  rw [h2.2 k, h1.2 k]
  split
  · cases lensAt s k with
    | none => rfl
    | some x => simp [add3, Nat.add_assoc]
  · rfl

/-- Growth of a range of atoms, atom after atom. -/
theorem Grows.step {lo hi c : Nat} {s t u : St} (hlh : lo + 1 ≤ hi)
    (h1 : Grows lo (lo + 1) c s t) (h2 : Grows (lo + 1) hi c t u) :
    Grows lo hi c s u := by
  refine ⟨h2.1.trans h1.1, fun k => ?_⟩
  rw [h2.2 k, h1.2 k]
  by_cases hk : lo ≤ k ∧ k < lo + 1
  · have h3 : ¬ (lo + 1 ≤ k ∧ k < hi) := by omega
    have h4 : lo ≤ k ∧ k < hi := by omega
    simp [hk, h3, h4]
  · have h5 : (lo ≤ k ∧ k < hi) ↔ (lo + 1 ≤ k ∧ k < hi) := by omega
    simp [hk, h5]

/-- A rewriting of atom `i` that appends one entry to each of its arrays. -/
theorem modAtom_grows {i : Nat} {f : QMMMAtom → Option QMMMAtom} {s s' : St}
    (hf : ∀ a a', f a = some a' → lens a' = add3 1 (lens a))
    (h : modAtom i f s = .ok s') : Grows i (i + 1) 1 s s' := by
  obtain ⟨a, a', _, ha, hfa, rfl⟩ := modAtom_spec h
  simp only [Int.toNat_ofNat] at ha ⊢
  refine ⟨rfl, fun k => ?_⟩
  simp only [lensAt, shape, List.getElem?_map, List.getElem?_set]
  by_cases hk : i = k
  · subst hk
    have hlt : i < s.Struct.length := by
      rcases Nat.lt_or_ge i s.Struct.length with h1 | h1
      · exact h1
      · rw [List.getElem?_eq_none h1] at ha
        cases ha
    simp [hlt, ha, hf a a' hfa]
  · have : ¬ (i ≤ k ∧ k < i + 1) := by omega
    simp [hk, this]

theorem copyBead_grows {i : Nat} {s s' : St} (h : copyBead i s = .ok s') :
    Grows i (i + 1) 1 s s' := by
  refine modAtom_grows ?_ h
  intro a a' hfa
  split at hfa
  · rename_i p0 _ mp0 _ pc0 _ hP hMP hPC
    simp only [Option.some.injEq] at hfa
    subst hfa
    simp [lens, add3]
  · simp at hfa

theorem pimcBead_grows {env : Env} {i j : Nat} {s s' : St}
    (h : pimcBead env i j s = .ok s') : Grows i (i + 1) 1 s s' := by
  unfold pimcBead at h
  have g : Grows i (i + 1) 1 { s with nrand := s.nrand + 3 } s' := by
    refine modAtom_grows ?_ h
    intro a a' hfa
    split at hfa
    · simp only [Option.some.injEq] at hfa
      subst hfa
      simp [lens, add3]
    · simp at hfa
  exact g

/-- The inner loop: `cnt` more replicas for atom `i`. -/
theorem forUpTo_grows_one {body : Nat → Step} {i : Nat}
    (hb : ∀ j s s', body j s = .ok s' → Grows i (i + 1) 1 s s') (cnt j : Nat) (s s' : St)
    (h : forUpTo cnt j body s = .ok s') : Grows i (i + 1) cnt s s' := by
  induction cnt generalizing j s with
  | zero =>
    simp [forUpTo] at h
    subst h
    exact Grows.zero _ _ _
  | succ n ih =>
    simp only [forUpTo, Res.bind_eq_ok] at h
    obtain ⟨t, h1, h2⟩ := h
    have := Grows.add (hb j s t h1) (ih (j + 1) t h2)
    rwa [Nat.add_comm 1 n] at this

/-- The outer loop: the same number of replicas for each atom of a range.  The
number `m` is read off the state, from a part that the body leaves alone. -/
theorem forUpTo_grows_range {body : Nat → Step} {m : St → Nat}
    (hm : ∀ s t, (shape t).2 = (shape s).2 → m t = m s)
    (hb : ∀ i s s', body i s = .ok s' → Grows i (i + 1) (m s) s s') (cnt lo : Nat) (s s' : St)
    (h : forUpTo cnt lo body s = .ok s') : Grows lo (lo + cnt) (m s) s s' := by
  induction cnt generalizing lo s with
  | zero =>
    simp [forUpTo] at h
    subst h
    exact Grows.refl _ _ _
  | succ n ih =>
    simp only [forUpTo, Res.bind_eq_ok] at h
    obtain ⟨t, h1, h2⟩ := h
    have g1 := hb lo s t h1
    have g2 := ih (lo + 1) t h2
    rw [hm s t g1.1] at g2
    have : lo + 1 + n = lo + (n + 1) := by omega
    rw [this] at g2
    exact Grows.step (by omega) g1 g2

/-- Lines 671-685 and 728-742: every atom below `Natoms` gets `Nbeads-1` more
replicas. -/
theorem duplicateData_grows {s s' : St} (h : duplicateData s = .ok s') :
    Grows 0 s.Natoms.toNat (s.QMMMOpts.Nbeads - 1).toNat s s' := by
  have := @forUpTo_grows_range
    (fun i => forLoop (fun s => s.QMMMOpts.Nbeads - 1) fun _ => copyBead i)
    (fun s => (s.QMMMOpts.Nbeads - 1).toNat)
    (by
      intro s t hst
      simp only [shape, Prod.mk.injEq] at hst
      simp [hst.2.1])
    (by
      intro i s s' hi
      exact forUpTo_grows_one (fun j s s' hj => copyBead_grows hj) _ _ s s' hi)
    s.Natoms.toNat 0 s s' h
  simpa using this

/-- Lines 559-590: every atom below `Natoms` gets `Nbeads-1` more replicas. -/
theorem pimcLoops_grows {env : Env} {s s' : St}
    (h : forLoop (fun s => s.Natoms) (fun i =>
      forLoop (fun s => s.QMMMOpts.Nbeads - 1) fun j => pimcBead env i j) s = .ok s') :
    Grows 0 s.Natoms.toNat (s.QMMMOpts.Nbeads - 1).toNat s s' := by
  have := @forUpTo_grows_range
    (fun i => forLoop (fun s => s.QMMMOpts.Nbeads - 1) fun j => pimcBead env i j)
    (fun s => (s.QMMMOpts.Nbeads - 1).toNat)
    (by
      intro s t hst
      simp only [shape, Prod.mk.injEq] at hst
      simp [hst.2.1])
    (by
      intro i s s' hi
      exact forUpTo_grows_one (fun j s s' hj => pimcBead_grows hj) _ _ s s' hi)
    s.Natoms.toNat 0 s s' h
  simpa using this

/-! ## Assertions that change along a run -/

theorem Keeps.triple {I : St → Prop} {f : Step} (h : Keeps I f) : Triple I f I := h

theorem Triple.nil {P Q : St → Prop} (h : ∀ s, P s → Q s) : Triple P (seqS []) Q := by
  intro s s' hs hP
  simp [seqS] at hs
  exact hs ▸ h s hP

theorem Triple.cons {P : St → Prop} (Q : St → Prop) {R : St → Prop} {f : Step}
    {fs : List Step} (hf : Triple P f Q) (hfs : Triple Q (seqS fs) R) :
    Triple P (seqS (f :: fs)) R := by
  intro s s' h hP
  simp only [seqS, Res.bind_eq_ok] at h
  obtain ⟨t, h1, h2⟩ := h
  exact hfs t s' h2 (hf s t h1 hP)

theorem Triple.whenS {P Q : St → Prop} {c : St → Bool} {body : Step}
    (hb : Triple P body Q) (hskip : ∀ s, P s → Q s) : Triple P (whenS c body) Q := by
  intro s s' h hP
  unfold LICHEM.whenS at h
  split at h
  · exact hb s s' h hP
  · simp at h
    exact h ▸ hskip s hP

theorem Triple.post {P Q R : St → Prop} {f : Step} (h : Triple P f Q)
    (hQR : ∀ s, Q s → R s) : Triple P f R :=
  fun s s' hs hP => hQR s' (h s s' hs hP)

/-- The calculation type: only the three blocks that create replicas can change
what an assertion about the shape says. -/
theorem readCalcType_triple (env : Env) {A0 : St → Prop} (A1 A2 : St → Prop)
    {A3 : St → Prop}
    (h0 : ShapeOnly A0) (h1 : ShapeOnly A1) (h2 : ShapeOnly A2) (h3 : ShapeOnly A3)
    (hp : Triple A0 (pimcBlock env) A1) (hn : Triple A1 nebBlock A2)
    (he : Triple A2 enebBlock A3) : Triple A0 (readCalcType env) A3 := by
  unfold readCalcType
  refine Triple.cons A0 (Keeps.rdDummy h0.coreOnly) ?_
  refine Triple.cons A0 (Keeps.rdDummy h0.coreOnly) ?_
  refine Triple.cons A1 hp ?_
  refine Triple.cons A1 (optBlock_same.keepsCore h1.coreOnly) ?_
  refine Triple.cons A1 (steepBlock_same.keepsCore h1.coreOnly) ?_
  refine Triple.cons A1 (quickBlock_same.keepsCore h1.coreOnly) ?_
  refine Triple.cons A1 (dfpBlock_same.keepsCore h1.coreOnly) ?_
  refine Triple.cons A2 hn ?_
  refine Triple.cons A2 (esdBlock_same.keepsCore h2.coreOnly) ?_
  refine Triple.cons A3 he ?_
  refine Triple.cons A3 (spBlock_same.keepsCore h3.coreOnly) ?_
  exact Triple.nil fun _ h => h

/-- Everything that is read: only the xyz file and the calculation type can
change what an assertion about the shape says. -/
theorem readInputs_triple (env : Env) {Pre : St → Prop} (A : St → Prop) {B : St → Prop}
    (hA : ShapeOnly A) (hB : ShapeOnly B)
    (hd : Keeps Pre declDummy)
    (hxyz : Triple Pre (readXYZ env) A) (hcalc : Triple A (readCalcType env) B) :
    Triple Pre (readInputs env) B := by
  unfold readInputs
  refine Triple.cons Pre hd ?_
  refine Triple.cons A hxyz ?_
  refine Triple.cons A ((readConnectivity_sameShape env).keeps hA) ?_
  refine Triple.cons A ((readPotential_sameShape env).keeps hA) ?_
  refine Triple.cons B hcalc ?_
  refine Triple.cons B (readPBC_same.keepsCore hB.coreOnly) ?_
  refine Triple.cons B ((readRegions_same env).keepsCore hB.coreOnly) ?_
  refine Triple.cons B (resetRegions_same.keepsCore hB.coreOnly) ?_
  refine Triple.cons B ((readFrozen_sameShape env).keeps hB) ?_
  refine Triple.cons B ((readRestart_sameShape env).keeps hB) ?_
  refine Triple.cons B ((findClasses_same env).keepsCore hB.coreOnly) ?_
  refine Triple.cons B ((readBackup_same env).keepsCore hB.coreOnly) ?_
  exact Triple.nil fun _ h => h

theorem ReadLICHEMInput_split {env : Env} {s s' : St}
    (h : ReadLICHEMInput env s = .ok s') :
    ∃ t, readInputs env s = .ok t ∧ setThreads env t = .ok s' := by
  simp only [ReadLICHEMInput, seqS, Res.bind_eq_ok] at h
  obtain ⟨t, h1, u, h2, h3⟩ := h
  simp only [Res.ok.injEq] at h3
  subst h3
  exact ⟨t, h1, h2⟩

/-! ## C1: the three arrays of an atom have the same length -/

theorem shapeOnly_equalLengths : ShapeOnly EqualLengths := by
  intro s t h hs
  unfold EqualLengths
  rw [h]
  exact hs

theorem Grows.equalLengths {lo hi c : Nat} {s s' : St} (g : Grows lo hi c s s')
    (h : EqualLengths s) : EqualLengths s' := by
  intro x hx
  obtain ⟨k, hk⟩ := List.mem_iff_getElem?.1 hx
  have hg := g.2 k
  simp only [lensAt] at hg
  rw [hk] at hg
  split at hg
  · cases hy : (shape s).1[k]? with
    | none => simp [hy] at hg
    | some y =>
      simp only [hy, Option.map_some', Option.some.injEq] at hg
      have := h y (List.mem_iff_getElem?.2 ⟨k, hy⟩)
      subst hg
      simp only [add3]
      omega
  · exact h x (List.mem_iff_getElem?.2 ⟨k, hg.symm⟩)

theorem duplicateData_equalLengths : Keeps EqualLengths duplicateData :=
  fun _ _ h hs => (duplicateData_grows h).equalLengths hs

theorem pimcLoops_equalLengths (env : Env) :
    Keeps EqualLengths (forLoop (fun s => s.Natoms) (fun i =>
      forLoop (fun s => s.QMMMOpts.Nbeads - 1) fun j => pimcBead env i j)) :=
  fun _ _ h hs => (pimcLoops_grows h).equalLengths hs

theorem xyzAtom_equalLengths (env : Env) (i : Nat) : Keeps EqualLengths (xyzAtom env i) := by
  unfold xyzAtom
  refine Keeps.rdWordThen (shapeOnly_equalLengths.coreOnly.put _) fun QMTyp => ?_
  refine Keeps.rdRealThen (shapeOnly_equalLengths.coreOnly.put _) fun x => ?_
  refine Keeps.rdRealThen (shapeOnly_equalLengths.coreOnly.put _) fun y => ?_
  refine Keeps.rdRealThen (shapeOnly_equalLengths.coreOnly.put _) fun z => ?_
  apply Keeps.assign
  intro s hs x hx
  simp only [shape, List.map_append, List.mem_append, List.map_cons, List.map_nil,
    List.mem_singleton] at hx
  rcases hx with hx | hx
  · exact hs x hx
  · subst hx
    simp [lens, newAtom]

theorem readXYZ_equalLengths (env : Env) : Keeps EqualLengths (readXYZ env) := by
  unfold readXYZ
  apply Keeps.guarded
  apply Keeps.andThen
  · exact Keeps.rdInt (shapeOnly_equalLengths.coreOnly.put _) fun _ _ h => h
  apply Keeps.andThen
  · exact Keeps.forLoop (xyzAtom_equalLengths env)
  exact Keeps.skip _

theorem pimcBlock_equalLengths (env : Env) : Keeps EqualLengths (pimcBlock env) := by
  unfold pimcBlock
  repeat' first
    | exact Keeps.skip _
    | exact Keeps.exitS _ _
    | exact Keeps.undefS _
    | exact Keeps.rdDummy shapeOnly_equalLengths.coreOnly
    | exact duplicateData_equalLengths
    | exact pimcLoops_equalLengths _
    | exact Keeps.guarded (Keeps.assign fun _ h => h)
    | apply Keeps.andThen
    | apply Keeps.guarded
    | apply Keeps.ifS
    | apply Keeps.assign
    | apply Keeps.rdReal
    | apply Keeps.rdInt
    | apply Keeps.rdWord
    | (intros; assumption)

theorem nebBlock_equalLengths  : Keeps EqualLengths (nebBlock) := by
  unfold nebBlock
  repeat' first
    | exact Keeps.skip _
    | exact Keeps.exitS _ _
    | exact Keeps.undefS _
    | exact Keeps.rdDummy shapeOnly_equalLengths.coreOnly
    | exact duplicateData_equalLengths
    | exact pimcLoops_equalLengths _
    | exact Keeps.guarded (Keeps.assign fun _ h => h)
    | apply Keeps.andThen
    | apply Keeps.guarded
    | apply Keeps.ifS
    | apply Keeps.assign
    | apply Keeps.rdReal
    | apply Keeps.rdInt
    | apply Keeps.rdWord
    | (intros; assumption)

theorem enebBlock_equalLengths  : Keeps EqualLengths (enebBlock) := by
  unfold enebBlock enebOddCheck
  repeat' first
    | exact Keeps.skip _
    | exact Keeps.exitS _ _
    | exact Keeps.undefS _
    | exact Keeps.rdDummy shapeOnly_equalLengths.coreOnly
    | exact duplicateData_equalLengths
    | exact pimcLoops_equalLengths _
    | exact Keeps.guarded (Keeps.assign fun _ h => h)
    | apply Keeps.andThen
    | apply Keeps.guarded
    | apply Keeps.ifS
    | apply Keeps.assign
    | apply Keeps.rdReal
    | apply Keeps.rdInt
    | apply Keeps.rdWord
    | (intros; assumption)

theorem setThreads_equalLengths (env : Env) : Keeps EqualLengths (setThreads env) := by
  unfold setThreads
  repeat' first
    | exact Keeps.skip _
    | exact Keeps.exitS _ _
    | exact Keeps.undefS _
    | exact Keeps.rdDummy shapeOnly_equalLengths.coreOnly
    | exact duplicateData_equalLengths
    | exact pimcLoops_equalLengths _
    | exact Keeps.guarded (Keeps.assign fun _ h => h)
    | apply Keeps.andThen
    | apply Keeps.guarded
    | apply Keeps.ifS
    | apply Keeps.assign
    | apply Keeps.rdReal
    | apply Keeps.rdInt
    | apply Keeps.rdWord
    | (intros; assumption)

theorem readInputs_equalLengths (env : Env) : Keeps EqualLengths (readInputs env) :=
  readInputs_triple env EqualLengths shapeOnly_equalLengths shapeOnly_equalLengths
    (Keeps.declDummy shapeOnly_equalLengths.coreOnly) (readXYZ_equalLengths env)
    (readCalcType_triple env EqualLengths EqualLengths
      shapeOnly_equalLengths shapeOnly_equalLengths shapeOnly_equalLengths
      shapeOnly_equalLengths (pimcBlock_equalLengths env) nebBlock_equalLengths
      enebBlock_equalLengths)

theorem equalLengths_iff (s : St) :
    EqualLengths s ↔
      ∀ a ∈ s.Struct, a.P.length = a.MP.length ∧ a.MP.length = a.PC.length := by
  simp [EqualLengths, shape, lens]

/-- C1.  When `ReadLICHEMInput` returns, for every atom the position array `P`,
the multipole array `MP` and the point-charge array `PC` have the same length,
whatever the simulation mode and the bead count read from the region file; the
atoms that `Struct` already holds on entry (none in a normal run) are assumed to
have arrays of equal length. -/
theorem ReadLICHEMInput_equal_replica_counts (env : Env) (s s' : St)
    (hrun : ReadLICHEMInput env s = .ok s')
    (hentry : ∀ a ∈ s.Struct, a.P.length = a.MP.length ∧ a.MP.length = a.PC.length) :
    ∀ a ∈ s'.Struct, a.P.length = a.MP.length ∧ a.MP.length = a.PC.length := by
  obtain ⟨t, h1, h2⟩ := ReadLICHEMInput_split hrun
  have ht := readInputs_equalLengths env s t h1 ((equalLengths_iff s).2 hentry)
  exact (equalLengths_iff s').1 (setThreads_equalLengths env t s' h2 ht)

theorem Res.eq_ok_get {α : Type} (r : Res α) (d : α) (h : r.returns = true) :
    r = .ok (r.get d) := by
  cases r <;> simp [Res.returns, Res.get] at h ⊢

/-- Witness for C1: a path-integral run over two atoms whose region file ends
right after `Beads: 3`.  The extractions that follow fail and the run returns; its
region stream has the fail bit set and its atoms have arrays of equal length. -/
theorem ReadLICHEMInput_equal_replica_counts_witness :
    (ReadLICHEMInput (sampleEnv none) startCut).returns = true ∧
    ((ReadLICHEMInput (sampleEnv none) startCut).get startCut).regionfile.failbit = true ∧
    ∀ a ∈ ((ReadLICHEMInput (sampleEnv none) startCut).get startCut).Struct,
      a.P.length = a.MP.length ∧ a.MP.length = a.PC.length :=
  ⟨by decide!, by decide!,
   ReadLICHEMInput_equal_replica_counts (sampleEnv none) startCut _
    (Res.eq_ok_get _ startCut (by decide!))
    (by simp [startCut, startState])⟩

/-! ## C2: the number of replicas and `Nbeads` -/

theorem Triple.assigned {P Q : St → Prop} {g : St → St} (hg : ∀ s, P s → Q (g s)) :
    Triple P (assign g) Q := by
  intro s s' h hP
  simp [LICHEM.assign] at h
  exact h ▸ hg s hP

theorem length_eq_of_getElem?_none {α : Type} (l l' : List α)
    (h : ∀ k : Nat, l'[k]? = none ↔ l[k]? = none) : l'.length = l.length := by
  apply Nat.le_antisymm
  · have := (h l.length).2 (List.getElem?_eq_none (Nat.le_refl _))
    exact List.getElem?_eq_none_iff.1 this
  · have := (h l'.length).1 (List.getElem?_eq_none (Nat.le_refl _))
    exact List.getElem?_eq_none_iff.1 this

theorem Grows.length {lo hi c : Nat} {s s' : St} (g : Grows lo hi c s s') :
    (shape s').1.length = (shape s).1.length := by
  apply length_eq_of_getElem?_none
  intro k
  have := g.2 k
  simp only [lensAt] at this
  rw [this]
  split <;> simp

/-- When the loops cover every atom, `n` replicas become `n + c`. -/
theorem Grows.allLen {hi c n : Nat} {s s' : St} (g : Grows 0 hi c s s')
    (hlen : (shape s).1.length = hi) (h : AllLen n s) : AllLen (n + c) s' := by
  intro x hx
  obtain ⟨k, hk⟩ := List.mem_iff_getElem?.1 hx
  have hg := g.2 k
  simp only [lensAt] at hg
  rw [hk] at hg
  have hklt : k < (shape s).1.length := by
    rw [← g.length]
    exact (List.getElem?_eq_some.1 hk).1
  have hc : 0 ≤ k ∧ k < hi := by omega
  simp only [hc, and_self, if_true] at hg
  cases hy : (shape s).1[k]? with
  | none => simp [hy] at hg
  | some y =>
    simp only [hy, Option.map_some', Option.some.injEq] at hg
    have := h y (List.mem_iff_getElem?.2 ⟨k, hy⟩)
    subst hg
    subst this
    rfl

theorem shape_rest_eq {s t : St} (h : (shape t).2 = (shape s).2) :
    t.Natoms = s.Natoms ∧ t.QMMMOpts.Nbeads = s.QMMMOpts.Nbeads ∧ t.PIMCSim = s.PIMCSim ∧
    t.NEBSim = s.NEBSim ∧ t.ENEBSim = s.ENEBSim ∧ t.GauExternal = s.GauExternal ∧
    t.Ncpus = s.Ncpus := by
  simpa [shape] using h

theorem shapeOnly_counted : ShapeOnly Counted := by
  intro s t h hs
  obtain ⟨h1, h2, h3, h4, h5, h6, h7⟩ := shape_rest_eq (congrArg Prod.snd h)
  simp only [Counted, AllLen, noMode, atMostOneMode] at hs ⊢
  rw [h, h1, h2, h3, h4, h5]
  exact hs

theorem shapeOnly_counted0 : ShapeOnly Counted0 := by
  intro s t h hs
  obtain ⟨h1, h2, h3, h4, h5, h6, h7⟩ := shape_rest_eq (congrArg Prod.snd h)
  refine ⟨shapeOnly_counted s t h hs.1, ?_⟩
  simp only [noMode, h3, h4, h5]
  exact hs.2

theorem shapeOnly_counted1 : ShapeOnly Counted1 := by
  intro s t h hs
  obtain ⟨h1, h2, h3, h4, h5, h6, h7⟩ := shape_rest_eq (congrArg Prod.snd h)
  refine ⟨shapeOnly_counted s t h hs.1, ?_⟩
  rw [h4, h5]
  exact hs.2

theorem shapeOnly_counted2 : ShapeOnly Counted2 := by
  intro s t h hs
  obtain ⟨h1, h2, h3, h4, h5, h6, h7⟩ := shape_rest_eq (congrArg Prod.snd h)
  refine ⟨shapeOnly_counted s t h hs.1, ?_⟩
  rw [h5]
  exact hs.2

theorem Triple.wordThen {P Q : St → Prop} {f : File} {next : Option String → Step}
    (hput : ∀ ts s, P s → P (f.put ts s)) (hn : ∀ r, Triple P (next r) Q) :
    Triple P (rdWordThen f next) Q := by
  intro s s' h hI
  unfold LICHEM.rdWordThen at h
  exact hn _ _ s' h (hput _ s hI)

theorem Triple.realThen {P Q : St → Prop} {f : File} {next : Option ℚ → Step}
    (hput : ∀ ts s, P s → P (f.put ts s)) (hn : ∀ r, Triple P (next r) Q) :
    Triple P (rdRealThen f next) Q := by
  intro s s' h hI
  unfold LICHEM.rdRealThen at h
  exact hn _ _ s' h (hput _ s hI)

/-- Lines 281-301: one atom with one replica is appended. -/
theorem xyzAtom_shape (env : Env) (i : Nat) (c) :
    Triple (fun s => shape s = c) (xyzAtom env i)
      (fun s => shape s = (c.1 ++ [(1, 1, 1)], c.2)) := by
  unfold xyzAtom
  refine Triple.wordThen ((shapeOnly_shape c).coreOnly.put _) fun QMTyp => ?_
  refine Triple.realThen ((shapeOnly_shape c).coreOnly.put _) fun x => ?_
  refine Triple.realThen ((shapeOnly_shape c).coreOnly.put _) fun y => ?_
  refine Triple.realThen ((shapeOnly_shape c).coreOnly.put _) fun z => ?_
  apply Triple.assigned
  intro s hs
  rw [← hs]
  simp [shape, lens, newAtom]

/-- Lines 278-302: `cnt` atoms with one replica each are appended. -/
theorem xyzLoop_shape (env : Env) (cnt i : Nat) (s s' : St)
    (h : forUpTo cnt i (xyzAtom env) s = .ok s') :
    shape s' = ((shape s).1 ++ List.replicate cnt (1, 1, 1), (shape s).2) := by
  induction cnt generalizing i s with
  | zero =>
    simp [forUpTo] at h
    subst h
    simp
  | succ n ih =>
    simp only [forUpTo, Res.bind_eq_ok] at h
    obtain ⟨t, h1, h2⟩ := h
    have ht := xyzAtom_shape env i (shape s) s t h1 rfl
    rw [ih (i + 1) t h2, ht]
    simp [List.replicate_succ]

/-- The xyz file of a normal run leaves `Natoms` atoms with one replica each. -/
theorem readXYZ_counted (env : Env) : Triple FreshEntry (readXYZ env) Counted0 := by
  intro s s' h hs
  obtain ⟨hg, hstruct, hmode, hb⟩ := hs
  simp only [readXYZ, LICHEM.whenS, hg, Bool.not_false, if_true, seqS, Res.bind_eq_ok] at h
  obtain ⟨t, h1, u, h2, h3⟩ := h
  simp only [Res.ok.injEq] at h3
  subst h3
  have ht : ∃ v, shape t = ((shape s).1, v, (shape s).2.2) ∧ t.Natoms = v := by
    unfold rdInt rdIntThen at h1
    simp only [LICHEM.assign, Res.ok.injEq] at h1
    subst h1
    cases ((File.xyz.get s).int).1 with
    | none => exact ⟨_, rfl, rfl⟩
    | some v => exact ⟨_, rfl, rfl⟩
  obtain ⟨v, hv, hvn⟩ := ht
  have hu := xyzLoop_shape env _ 0 t u h2
  rw [hv] at hu
  have hs1 : (shape s).1 = [] := by simp [shape, hstruct]
  rw [hs1] at hu
  simp only [List.nil_append] at hu
  obtain ⟨h1', h2', h3', h4', h5', h6', h7'⟩ :=
    @shape_rest_eq { s with Natoms := v } u (by rw [hu]; rfl)
  have hmode' : noMode u := by
    simp only [noMode, h3', h4', h5']
    exact hmode
  refine ⟨⟨?_, 1, ?_, fun _ => ⟨rfl, ?_⟩, fun _ _ => ?_⟩, hmode'⟩
  · rw [hu, h1']
    simp [hvn]
  · intro x hx
    rw [hu] at hx
    exact List.eq_of_mem_replicate hx
  · rw [h2']
    exact hb
  · rw [h2']
    simp [hb]

/-- The replicas made at the end of a block, seen from inside the block. -/
theorem Grows.counted {flagSet earlier : St → Prop} {s s' : St}
    (g : Grows 0 s.Natoms.toNat (s.QMMMOpts.Nbeads - 1).toNat s s')
    (hs : InBlock flagSet earlier s)
    (hno : flagSet s → ¬ noMode s)
    (hone : flagSet s → atMostOneMode s → earlier s) : Counted s' := by
  obtain ⟨hlen, hflag, n, hn, hearly⟩ := hs
  obtain ⟨h1, h2, h3, h4, h5, h6, h7⟩ := shape_rest_eq g.1
  have hmode : noMode s' ↔ noMode s := by simp only [noMode, h3, h4, h5]
  have hmost : atMostOneMode s' ↔ atMostOneMode s := by
    simp only [atMostOneMode, h3, h4, h5]
  refine ⟨?_, n + (s.QMMMOpts.Nbeads - 1).toNat, g.allLen hlen hn, ?_, ?_⟩
  · rw [g.length, h1]
    exact hlen
  · intro hm
    exact absurd (hmode.1 hm) (hno hflag)
  · intro hm hpos
    have := hearly (hone hflag (hmost.1 hm))
    rw [h2] at hpos ⊢
    subst this
    omega

/-- Lines 536-591: after the PIMC block the bookkeeping is consistent. -/
theorem pimcBlock_counted (env : Env) : Triple Counted0 (pimcBlock env) Counted1 := by
  unfold pimcBlock
  refine Triple.whenS ?_ fun s hs => ⟨hs.1, hs.2.2⟩
  refine Triple.cons
    (InBlock (fun s => s.PIMCSim = true ∧ s.NEBSim = false ∧ s.ENEBSim = false)
      fun _ => True) ?_ ?_
  · apply Triple.assigned
    intro s hs
    obtain ⟨⟨hlen, n, hn, h1, _⟩, hmode⟩ := hs
    exact ⟨hlen, ⟨rfl, hmode.2.1, hmode.2.2⟩, n, hn, fun _ => (h1 hmode).1⟩
  repeat (refine Triple.cons _ (Keeps.triple ?_) ?_; · first
    | exact Keeps.rdWord (fun _ _ h => h) (fun _ _ h => h)
    | exact Keeps.rdReal (fun _ _ h => h) (fun _ _ h => h)
    | exact Keeps.rdInt (fun _ _ h => h) (fun _ _ h => h)
    | exact Keeps.guarded (Keeps.assign fun _ h => h)
    | exact Keeps.assign fun _ h => h)
  refine Triple.cons Counted1 ?_ (Triple.nil fun _ h => h)
  intro s s' h hs
  have g := pimcLoops_grows h
  obtain ⟨h1, h2, h3, h4, h5, h6, h7⟩ := shape_rest_eq g.1
  refine ⟨g.counted hs ?_ ?_, ?_, ?_⟩
  · intro hf hm
    rw [hm.1] at hf
    simp at hf
  · intro _ _
    trivial
  · rw [h4]
    exact hs.2.1.2.1
  · rw [h5]
    exact hs.2.1.2.2

/-- Lines 643-686: after the NEB block the bookkeeping is consistent. -/
theorem nebBlock_counted : Triple Counted1 nebBlock Counted2 := by
  unfold nebBlock
  refine Triple.whenS ?_ fun s hs => ⟨hs.1, hs.2.2⟩
  refine Triple.cons
    (InBlock (fun s => s.NEBSim = true ∧ s.ENEBSim = false)
      fun s => s.PIMCSim = false) ?_ ?_
  · apply Triple.assigned
    intro s hs
    obtain ⟨⟨hlen, n, hn, h1, _⟩, hN, hE⟩ := hs
    exact ⟨hlen, ⟨rfl, hE⟩, n, hn, fun hP => (h1 ⟨hP, hN, hE⟩).1⟩
  repeat (refine Triple.cons _ (Keeps.triple ?_) ?_; · first
    | exact Keeps.rdWord (fun _ _ h => h) (fun _ _ h => h)
    | exact Keeps.rdReal (fun _ _ h => h) (fun _ _ h => h)
    | exact Keeps.rdInt (fun _ _ h => h) (fun _ _ h => h)
    | exact Keeps.guarded (Keeps.assign fun _ h => h)
    | exact Keeps.assign fun _ h => h)
  refine Triple.cons Counted2 ?_ (Triple.nil fun _ h => h)
  intro s s' h hs
  have g := duplicateData_grows h
  obtain ⟨h1, h2, h3, h4, h5, h6, h7⟩ := shape_rest_eq g.1
  refine ⟨g.counted hs ?_ ?_, ?_⟩
  · intro hf hm
    rw [hm.2.1] at hf
    simp at hf
  · intro hf hm
    cases hP : s.PIMCSim with
    | false => rfl
    | true =>
      have := (hm.1 hP).1
      rw [hf.1] at this
      simp at this
  · rw [h5]
    exact hs.2.1.2

/-- Lines 700-743: after the ensemble NEB block the bookkeeping is consistent. -/
theorem enebBlock_counted : Triple Counted2 enebBlock Counted := by
  unfold enebBlock enebOddCheck
  refine Triple.whenS ?_ fun s hs => hs.1
  refine Triple.cons
    (InBlock (fun s => s.ENEBSim = true)
      fun s => s.PIMCSim = false ∧ s.NEBSim = false) ?_ ?_
  · apply Triple.assigned
    intro s hs
    obtain ⟨⟨hlen, n, hn, h1, _⟩, hE⟩ := hs
    exact ⟨hlen, rfl, n, hn, fun hPN => (h1 ⟨hPN.1, hPN.2, hE⟩).1⟩
  repeat (refine Triple.cons _ (Keeps.triple ?_) ?_; · first
    | exact Keeps.rdWord (fun _ _ h => h) (fun _ _ h => h)
    | exact Keeps.rdReal (fun _ _ h => h) (fun _ _ h => h)
    | exact Keeps.rdInt (fun _ _ h => h) (fun _ _ h => h)
    | exact Keeps.guarded (Keeps.assign fun _ h => h)
    | exact Keeps.assign fun _ h => h)
  refine Triple.cons Counted ?_ (Triple.nil fun _ h => h)
  intro s s' h hs
  have g := duplicateData_grows h
  refine g.counted hs ?_ ?_
  · intro hf hm
    rw [hm.2.2] at hf
    simp at hf
  · intro hf hm
    constructor
    · cases hP : s.PIMCSim with
      | false => rfl
      | true =>
        have := (hm.1 hP).2
        rw [hf] at this
        simp at this
    · cases hN : s.NEBSim with
      | false => rfl
      | true =>
        have := hm.2 hN
        rw [hf] at this
        simp at this

theorem setThreads_counted (env : Env) : Keeps Counted (setThreads env) := by
  unfold setThreads
  repeat' first
    | exact Keeps.skip _
    | exact Keeps.undefS _
    | apply Keeps.andThen
    | apply Keeps.guarded
    | apply Keeps.ifS
    | apply Keeps.assign
    | (intros; assumption)

theorem readInputs_counted (env : Env) : Triple FreshEntry (readInputs env) Counted :=
  @readInputs_triple env FreshEntry Counted0 Counted shapeOnly_counted0 shapeOnly_counted
    (Keeps.assign fun _ h => h) (readXYZ_counted env)
    (readCalcType_triple env Counted1 Counted2
      shapeOnly_counted0 shapeOnly_counted1 shapeOnly_counted2 shapeOnly_counted
      (pimcBlock_counted env) nebBlock_counted enebBlock_counted)

/-- C2, amended.  In a normal run (on entry `Struct` is empty, no replica mode is
selected and `Nbeads` is 1), when `ReadLICHEMInput` returns with at most one of
the modes PIMC, NEB and ensemble NEB selected and with `Nbeads` at least 1, every
atom holds exactly `Nbeads` replicas in each of `P`, `MP` and `PC`. -/
theorem ReadLICHEMInput_replicas_eq_Nbeads (env : Env) (s s' : St)
    (hrun : ReadLICHEMInput env s = .ok s')
    (hentry : FreshEntry s)
    (hmode : atMostOneMode s')
    (hpos : 1 ≤ s'.QMMMOpts.Nbeads) :
    ∀ a ∈ s'.Struct,
      (a.P.length : Int) = s'.QMMMOpts.Nbeads ∧ (a.MP.length : Int) = s'.QMMMOpts.Nbeads ∧
      (a.PC.length : Int) = s'.QMMMOpts.Nbeads := by
  obtain ⟨t, h1, h2⟩ := ReadLICHEMInput_split hrun
  have hc := setThreads_counted env t s' h2 (readInputs_counted env s t h1 hentry)
  obtain ⟨_, n, hn, _, hn2⟩ := hc
  have hnb := hn2 hmode hpos
  intro a ha
  have := hn (lens a) (by
    simp only [shape]
    exact List.mem_map_of_mem _ ha)
  simp only [lens, Prod.mk.injEq] at this
  rw [← hnb, this.1, this.2.1, this.2.2]
  exact ⟨rfl, rfl, rfl⟩

/-- Witness for C2: the path-integral run whose region file asks for 3.5 beads.
The bead count read is 3, a later extraction fails, the run returns and every atom
holds three replicas. -/
theorem ReadLICHEMInput_replicas_eq_Nbeads_witness :
    FreshEntry startHalf ∧
    ((ReadLICHEMInput (sampleEnv none) startHalf).get startHalf).regionfile.failbit = true ∧
    atMostOneMode ((ReadLICHEMInput (sampleEnv none) startHalf).get startHalf) ∧
    ∀ a ∈ ((ReadLICHEMInput (sampleEnv none) startHalf).get startHalf).Struct,
      (a.P.length : Int) = 3 ∧ (a.MP.length : Int) = 3 ∧ (a.PC.length : Int) = 3 :=
  have hN : ((ReadLICHEMInput (sampleEnv none) startHalf).get startHalf).QMMMOpts.Nbeads = 3 := by
    decide!
  have hM : atMostOneMode ((ReadLICHEMInput (sampleEnv none) startHalf).get startHalf) := by
    unfold atMostOneMode
    decide!
  ⟨⟨rfl, rfl, ⟨rfl, rfl, rfl⟩, rfl⟩, by decide!, hM,
   hN ▸ ReadLICHEMInput_replicas_eq_Nbeads (sampleEnv none) startHalf _
    (Res.eq_ok_get _ startHalf (by decide!))
    ⟨rfl, rfl, ⟨rfl, rfl, rfl⟩, rfl⟩ hM (by rw [hN]; decide)⟩

/-- C2 as stated fails: a path-integral run whose region file asks for 0 beads
returns with `Nbeads = 0` while every atom holds one replica. -/
theorem ReadLICHEMInput_zero_beads :
    (ReadLICHEMInput (sampleEnv none) startPIMC0).returns = true ∧
    ((ReadLICHEMInput (sampleEnv none) startPIMC0).get startPIMC0).PIMCSim = true ∧
    ((ReadLICHEMInput (sampleEnv none) startPIMC0).get startPIMC0).QMMMOpts.Nbeads = 0 ∧
    ((ReadLICHEMInput (sampleEnv none) startPIMC0).get startPIMC0).Struct.map lens =
      [(1, 1, 1), (1, 1, 1)] ∧
    ¬ ∀ a ∈ ((ReadLICHEMInput (sampleEnv none) startPIMC0).get startPIMC0).Struct,
      (a.P.length : Int) =
        ((ReadLICHEMInput (sampleEnv none) startPIMC0).get startPIMC0).QMMMOpts.Nbeads := by
  decide!

/-! ## C3 to C6: Multipoles.cpp -/

/-- C3 (the code falls short of the claim).  `SphHarm2Charges(Cart2SphHarm(M))` is
the same point-charge set for every `M`, so its charges cannot sum to `M.q` both
for the unit charge and for the charge 2. -/
theorem SphHarm2Charges_ignores_charge (SHpoles : RedMpole) (PCgrid : OctCharges) :
    SphHarm2Charges PCgrid (Cart2SphHarm SHpoles (bareCharge 1)) =
      SphHarm2Charges PCgrid (Cart2SphHarm SHpoles (bareCharge 2)) ∧
    ¬ ((SphHarm2Charges PCgrid (Cart2SphHarm SHpoles (bareCharge 1))).totalCharge =
          (bareCharge 1).q ∧
       (SphHarm2Charges PCgrid (Cart2SphHarm SHpoles (bareCharge 2))).totalCharge =
          (bareCharge 2).q) := by
  refine ⟨rfl, ?_⟩
  rintro ⟨h1, h2⟩
  simp only [SphHarm2Charges, bareCharge] at h1 h2
  rw [h1] at h2
  norm_num at h2

/-- C4 (the code falls short of the claim).  Atom 0 carries the local dipole
(0.5, 0, 0) and its local frame is the global frame rotated by 90 degrees about the
global z axis.  The rotation built from its reference atoms gives the global
dipole (0, 0.5, 0), but after `RotateCharges` the dipole stored for the bead is
still the local one, (0.5, 0, 0). -/
theorem RotateCharges_keeps_local_dipole :
    RotateCharges rotatedFrame 0 = .ok rotatedFrame ∧
    globalDipole rotatedFrame 0 0 = some (0, 1 / 2, 0) ∧
    storedDipole ((RotateCharges rotatedFrame 0).get []) 0 0 = some (1 / 2, 0, 0) ∧
    storedDipole ((RotateCharges rotatedFrame 0).get []) 0 0 ≠
      globalDipole rotatedFrame 0 0 := by
  decide!

/-- C5 (the code falls short of the claim).  The reference atoms of atom 0 are
colinear with it, the cross product of the two bond vectors being zero, and yet
`RotateCharges` returns normally: it stops with no error and leaves the structure
as it was given. -/
theorem RotateCharges_colinear_returns :
    frameCross colinearFrame 0 0 = some ⟨0, 0, 0⟩ ∧
    (RotateCharges colinearFrame 0).returns = true ∧
    (RotateCharges colinearFrame 0).exits = false ∧
    RotateCharges colinearFrame 0 = .ok colinearFrame := by
  decide!

/-- C6 (the code falls short of the claim).  `Cart2SphHarm` returns the same
reduced multipole for every input, so its monopole term cannot equal the input
charge both for the bare charge 1 and for the bare charge 2. -/
theorem Cart2SphHarm_ignores_charge (SHpoles : RedMpole) :
    (bareCharge 1).Atom1 = none ∧ (bareCharge 2).Atom1 = none ∧
    ¬ ((Cart2SphHarm SHpoles (bareCharge 1)).Q00 = (bareCharge 1).q ∧
       (Cart2SphHarm SHpoles (bareCharge 2)).Q00 = (bareCharge 2).q) := by
  refine ⟨rfl, rfl, ?_⟩
  rintro ⟨h1, h2⟩
  simp only [Cart2SphHarm, bareCharge] at h1 h2
  rw [h1] at h2
  norm_num at h2

/-! ## C8: ReadArgs -/

/-- C8 (the code falls short of the claim).  The vector
`lichem -n 4 -x in.xyz -c con.inp -r reg.inp out.xyz log` passes the validation of
`ReadArgs`, and even the whole of `ReadArgs`, although it does not supply `-o`. -/
theorem ReadArgs_accepts_missing_option :
    (ReadArgsValidate argEnvAll argvNoOutputFlag argStart).returns = true ∧
    (ReadArgs argEnvAll argvNoOutputFlag argStart).returns = true ∧
    ¬ suppliesOption argvNoOutputFlag "-o" ∧
    ¬ suppliesAllFive argvNoOutputFlag := by
  have hno : ¬ suppliesOption argvNoOutputFlag "-o" := by
    rintro ⟨i, hi, _⟩
    have hmem : "-o" ∈ argvNoOutputFlag := List.mem_iff_getElem?.2 ⟨i, hi⟩
    revert hmem
    decide
  refine ⟨by decide!, by decide!, hno, fun h => hno h.2.2.2.2⟩

/-! ## C9: the bond indices -/

/-- C9 (the code falls short of the claim).  A connectivity record that names the
atom index -1 does not stop the run: the connectivity section completes and -1 is
stored in the `Bonds` list of atom 0, although -1 is not an atom index. -/
theorem readConnectivity_stores_negative_index :
    (seqS [readXYZ (sampleEnv none), readConnectivity (sampleEnv none)]
      (startState xyzTwo conNegative regPIMC3)).returns = true ∧
    ((seqS [readXYZ (sampleEnv none), readConnectivity (sampleEnv none)]
      (startState xyzTwo conNegative regPIMC3)).get startPIMC3).Struct.map
        (fun a => a.Bonds) = [[-1], [0]] ∧
    (ReadLICHEMInput (sampleEnv none) (startState xyzTwo conNegative regPIMC3)).returns = true ∧
    ((ReadLICHEMInput (sampleEnv none) (startState xyzTwo conNegative regPIMC3)).get
      startPIMC3).Struct.map (fun a => a.Bonds) = [[-1], [0]] ∧
    ((ReadLICHEMInput (sampleEnv none) (startState xyzTwo conNegative regPIMC3)).get
      startPIMC3).Natoms = 2 := by
  decide!

/-! ## C10 and C11: LICHEMErrorChecker -/

/-- The order in which `LICHEMErrorChecker` collects its errors does not matter. -/
theorem checker_logic (e8 e7 nw q o p e5 e4 e3 a2 a1 : Prop) :
    (e8 ∨ e7 ∨ ((nw ∧ q) ∧ o) ∨ ((p ∧ q) ∧ (e5 ∨ o)) ∨ e4 ∨ e3 ∨ (q ∧ (a2 ∨ a1))) ↔
    (q ∧ a1 ∨ q ∧ a2 ∨ e3 ∨ e4 ∨ p ∧ q ∧ (o ∨ e5) ∨ nw ∧ q ∧ o ∨ e7 ∨ e8) := by
  constructor
  · rintro (h | h | h | h | h | h | h)
    · exact Or.inr (Or.inr (Or.inr (Or.inr (Or.inr (Or.inr (Or.inr h))))))
    · exact Or.inr (Or.inr (Or.inr (Or.inr (Or.inr (Or.inr (Or.inl h))))))
    · exact Or.inr (Or.inr (Or.inr (Or.inr (Or.inr (Or.inl ⟨h.1.1, h.1.2, h.2⟩)))))
    · exact Or.inr (Or.inr (Or.inr (Or.inr (Or.inl ⟨h.1.1, h.1.2, h.2.symm⟩))))
    · exact Or.inr (Or.inr (Or.inr (Or.inl h)))
    · exact Or.inr (Or.inr (Or.inl h))
    · rcases h with ⟨hq, h | h⟩
      · exact Or.inr (Or.inl ⟨hq, h⟩)
      · exact Or.inl ⟨hq, h⟩
  · rintro (h | h | h | h | h | h | h | h)
    · exact Or.inr (Or.inr (Or.inr (Or.inr (Or.inr (Or.inr ⟨h.1, Or.inr h.2⟩)))))
    · exact Or.inr (Or.inr (Or.inr (Or.inr (Or.inr (Or.inr ⟨h.1, Or.inl h.2⟩)))))
    · exact Or.inr (Or.inr (Or.inr (Or.inr (Or.inr (Or.inl h)))))
    · exact Or.inr (Or.inr (Or.inr (Or.inr (Or.inl h))))
    · exact Or.inr (Or.inr (Or.inr (Or.inl ⟨⟨h.1, h.2.1⟩, h.2.2.symm⟩)))
    · exact Or.inr (Or.inr (Or.inl ⟨⟨h.1, h.2.1⟩, h.2.2⟩))
    · exact Or.inr (Or.inl h)
    · exact Or.inl h

/-- C10.  `LICHEMErrorChecker` ends the program exactly when one of the listed
errors holds on entry, and returns normally otherwise; the values of `Ncpus` and
`StepScale` play no part in that. -/
theorem LICHEMErrorChecker_exits_iff (s : St) :
    ((LICHEMErrorChecker s).exits = true ↔ fatalOnEntry s) ∧
    ((LICHEMErrorChecker s).returns = true ↔ ¬ fatalOnEntry s) := by
  have key : ∀ (b : Bool) (t : St),
      ((if b = true then (Res.exit "" : Res St) else .ok t).exits = b) ∧
      ((if b = true then (Res.exit "" : Res St) else .ok t).returns = !b) := by
    intro b t
    cases b <;> simp [Res.exits, Res.returns]
  have e1 : (if s.Ncpus < 1 then { s with Ncpus := 1 } else s) =
      { s with Ncpus := if s.Ncpus < 1 then 1 else s.Ncpus } := by
    split <;> rfl
  have ite1 : ∀ c a r : Bool, (if c = true then (a || r) else r) = ((c && a) || r) := by
    decide
  have ite2 : ∀ c a b r : Bool,
      (if c = true then (a || (b || r)) else r) = ((c && (a || b)) || r) := by
    decide
  unfold LICHEMErrorChecker fatalOnEntry
  simp only [e1, key, Bool.if_true_left, Bool.if_false_left, Bool.if_true_right,
    Bool.if_false_right]
  simp only [ite1, ite2, Bool.and_true]
  clear key e1 ite1 ite2
  have hiff := checker_logic (s.QMMMOpts.Ensemble = "NPT" ∧ s.PBCon = false)
    (s.LAMMPS = true ∧ s.AMOEBA = true) (s.NWChem = true) (s.QMMM = true) (s.OptSim = true)
    (s.PSI4 = true) (s.Npseudo ≠ 0 ∨ s.Nbound ≠ 0)
    (((s.Gaussian = false ∧ s.PSI4 = false) ∧ s.NWChem = false) ∧ s.MMonly = false)
    (((s.TINKER = false ∧ s.AMBER = false) ∧ s.LAMMPS = false) ∧ s.QMonly = false)
    (s.Nmm + s.Nbound < 1) (s.Nqm + s.Npseudo < 1)
  simp only [and_assoc] at hiff
  constructor
  · simp only [Bool.or_eq_true, Bool.and_eq_true, decide_eq_true_eq, Bool.not_eq_true',
      and_assoc]
    exact hiff
  · rw [← hiff, Bool.not_eq_true', ← Bool.not_eq_true]
    simp only [Bool.or_eq_true, Bool.and_eq_true, decide_eq_true_eq, Bool.not_eq_true',
      and_assoc]

/-- `LICHEMErrorChecker` either stops the run or returns the state with `Ncpus` and
`StepScale` repaired. -/
theorem LICHEMErrorChecker_cases (s : St) :
    LICHEMErrorChecker s = .exit "" ∨
    LICHEMErrorChecker s =
      .ok (setOpt (fun o => { o with StepScale := if o.StepScale > 1 then 1 else o.StepScale })
        { s with Ncpus := if s.Ncpus < 1 then 1 else s.Ncpus }) := by
  have e1 : (if s.Ncpus < 1 then { s with Ncpus := 1 } else s) =
      { s with Ncpus := if s.Ncpus < 1 then 1 else s.Ncpus } := by
    split <;> rfl
  unfold LICHEMErrorChecker
  simp only [e1, Bool.if_true_left, Bool.if_false_left, Bool.if_true_right,
    Bool.if_false_right]
  have key : ∀ (b : Bool) (t t' : St), t = t' →
      ((if b = true then (Res.exit "" : Res St) else .ok t) = .exit "" ∨
       (if b = true then (Res.exit "" : Res St) else .ok t) = .ok t') := by
    intro b t t' ht
    cases b <;> simp [ht]
  apply key
  split
  · rename_i hs
    simp only [setOpt, hs, if_true]
  · rename_i hs
    simp only [setOpt, hs, if_false]

/-- What `LICHEMErrorChecker` returns, when it returns. -/
theorem LICHEMErrorChecker_ok (s s' : St) (h : LICHEMErrorChecker s = .ok s') :
    s' = setOpt (fun o => { o with StepScale := if o.StepScale > 1 then 1 else o.StepScale })
      { s with Ncpus := if s.Ncpus < 1 then 1 else s.Ncpus } := by
  rcases LICHEMErrorChecker_cases s with h1 | h1
  · rw [h1] at h
    cases h
  · rw [h1] at h
    simp only [Res.ok.injEq] at h
    exact h.symm

/-- C11.  Whenever `LICHEMErrorChecker` returns normally, `Ncpus` is at least 1 and
`StepScale` at most 1: an `Ncpus` below 1 has become exactly 1, a `StepScale` above 1
exactly 1, and an `Ncpus` of at least 1 and a `StepScale` of at most 1 are as they
were on entry. -/
theorem LICHEMErrorChecker_repairs (s s' : St) (h : LICHEMErrorChecker s = .ok s') :
    1 ≤ s'.Ncpus ∧ s'.QMMMOpts.StepScale ≤ 1 ∧
    (s.Ncpus < 1 → s'.Ncpus = 1) ∧
    (1 < s.QMMMOpts.StepScale → s'.QMMMOpts.StepScale = 1) ∧
    (1 ≤ s.Ncpus → s'.Ncpus = s.Ncpus) ∧
    (s.QMMMOpts.StepScale ≤ 1 → s'.QMMMOpts.StepScale = s.QMMMOpts.StepScale) := by
  rw [LICHEMErrorChecker_ok s s' h]
  simp only [setOpt]
  refine ⟨?_, ?_, ?_, ?_, ?_, ?_⟩
  · split <;> omega
  · split
    · exact le_refl _
    · rename_i h1
      exact not_lt.1 h1
  · intro hc
    simp [hc]
  · intro hs
    simp [hs]
  · intro hc
    have : ¬ s.Ncpus < 1 := by omega
    simp [this]
  · intro hs
    have : ¬ s.QMMMOpts.StepScale > 1 := not_lt.2 hs
    simp [this]

/-- Witness for C11: a pure QM run with Gaussian, entered with `Ncpus = 0` and
`StepScale = 2`. -/
theorem LICHEMErrorChecker_repairs_witness :
    (LICHEMErrorChecker checkerStart).returns = true ∧
    checkerStart.Ncpus = 0 ∧ checkerStart.QMMMOpts.StepScale = 2 ∧
    ((LICHEMErrorChecker checkerStart).get checkerStart).Ncpus = 1 ∧
    ((LICHEMErrorChecker checkerStart).get checkerStart).QMMMOpts.StepScale = 1 :=
  have h := LICHEMErrorChecker_repairs checkerStart _
    (Res.eq_ok_get (LICHEMErrorChecker checkerStart) checkerStart (by decide!))
  ⟨by decide!, rfl, rfl, h.2.2.1 (by decide), h.2.2.2.1 (by decide!)⟩

/-! ## C12: the bead count of an ensemble NEB run -/

/-- C12 (the code falls short of the claim).  An ensemble NEB run whose region file
asks for -1 beads, an odd count, returns with `Nbeads = 0`, which is not odd: the
remainder of -1 by 2 is -1 in C++, not 1, so the count is increased. -/
theorem ReadLICHEMInput_eneb_even_beads :
    Int.tmod (-1) 2 = -1 ∧
    (ReadLICHEMInput (sampleEnv (some beadEmpty)) startENEBneg).returns = true ∧
    ((ReadLICHEMInput (sampleEnv (some beadEmpty)) startENEBneg).get startENEBneg).ENEBSim
      = true ∧
    ((ReadLICHEMInput (sampleEnv (some beadEmpty)) startENEBneg).get
      startENEBneg).QMMMOpts.Nbeads = 0 ∧
    ¬ Odd ((ReadLICHEMInput (sampleEnv (some beadEmpty)) startENEBneg).get
      startENEBneg).QMMMOpts.Nbeads := by
  have h : ((ReadLICHEMInput (sampleEnv (some beadEmpty)) startENEBneg).get
      startENEBneg).QMMMOpts.Nbeads = 0 := by
    decide!
  refine ⟨by decide, by decide!, by decide!, h, ?_⟩
  rw [h]
  decide

/-- For a bead count that is not negative the check of lines 714-725 does leave
an odd count. -/
theorem enebOddCheck_odd_of_nonneg (s s' : St) (h : enebOddCheck s = .ok s')
    (hn : 0 ≤ s.QMMMOpts.Nbeads) : Odd s'.QMMMOpts.Nbeads := by
  unfold enebOddCheck LICHEM.whenS LICHEM.assign at h
  rw [Int.odd_iff]
  split at h
  · rename_i hc
    simp only [Res.ok.injEq] at h
    subst h
    simp only [decide_eq_true_eq] at hc
    simp only [setOpt]
    have := Int.tmod_eq_emod hn (by decide : (0 : Int) ≤ 2)
    omega
  · rename_i hc
    simp only [Res.ok.injEq] at h
    subst h
    simp only [decide_eq_true_eq, ne_eq, not_not] at hc
    have := Int.tmod_eq_emod hn (by decide : (0 : Int) ≤ 2)
    omega

/-! ## C13: frozen atoms and the restart file -/

/-- C13 (the code falls short of the claim).  In a NEB run with two beads in which
atom 0 is frozen, the restart file is read after the frozen atoms were made equal:
the run returns with atom 0 frozen and its two replicas at different positions. -/
theorem ReadLICHEMInput_frozen_atom_moved :
    (ReadLICHEMInput (sampleEnv (some beadMoved)) startNEB2).returns = true ∧
    ((ReadLICHEMInput (sampleEnv (some beadMoved)) startNEB2).get startNEB2).NEBSim = true ∧
    ((ReadLICHEMInput (sampleEnv (some beadMoved)) startNEB2).get startNEB2).QMMMOpts.Nbeads
      = 2 ∧
    frozenAt ((ReadLICHEMInput (sampleEnv (some beadMoved)) startNEB2).get startNEB2) 0
      = true ∧
    positionsOf ((ReadLICHEMInput (sampleEnv (some beadMoved)) startNEB2).get startNEB2) 0
      = [⟨0, 0, 0⟩, ⟨5, 5, 5⟩] := by
  decide!

/-! ## C14: the thread count of a multi-replica run -/

/-- C14 as stated fails: in the path-integral run with three beads, eight
processors and two CPUs for each QM calculation, `Nthreads` is 4, the processors
divided by the CPUs, and not 2, the processors divided by the beads. -/
theorem ReadLICHEMInput_threads_by_cpus :
    (ReadLICHEMInput (sampleEnv none) startPIMC3).returns = true ∧
    ((ReadLICHEMInput (sampleEnv none) startPIMC3).get startPIMC3).QMMMOpts.Nbeads = 3 ∧
    ((ReadLICHEMInput (sampleEnv none) startPIMC3).get startPIMC3).Nthreads = 4 ∧
    ((ReadLICHEMInput (sampleEnv none) startPIMC3).get startPIMC3).Nthreads ≠
      Int.floor (((sampleEnv none).FindMaxThreads : ℚ) /
        (((ReadLICHEMInput (sampleEnv none) startPIMC3).get startPIMC3).QMMMOpts.Nbeads : ℚ)) := by
  have hb : ((ReadLICHEMInput (sampleEnv none) startPIMC3).get startPIMC3).QMMMOpts.Nbeads = 3 := by
    decide!
  have ht : ((ReadLICHEMInput (sampleEnv none) startPIMC3).get startPIMC3).Nthreads = 4 := by
    decide!
  refine ⟨by decide!, hb, ht, ?_⟩
  rw [hb, ht]
  norm_num [sampleEnv, Int.floor_eq_iff]

theorem shapeOnly_cpusAre (g : Bool) (c : Int) : ShapeOnly (CpusAre g c) := by
  intro s t h hs
  obtain ⟨h1, h2, h3, h4, h5, h6, h7⟩ := shape_rest_eq (congrArg Prod.snd h)
  simp only [CpusAre, h6, h7]
  exact hs

theorem modAtom_cpusAre (g : Bool) (c : Int) (i : Int) (f : QMMMAtom → Option QMMMAtom) :
    Keeps (CpusAre g c) (modAtom i f) := by
  intro s s' h hs
  obtain ⟨a, a', _, _, _, rfl⟩ := modAtom_spec h
  exact hs

theorem pimcBead_cpusAre (g : Bool) (c : Int) (env : Env) (i j : Nat) :
    Keeps (CpusAre g c) (pimcBead env i j) := by
  intro s s' h hs
  unfold pimcBead at h
  obtain ⟨a, a', _, _, _, rfl⟩ := modAtom_spec h
  exact hs

theorem xyzAtom_cpusAre (g : Bool) (c : Int) (env : Env) (i : Nat) :
    Keeps (CpusAre g c) (xyzAtom env i) := by
  unfold xyzAtom
  refine Keeps.rdWordThen (fun _ _ h => h) fun QMTyp => ?_
  refine Keeps.rdRealThen (fun _ _ h => h) fun x => ?_
  refine Keeps.rdRealThen (fun _ _ h => h) fun y => ?_
  refine Keeps.rdRealThen (fun _ _ h => h) fun z => ?_
  exact Keeps.assign fun _ h => h

theorem readXYZ_cpusAre (g : Bool) (c : Int) (env : Env) :
    Keeps (CpusAre g c) (readXYZ env) := by
  unfold readXYZ
  repeat' first
    | exact Keeps.skip _
    | exact Keeps.exitS _ _
    | exact Keeps.undefS _
    | exact Keeps.rdWord (fun _ _ h => h) (fun _ _ h => h)
    | exact Keeps.rdReal (fun _ _ h => h) (fun _ _ h => h)
    | exact Keeps.rdInt (fun _ _ h => h) (fun _ _ h => h)
    | exact Keeps.guarded (Keeps.assign fun _ h => h)
    | exact Keeps.assign fun _ h => h
    | exact Keeps.forLoop fun i => Keeps.forLoop fun j => pimcBead_cpusAre _ _ _ _ _
    | exact Keeps.forLoop fun i => Keeps.forLoop fun j => modAtom_cpusAre _ _ _ _
    | exact Keeps.forLoop fun i => xyzAtom_cpusAre _ _ _ _
    | apply Keeps.andThen
    | apply Keeps.guarded

theorem pimcBlock_cpusAre (g : Bool) (c : Int) (env : Env) :
    Keeps (CpusAre g c) (pimcBlock env) := by
  unfold pimcBlock
  repeat' first
    | exact Keeps.skip _
    | exact Keeps.exitS _ _
    | exact Keeps.undefS _
    | exact Keeps.rdWord (fun _ _ h => h) (fun _ _ h => h)
    | exact Keeps.rdReal (fun _ _ h => h) (fun _ _ h => h)
    | exact Keeps.rdInt (fun _ _ h => h) (fun _ _ h => h)
    | exact Keeps.guarded (Keeps.assign fun _ h => h)
    | exact Keeps.assign fun _ h => h
    | exact Keeps.forLoop fun i => Keeps.forLoop fun j => pimcBead_cpusAre _ _ _ _ _
    | exact Keeps.forLoop fun i => Keeps.forLoop fun j => modAtom_cpusAre _ _ _ _
    | exact Keeps.forLoop fun i => xyzAtom_cpusAre _ _ _ _
    | apply Keeps.andThen
    | apply Keeps.guarded

theorem nebBlock_cpusAre (g : Bool) (c : Int)  :
    Keeps (CpusAre g c) (nebBlock) := by
  unfold nebBlock duplicateData copyBead
  repeat' first
    | exact Keeps.skip _
    | exact Keeps.exitS _ _
    | exact Keeps.undefS _
    | exact Keeps.rdWord (fun _ _ h => h) (fun _ _ h => h)
    | exact Keeps.rdReal (fun _ _ h => h) (fun _ _ h => h)
    | exact Keeps.rdInt (fun _ _ h => h) (fun _ _ h => h)
    | exact Keeps.guarded (Keeps.assign fun _ h => h)
    | exact Keeps.assign fun _ h => h
    | exact Keeps.forLoop fun i => Keeps.forLoop fun j => pimcBead_cpusAre _ _ _ _ _
    | exact Keeps.forLoop fun i => Keeps.forLoop fun j => modAtom_cpusAre _ _ _ _
    | exact Keeps.forLoop fun i => xyzAtom_cpusAre _ _ _ _
    | apply Keeps.andThen
    | apply Keeps.guarded

theorem enebBlock_cpusAre (g : Bool) (c : Int)  :
    Keeps (CpusAre g c) (enebBlock) := by
  unfold enebBlock enebOddCheck duplicateData copyBead
  repeat' first
    | exact Keeps.skip _
    | exact Keeps.exitS _ _
    | exact Keeps.undefS _
    | exact Keeps.rdWord (fun _ _ h => h) (fun _ _ h => h)
    | exact Keeps.rdReal (fun _ _ h => h) (fun _ _ h => h)
    | exact Keeps.rdInt (fun _ _ h => h) (fun _ _ h => h)
    | exact Keeps.guarded (Keeps.assign fun _ h => h)
    | exact Keeps.assign fun _ h => h
    | exact Keeps.forLoop fun i => Keeps.forLoop fun j => pimcBead_cpusAre _ _ _ _ _
    | exact Keeps.forLoop fun i => Keeps.forLoop fun j => modAtom_cpusAre _ _ _ _
    | exact Keeps.forLoop fun i => xyzAtom_cpusAre _ _ _ _
    | apply Keeps.andThen
    | apply Keeps.guarded

theorem readInputs_cpusAre (g : Bool) (c : Int) (env : Env) :
    Keeps (CpusAre g c) (readInputs env) :=
  readInputs_triple env (CpusAre g c) (shapeOnly_cpusAre g c) (shapeOnly_cpusAre g c)
    (Keeps.declDummy (shapeOnly_cpusAre g c).coreOnly) (readXYZ_cpusAre g c env)
    (readCalcType_triple env (CpusAre g c) (CpusAre g c)
      (shapeOnly_cpusAre g c) (shapeOnly_cpusAre g c) (shapeOnly_cpusAre g c)
      (shapeOnly_cpusAre g c) (pimcBlock_cpusAre g c env) (nebBlock_cpusAre g c)
      (enebBlock_cpusAre g c))

/-- Lines 903-931 for a run that is not a Gaussian external call and that has more
than one bead outside the two NEB modes. -/
theorem setThreads_multi (env : Env) (t s' : St) (h : setThreads env t = .ok s')
    (hg : t.GauExternal = false) :
    s'.QMMMOpts.Nbeads = t.QMMMOpts.Nbeads ∧ s'.ENEBSim = t.ENEBSim ∧ s'.NEBSim = t.NEBSim ∧
    s'.Ncpus = min t.Ncpus env.FindMaxThreads ∧
    (1 < t.QMMMOpts.Nbeads → t.ENEBSim = false → t.NEBSim = false →
      s'.Ncpus ≠ 0 ∧
      s'.Nthreads = Int.floor ((env.FindMaxThreads : ℚ) / (s'.Ncpus : ℚ))) := by
  unfold setThreads at h
  simp only [LICHEM.whenS, hg, Bool.not_false, if_true, seqS, LICHEM.assign, Res.bind,
    LICHEM.ifS, LICHEM.undefS] at h
  by_cases h1 : t.Ncpus > env.FindMaxThreads
  · simp only [h1, decide_True, if_true] at h
    by_cases h2 : (decide (t.QMMMOpts.Nbeads > 1) && !t.ENEBSim && !t.NEBSim) = true
    · simp only [h2, if_true] at h
      by_cases h3 : env.FindMaxThreads = 0
      · simp [h3] at h
      · simp only [h3, decide_False, Bool.false_eq_true, if_false, Res.ok.injEq] at h
        subst h
        refine ⟨rfl, rfl, rfl, ?_, fun _ _ _ => ⟨h3, rfl⟩⟩
        simp only []
        omega
    · simp only [h2, Bool.false_eq_true, if_false, Res.ok.injEq] at h
      subst h
      refine ⟨rfl, rfl, rfl, ?_, fun hb he hn => ?_⟩
      · simp only []
        omega
      · simp [hb, he, hn] at h2
  · simp only [h1, decide_False, Bool.false_eq_true, if_false] at h
    by_cases h2 : (decide (t.QMMMOpts.Nbeads > 1) && !t.ENEBSim && !t.NEBSim) = true
    · simp only [h2, if_true] at h
      by_cases h3 : t.Ncpus = 0
      · simp [h3] at h
      · simp only [h3, decide_False, Bool.false_eq_true, if_false, Res.ok.injEq] at h
        subst h
        refine ⟨rfl, rfl, rfl, ?_, fun _ _ _ => ⟨h3, rfl⟩⟩
        simp only []
        omega
    · simp only [h2, Bool.false_eq_true, if_false, Res.ok.injEq] at h
      subst h
      refine ⟨rfl, rfl, rfl, ?_, fun hb he hn => ?_⟩
      · simp only []
        omega
      · simp [hb, he, hn] at h2

/-- C14, amended.  For a multi-replica run (`Nbeads > 1`, neither NEB nor ensemble
NEB, no Gaussian external call) `ReadLICHEMInput` sets `Nthreads` to the total
processor count divided by `Ncpus`, the CPUs of one QM calculation, rounded down;
`Ncpus` is first lowered to the total processor count when it exceeds it, and the
number of beads plays no part. -/
theorem ReadLICHEMInput_threads (env : Env) (s s' : St)
    (hrun : ReadLICHEMInput env s = .ok s')
    (hg : s.GauExternal = false)
    (hbeads : 1 < s'.QMMMOpts.Nbeads)
    (heneb : s'.ENEBSim = false) (hneb : s'.NEBSim = false) :
    s'.Ncpus = min s.Ncpus env.FindMaxThreads ∧ s'.Ncpus ≠ 0 ∧
    s'.Nthreads = Int.floor ((env.FindMaxThreads : ℚ) / (s'.Ncpus : ℚ)) := by
  obtain ⟨t, h1, h2⟩ := ReadLICHEMInput_split hrun
  obtain ⟨htg, htc⟩ := readInputs_cpusAre s.GauExternal s.Ncpus env s t h1 ⟨rfl, rfl⟩
  obtain ⟨hb, he, hn, hc, hthr⟩ := setThreads_multi env t s' h2 (htg.trans hg)
  rw [htc] at hc
  have := hthr (hb ▸ hbeads) (he ▸ heneb) (hn ▸ hneb)
  exact ⟨hc, this.1, this.2⟩

/-- Witness for C14: the path-integral run with three beads, eight processors and
two CPUs for each QM calculation gets four threads. -/
theorem ReadLICHEMInput_threads_witness :
    startPIMC3.GauExternal = false ∧
    ((ReadLICHEMInput (sampleEnv none) startPIMC3).get startPIMC3).Ncpus = 2 ∧
    ((ReadLICHEMInput (sampleEnv none) startPIMC3).get startPIMC3).Nthreads =
      Int.floor (((sampleEnv none).FindMaxThreads : ℚ) /
        (((ReadLICHEMInput (sampleEnv none) startPIMC3).get startPIMC3).Ncpus : ℚ)) :=
  have h := ReadLICHEMInput_threads (sampleEnv none) startPIMC3 _
    (Res.eq_ok_get _ startPIMC3 (by decide!)) rfl (by decide!) (by decide!) (by decide!)
  ⟨rfl, by decide!, h.2.2⟩

/-! ## C15: replicas are copies of the zeroth replica -/

/-- A rewriting of one atom keeps what holds for every atom. -/
theorem Keeps.modAtom_all {p : QMMMAtom → Prop} {i : Int} {f : QMMMAtom → Option QMMMAtom}
    (hf : ∀ a a', f a = some a' → p a → p a') :
    Keeps (fun s => ∀ a ∈ s.Struct, p a) (modAtom i f) := by
  intro s s' h hs
  obtain ⟨a, a', _, ha, hfa, rfl⟩ := modAtom_spec h
  intro b hb
  rcases List.mem_or_eq_of_mem_set hb with hb | hb
  · exact hs b hb
  · subst hb
    exact hf a b hfa (hs a (List.mem_iff_getElem?.2 ⟨_, ha⟩))

/-- The same, for what holds for every atom unless the path-integral block ran. -/
theorem Keeps.modAtom_unless {p : QMMMAtom → Prop} {i : Int}
    {f : QMMMAtom → Option QMMMAtom} (hf : ∀ a a', f a = some a' → p a → p a') :
    Keeps (fun s => s.PIMCSim = false → ∀ a ∈ s.Struct, p a) (modAtom i f) := by
  intro s s' h hs hP
  obtain ⟨a, a', _, ha, hfa, rfl⟩ := modAtom_spec h
  intro b hb
  rcases List.mem_or_eq_of_mem_set hb with hb | hb
  · exact hs hP b hb
  · subst hb
    exact hf a b hfa (hs hP a (List.mem_iff_getElem?.2 ⟨_, ha⟩))

theorem uniform_append_head {α : Type} (l : List α) (x : α) (hx : l.head? = some x)
    (h : ∀ y ∈ l, some y = l.head?) : ∀ y ∈ l ++ [x], some y = (l ++ [x]).head? := by
  cases l with
  | nil => simp at hx
  | cons z zs =>
    simp only [List.head?_cons, Option.some.injEq] at hx
    subst hx
    intro y hy
    simp only [List.cons_append, List.head?_cons, Option.some.injEq]
    simp only [List.mem_append, List.mem_singleton] at hy
    rcases hy with hy | hy
    · simpa using h y hy
    · exact hy

theorem elec_copyBead (a a' : QMMMAtom)
    (h : (match a.P, a.MP, a.PC with
      | p0 :: _, mp0 :: _, pc0 :: _ =>
        some { a with P := a.P ++ [p0], MP := a.MP ++ [mp0], PC := a.PC ++ [pc0] }
      | _, _, _ => none) = some a') (ha : elecUniform a) : elecUniform a' := by
  split at h
  · rename_i p0 _ mp0 _ pc0 _ hP hMP hPC
    simp only [Option.some.injEq] at h
    subst h
    exact ⟨uniform_append_head _ _ (by simp [hMP]) ha.1,
      uniform_append_head _ _ (by simp [hPC]) ha.2⟩
  · simp at h

theorem pos_copyBead (a a' : QMMMAtom)
    (h : (match a.P, a.MP, a.PC with
      | p0 :: _, mp0 :: _, pc0 :: _ =>
        some { a with P := a.P ++ [p0], MP := a.MP ++ [mp0], PC := a.PC ++ [pc0] }
      | _, _, _ => none) = some a') (ha : posUniform a) : posUniform a' := by
  split at h
  · rename_i p0 _ mp0 _ pc0 _ hP hMP hPC
    simp only [Option.some.injEq] at h
    subst h
    exact uniform_append_head _ _ (by simp [hP]) ha
  · simp at h

theorem pimcBead_elecCopied (env : Env) (i j : Nat) : Keeps ElecCopied (pimcBead env i j) := by
  intro s s' h hs
  unfold pimcBead at h
  refine Keeps.modAtom_all ?_ _ s' h hs
  intro a a' hfa ha
  split at hfa
  · rename_i p0 _ mp0 _ pc0 _ hP hMP hPC
    simp only [Option.some.injEq] at hfa
    subst hfa
    exact ⟨uniform_append_head _ _ (by simp [hMP]) ha.1,
      uniform_append_head _ _ (by simp [hPC]) ha.2⟩
  · simp at hfa

theorem elec_freezeBead (j : Nat) (a a' : QMMMAtom) (h : freezeBead j a = some a')
    (ha : elecUniform a) : elecUniform a' := by
  unfold freezeBead at h
  split at h
  · simp only [Option.some.injEq] at h
    subst h
    exact ha
  · simp at h

theorem elec_setCoord (j : Nat) (upd : Coord → Coord) (a a' : QMMMAtom)
    (h : setCoord j upd a = some a') (ha : elecUniform a) : elecUniform a' := by
  unfold setCoord at h
  split at h
  · simp only [Option.some.injEq] at h
    subst h
    exact ha
  · simp at h

theorem elec_frozen (a a' : QMMMAtom) (h : some { a with Frozen := true } = some a')
    (ha : elecUniform a) : elecUniform a' := by
  simp only [Option.some.injEq] at h
  subst h
  exact ha

theorem coreOnly_elecCopied : CoreOnly ElecCopied := by
  intro s t h hs a ha
  have h1 : t.Struct.map reps = s.Struct.map reps := congrArg Prod.fst h
  have : reps a ∈ s.Struct.map reps := h1 ▸ List.mem_map_of_mem _ ha
  obtain ⟨b, hb, hbe⟩ := List.mem_map.1 this
  have := hs b hb
  simp only [reps, Prod.mk.injEq] at hbe
  simp only [elecUniform] at this ⊢
  rw [← hbe.2.1, ← hbe.2.2]
  exact this

theorem coreOnly_posCopied : CoreOnly PosCopied := by
  intro s t h hs hP a ha
  have h1 : t.Struct.map reps = s.Struct.map reps := congrArg Prod.fst h
  have hP' : s.PIMCSim = false := by
    obtain ⟨_, _, h3, _⟩ := shape_rest_eq (congrArg Prod.snd (shape_of_core h))
    rw [← h3]
    exact hP
  have : reps a ∈ s.Struct.map reps := h1 ▸ List.mem_map_of_mem _ ha
  obtain ⟨b, hb, hbe⟩ := List.mem_map.1 this
  have := hs hP' b hb
  simp only [reps, Prod.mk.injEq] at hbe
  simp only [posUniform] at this ⊢
  rw [← hbe.1]
  exact this

theorem pimcBlock_elecCopied (env : Env) : Keeps ElecCopied (pimcBlock env) := by
  unfold pimcBlock
  repeat' first
    | exact Keeps.skip _
    | exact Keeps.exitS _ _
    | exact Keeps.undefS _
    | exact Keeps.rdWord (fun _ _ h => h) (fun _ _ h => h)
    | exact Keeps.rdReal (fun _ _ h => h) (fun _ _ h => h)
    | exact Keeps.rdInt (fun _ _ h => h) (fun _ _ h => h)
    | exact Keeps.guarded (Keeps.assign fun _ h => h)
    | exact Keeps.assign fun _ h => h
    | exact pimcBead_elecCopied _ _ _
    | exact Keeps.modAtom_all elec_copyBead
    | exact Keeps.modAtom_all (elec_freezeBead _)
    | exact Keeps.modAtom_all (elec_setCoord _ _)
    | exact Keeps.modAtom_all elec_frozen
    | apply Keeps.andThen
    | apply Keeps.guarded
    | apply Keeps.ifS
    | apply Keeps.forLoop
    | apply Keeps.readingS
    | apply Keeps.rdIntThen
    | apply Keeps.rdRealThen
    | (intros; assumption)
    | intro _

theorem nebBlock_elecCopied  : Keeps ElecCopied (nebBlock) := by
  unfold nebBlock duplicateData copyBead
  repeat' first
    | exact Keeps.skip _
    | exact Keeps.exitS _ _
    | exact Keeps.undefS _
    | exact Keeps.rdWord (fun _ _ h => h) (fun _ _ h => h)
    | exact Keeps.rdReal (fun _ _ h => h) (fun _ _ h => h)
    | exact Keeps.rdInt (fun _ _ h => h) (fun _ _ h => h)
    | exact Keeps.guarded (Keeps.assign fun _ h => h)
    | exact Keeps.assign fun _ h => h
    | exact pimcBead_elecCopied _ _ _
    | exact Keeps.modAtom_all elec_copyBead
    | exact Keeps.modAtom_all (elec_freezeBead _)
    | exact Keeps.modAtom_all (elec_setCoord _ _)
    | exact Keeps.modAtom_all elec_frozen
    | apply Keeps.andThen
    | apply Keeps.guarded
    | apply Keeps.ifS
    | apply Keeps.forLoop
    | apply Keeps.readingS
    | apply Keeps.rdIntThen
    | apply Keeps.rdRealThen
    | (intros; assumption)
    | intro _

theorem enebBlock_elecCopied  : Keeps ElecCopied (enebBlock) := by
  unfold enebBlock enebOddCheck duplicateData copyBead
  repeat' first
    | exact Keeps.skip _
    | exact Keeps.exitS _ _
    | exact Keeps.undefS _
    | exact Keeps.rdWord (fun _ _ h => h) (fun _ _ h => h)
    | exact Keeps.rdReal (fun _ _ h => h) (fun _ _ h => h)
    | exact Keeps.rdInt (fun _ _ h => h) (fun _ _ h => h)
    | exact Keeps.guarded (Keeps.assign fun _ h => h)
    | exact Keeps.assign fun _ h => h
    | exact pimcBead_elecCopied _ _ _
    | exact Keeps.modAtom_all elec_copyBead
    | exact Keeps.modAtom_all (elec_freezeBead _)
    | exact Keeps.modAtom_all (elec_setCoord _ _)
    | exact Keeps.modAtom_all elec_frozen
    | apply Keeps.andThen
    | apply Keeps.guarded
    | apply Keeps.ifS
    | apply Keeps.forLoop
    | apply Keeps.readingS
    | apply Keeps.rdIntThen
    | apply Keeps.rdRealThen
    | (intros; assumption)
    | intro _

theorem readFrozen_elecCopied (env : Env) : Keeps ElecCopied (readFrozen env) := by
  unfold readFrozen freezeAtom
  repeat' first
    | exact Keeps.skip _
    | exact Keeps.exitS _ _
    | exact Keeps.undefS _
    | exact Keeps.rdWord (fun _ _ h => h) (fun _ _ h => h)
    | exact Keeps.rdReal (fun _ _ h => h) (fun _ _ h => h)
    | exact Keeps.rdInt (fun _ _ h => h) (fun _ _ h => h)
    | exact Keeps.guarded (Keeps.assign fun _ h => h)
    | exact Keeps.assign fun _ h => h
    | exact pimcBead_elecCopied _ _ _
    | exact Keeps.modAtom_all elec_copyBead
    | exact Keeps.modAtom_all (elec_freezeBead _)
    | exact Keeps.modAtom_all (elec_setCoord _ _)
    | exact Keeps.modAtom_all elec_frozen
    | apply Keeps.andThen
    | apply Keeps.guarded
    | apply Keeps.ifS
    | apply Keeps.forLoop
    | apply Keeps.readingS
    | apply Keeps.rdIntThen
    | apply Keeps.rdRealThen
    | (intros; assumption)
    | intro _

theorem readRestartFile_elecCopied (file : IStream) : Keeps ElecCopied (readRestartFile file) := by
  unfold readRestartFile restartBead
  repeat' first
    | exact Keeps.skip _
    | exact Keeps.exitS _ _
    | exact Keeps.undefS _
    | exact Keeps.rdWord (fun _ _ h => h) (fun _ _ h => h)
    | exact Keeps.rdReal (fun _ _ h => h) (fun _ _ h => h)
    | exact Keeps.rdInt (fun _ _ h => h) (fun _ _ h => h)
    | exact Keeps.guarded (Keeps.assign fun _ h => h)
    | exact Keeps.assign fun _ h => h
    | exact pimcBead_elecCopied _ _ _
    | exact Keeps.modAtom_all elec_copyBead
    | exact Keeps.modAtom_all (elec_freezeBead _)
    | exact Keeps.modAtom_all (elec_setCoord _ _)
    | exact Keeps.modAtom_all elec_frozen
    | apply Keeps.andThen
    | apply Keeps.guarded
    | apply Keeps.ifS
    | apply Keeps.forLoop
    | apply Keeps.readingS
    | apply Keeps.rdIntThen
    | apply Keeps.rdRealThen
    | (intros; assumption)
    | intro _

theorem setThreads_elecCopied (env : Env) : Keeps ElecCopied (setThreads env) := by
  unfold setThreads
  repeat' first
    | exact Keeps.skip _
    | exact Keeps.exitS _ _
    | exact Keeps.undefS _
    | exact Keeps.rdWord (fun _ _ h => h) (fun _ _ h => h)
    | exact Keeps.rdReal (fun _ _ h => h) (fun _ _ h => h)
    | exact Keeps.rdInt (fun _ _ h => h) (fun _ _ h => h)
    | exact Keeps.guarded (Keeps.assign fun _ h => h)
    | exact Keeps.assign fun _ h => h
    | exact pimcBead_elecCopied _ _ _
    | exact Keeps.modAtom_all elec_copyBead
    | exact Keeps.modAtom_all (elec_freezeBead _)
    | exact Keeps.modAtom_all (elec_setCoord _ _)
    | exact Keeps.modAtom_all elec_frozen
    | apply Keeps.andThen
    | apply Keeps.guarded
    | apply Keeps.ifS
    | apply Keeps.forLoop
    | apply Keeps.readingS
    | apply Keeps.rdIntThen
    | apply Keeps.rdRealThen
    | (intros; assumption)
    | intro _

theorem nebBlock_posCopied : Keeps PosCopied nebBlock := by
  unfold nebBlock duplicateData copyBead
  repeat' first
    | exact Keeps.skip _
    | exact Keeps.exitS _ _
    | exact Keeps.undefS _
    | exact Keeps.rdWord (fun _ _ h => h) (fun _ _ h => h)
    | exact Keeps.rdReal (fun _ _ h => h) (fun _ _ h => h)
    | exact Keeps.rdInt (fun _ _ h => h) (fun _ _ h => h)
    | exact Keeps.guarded (Keeps.assign fun _ h => h)
    | exact Keeps.assign fun _ h => h
    | exact Keeps.modAtom_unless pos_copyBead
    | apply Keeps.andThen
    | apply Keeps.guarded
    | apply Keeps.ifS
    | apply Keeps.forLoop
    | apply Keeps.readingS
    | apply Keeps.rdIntThen
    | apply Keeps.rdRealThen
    | (intros; assumption)
    | intro _

theorem enebBlock_posCopied : Keeps PosCopied enebBlock := by
  unfold enebBlock enebOddCheck duplicateData copyBead
  repeat' first
    | exact Keeps.skip _
    | exact Keeps.exitS _ _
    | exact Keeps.undefS _
    | exact Keeps.rdWord (fun _ _ h => h) (fun _ _ h => h)
    | exact Keeps.rdReal (fun _ _ h => h) (fun _ _ h => h)
    | exact Keeps.rdInt (fun _ _ h => h) (fun _ _ h => h)
    | exact Keeps.guarded (Keeps.assign fun _ h => h)
    | exact Keeps.assign fun _ h => h
    | exact Keeps.modAtom_unless pos_copyBead
    | apply Keeps.andThen
    | apply Keeps.guarded
    | apply Keeps.ifS
    | apply Keeps.forLoop
    | apply Keeps.readingS
    | apply Keeps.rdIntThen
    | apply Keeps.rdRealThen
    | (intros; assumption)
    | intro _

theorem pimcBead_flag (env : Env) (i j : Nat) :
    Keeps (fun s => s.PIMCSim = true) (pimcBead env i j) := by
  intro s s' h hs
  unfold pimcBead at h
  obtain ⟨a, a', _, _, _, rfl⟩ := modAtom_spec h
  exact hs

/-- Lines 536-591: once the PIMC block runs, `PIMCSim` is set when it ends. -/
theorem pimcBlock_posCopied (env : Env) : Keeps PosCopied (pimcBlock env) := by
  unfold pimcBlock
  refine Triple.whenS ?_ fun _ h => h
  refine Triple.post ?_ fun s (h : s.PIMCSim = true) hP => by
    rw [h] at hP
    cases hP
  refine Triple.cons (fun s => s.PIMCSim = true) (Triple.assigned fun _ _ => rfl) ?_
  repeat' first
    | exact Keeps.skip _
    | exact Keeps.rdWord (fun _ _ h => h) (fun _ _ h => h)
    | exact Keeps.rdReal (fun _ _ h => h) (fun _ _ h => h)
    | exact Keeps.rdInt (fun _ _ h => h) (fun _ _ h => h)
    | exact Keeps.guarded (Keeps.assign fun _ h => h)
    | exact Keeps.assign fun _ h => h
    | exact Keeps.forLoop fun i => Keeps.forLoop fun j => pimcBead_flag _ _ _
    | apply Keeps.andThen

theorem readRestart_elecCopied (env : Env) : Keeps ElecCopied (readRestart env) := by
  unfold readRestart noRestartFile
  split
  · exact Keeps.ifS (readRestartFile_elecCopied _) (Keeps.guarded (Keeps.exitS _ _))
  · exact Keeps.guarded (Keeps.exitS _ _)

theorem uniform_of_length_one {α : Type} (l : List α) (h : l.length = 1) :
    ∀ y ∈ l, some y = l.head? := by
  match l, h with
  | [x], _ =>
    intro y hy
    simp only [List.mem_singleton] at hy
    simp [hy]

/-- Before the calculation type is read every atom has one replica, so that
every replica is the zeroth one. -/
theorem Counted0.copied {s : St} (h : Counted0 s) : ElecCopied s ∧ PosCopied s := by
  obtain ⟨⟨_, n, hn, h1, _⟩, hmode⟩ := h
  have hn1 := (h1 hmode).1
  subst hn1
  have hl : ∀ a ∈ s.Struct, lens a = (1, 1, 1) := fun a ha =>
    hn (lens a) (List.mem_map_of_mem _ ha)
  constructor
  · intro a ha
    have := hl a ha
    simp only [lens, Prod.mk.injEq] at this
    exact ⟨uniform_of_length_one _ this.2.1, uniform_of_length_one _ this.2.2⟩
  · intro _ a ha
    have := hl a ha
    simp only [lens, Prod.mk.injEq] at this
    exact uniform_of_length_one _ this.1

/-- The run up to the potential type leaves one replica for every atom. -/
theorem readPotential_counted0 (env : Env) :
    Triple FreshEntry
      (seqS [declDummy, readXYZ env, readConnectivity env, readPotential env])
      Counted0 := by
  refine Triple.cons FreshEntry (Keeps.assign fun _ h => h) ?_
  refine Triple.cons Counted0 (readXYZ_counted env) ?_
  refine Triple.cons Counted0 ((readConnectivity_sameShape env).keeps shapeOnly_counted0) ?_
  refine Triple.cons Counted0 ((readPotential_sameShape env).keeps shapeOnly_counted0) ?_
  exact Triple.nil fun _ h => h

theorem readCalcType_elecCopied (env : Env) : Keeps ElecCopied (readCalcType env) := by
  unfold readCalcType
  refine Keeps.andThen (Keeps.rdDummy coreOnly_elecCopied) ?_
  refine Keeps.andThen (Keeps.rdDummy coreOnly_elecCopied) ?_
  refine Keeps.andThen (pimcBlock_elecCopied env) ?_
  refine Keeps.andThen (optBlock_same.keepsCore coreOnly_elecCopied) ?_
  refine Keeps.andThen (steepBlock_same.keepsCore coreOnly_elecCopied) ?_
  refine Keeps.andThen (quickBlock_same.keepsCore coreOnly_elecCopied) ?_
  refine Keeps.andThen (dfpBlock_same.keepsCore coreOnly_elecCopied) ?_
  refine Keeps.andThen nebBlock_elecCopied ?_
  refine Keeps.andThen (esdBlock_same.keepsCore coreOnly_elecCopied) ?_
  refine Keeps.andThen enebBlock_elecCopied ?_
  refine Keeps.andThen (spBlock_same.keepsCore coreOnly_elecCopied) ?_
  exact Keeps.skip _

theorem readCalcType_posCopied (env : Env) : Keeps PosCopied (readCalcType env) := by
  unfold readCalcType
  refine Keeps.andThen (Keeps.rdDummy coreOnly_posCopied) ?_
  refine Keeps.andThen (Keeps.rdDummy coreOnly_posCopied) ?_
  refine Keeps.andThen (pimcBlock_posCopied env) ?_
  refine Keeps.andThen (optBlock_same.keepsCore coreOnly_posCopied) ?_
  refine Keeps.andThen (steepBlock_same.keepsCore coreOnly_posCopied) ?_
  refine Keeps.andThen (quickBlock_same.keepsCore coreOnly_posCopied) ?_
  refine Keeps.andThen (dfpBlock_same.keepsCore coreOnly_posCopied) ?_
  refine Keeps.andThen nebBlock_posCopied ?_
  refine Keeps.andThen (esdBlock_same.keepsCore coreOnly_posCopied) ?_
  refine Keeps.andThen enebBlock_posCopied ?_
  refine Keeps.andThen (spBlock_same.keepsCore coreOnly_posCopied) ?_
  exact Keeps.skip _

theorem seqS_append (fs gs : List Step) (s : St) :
    seqS (fs ++ gs) s = (seqS fs s).bind (seqS gs) := by
  induction fs generalizing s with
  | nil => rfl
  | cons f fs ih =>
    simp only [List.cons_append, seqS]
    cases f s with
    | ok t => simpa [Res.bind] using ih t
    | exit m => rfl
    | undefined => rfl

/-- After the calculation type of a normal run every replica carries the
electrostatic data of the zeroth one, and its position unless the path-integral
block ran. -/
theorem readToCalcType_copied (env : Env) :
    Triple FreshEntry (readToCalcType env) (fun s => ElecCopied s ∧ PosCopied s) := by
  intro s s' h hs
  have hsplit : readToCalcType env =
      seqS ([declDummy, readXYZ env, readConnectivity env, readPotential env] ++
        [readCalcType env]) := rfl
  rw [hsplit, seqS_append, Res.bind_eq_ok] at h
  obtain ⟨t, h1, h2⟩ := h
  have ht := (readPotential_counted0 env s t h1 hs).copied
  simp only [seqS, Res.bind_eq_ok] at h2
  obtain ⟨u, h3, h4⟩ := h2
  simp only [Res.ok.injEq] at h4
  subst h4
  exact ⟨readCalcType_elecCopied env t u h3 ht.1, readCalcType_posCopied env t u h3 ht.2⟩

theorem readInputs_elecCopied (env : Env) : Triple FreshEntry (readInputs env) ElecCopied := by
  intro s s' h hs
  have hsplit : readInputs env =
      seqS ([declDummy, readXYZ env, readConnectivity env, readPotential env,
          readCalcType env] ++
        [readPBC, readRegions env, resetRegions, readFrozen env, readRestart env,
         findClasses env, readBackup env]) := rfl
  rw [hsplit, seqS_append, Res.bind_eq_ok] at h
  obtain ⟨t, h1, h2⟩ := h
  have ht := (readToCalcType_copied env s t h1 hs).1
  have hrest : Keeps ElecCopied (seqS [readPBC, readRegions env, resetRegions,
      readFrozen env, readRestart env, findClasses env, readBackup env]) := by
    refine Keeps.andThen (readPBC_same.keepsCore coreOnly_elecCopied) ?_
    refine Keeps.andThen ((readRegions_same env).keepsCore coreOnly_elecCopied) ?_
    refine Keeps.andThen (resetRegions_same.keepsCore coreOnly_elecCopied) ?_
    refine Keeps.andThen (readFrozen_elecCopied env) ?_
    refine Keeps.andThen (readRestart_elecCopied env) ?_
    refine Keeps.andThen ((findClasses_same env).keepsCore coreOnly_elecCopied) ?_
    refine Keeps.andThen ((readBackup_same env).keepsCore coreOnly_elecCopied) ?_
    exact Keeps.skip _
  exact hrest t s' h2 ht

theorem head?_eq_getElem?_zero {α : Type} (l : List α) : l.head? = l[0]? := by
  cases l <;> simp

/-- C15.  Replica creation copies the data of the zeroth replica.  In a normal
run (on entry `Struct` is empty, no replica mode is selected, `Nbeads` is 1), in
every mode: when `ReadLICHEMInput` returns, `MP[j] = MP[0]` and `PC[j] = PC[0]`
for every atom and every replica `j`; and right after the replicas are made, before
any restart file is read, also `P[j] = P[0]`, provided the path-integral block did
not run (it displaces its beads at random). -/
theorem ReadLICHEMInput_replicas_are_copies (env : Env) (s : St) (hentry : FreshEntry s) :
    (∀ s', ReadLICHEMInput env s = .ok s' →
      ∀ a ∈ s'.Struct, ∀ (j : Nat),
        (∀ x, a.MP[j]? = some x → a.MP[0]? = some x) ∧
        (∀ x, a.PC[j]? = some x → a.PC[0]? = some x)) ∧
    (∀ t, readToCalcType env s = .ok t → t.PIMCSim = false →
      ∀ a ∈ t.Struct, ∀ (j : Nat) (p : Coord), a.P[j]? = some p → a.P[0]? = some p) := by
  constructor
  · intro s' hrun a ha j
    obtain ⟨t, h1, h2⟩ := ReadLICHEMInput_split hrun
    have := setThreads_elecCopied env t s' h2 (readInputs_elecCopied env s t h1 hentry) a ha
    constructor
    · intro x hx
      rw [← head?_eq_getElem?_zero]
      exact (this.1 x (List.mem_iff_getElem?.2 ⟨j, hx⟩)).symm
    · intro x hx
      rw [← head?_eq_getElem?_zero]
      exact (this.2 x (List.mem_iff_getElem?.2 ⟨j, hx⟩)).symm
  · intro t ht hP a ha j p hp
    have := (readToCalcType_copied env s t ht hentry).2 hP a ha
    rw [← head?_eq_getElem?_zero]
    exact (this p (List.mem_iff_getElem?.2 ⟨j, hp⟩)).symm

/-- Witness for C15: the NEB run with two beads, whose restart file moves a
replica of atom 0. -/
theorem ReadLICHEMInput_replicas_are_copies_witness :
    FreshEntry startNEB2 ∧
    (ReadLICHEMInput (sampleEnv (some beadMoved)) startNEB2).returns = true ∧
    (∀ a ∈ ((ReadLICHEMInput (sampleEnv (some beadMoved)) startNEB2).get startNEB2).Struct,
      ∀ (j : Nat),
        (∀ x, a.MP[j]? = some x → a.MP[0]? = some x) ∧
        (∀ x, a.PC[j]? = some x → a.PC[0]? = some x)) ∧
    (∀ a ∈ ((readToCalcType (sampleEnv (some beadMoved)) startNEB2).get startNEB2).Struct,
      ∀ (j : Nat) (p : Coord), a.P[j]? = some p → a.P[0]? = some p) :=
  have h := ReadLICHEMInput_replicas_are_copies (sampleEnv (some beadMoved)) startNEB2
    ⟨rfl, rfl, ⟨rfl, rfl, rfl⟩, rfl⟩
  ⟨⟨rfl, rfl, ⟨rfl, rfl, rfl⟩, rfl⟩, by decide!,
   h.1 _ (Res.eq_ok_get _ startNEB2 (by decide!)),
   h.2 _ (Res.eq_ok_get _ startNEB2 (by decide!)) (by decide!)⟩

end LICHEM
